import Mathlib

/-!
# Spatial reasoning core of `scene.cpp`

Shallow embedding of the frustum culling test, the frustum plane extraction,
the region capture state machine, the mesh region filter and the volume
estimate of `src/android/jni/scene.cpp`.

Conventions of the embedding:

* `float` and `double` values are rationals (`ℚ`). The two tests that compare a
  computed `float` with a constant and branch on the outcome, `dp < 0` of the
  culling test and `distSq < 0.09f` of the closure test, are computed in
  binary32 arithmetic (`F32`): every operation is rounded to nearest, ties to
  even, and can overflow; no product and sum are fused. Elsewhere the
  arithmetic is exact. Where the code can leave the rationals by dividing by
  zero, the outcome has a type of its own: `Recovered` for the division by
  `point.w` of the pick, `Option Vec4` for the division by the length of a
  plane normal.
* The normalization of the frustum planes is embedded a second time over any
  field (`computeFrustumPlanesK`), to state its properties over the reals.
* `int` values are `Int`; container sizes are `Nat`.
* `std::vector` is `List`; `std::map<int, T>` is a list of key/value pairs kept
  in ascending key order.
* A function that can fail an assertion (`UASSERT`) or go on with a non-finite
  value returns an `Option`, `none` standing for that outcome.
* Library code that is not part of `scene.cpp` is a parameter
  (`cv::pointPolygonTest`, `std::sqrt`, the inverse projection-view matrix of
  a frame) or is modelled from the specification (poses, drawables).
-/

namespace SSMART

/-! ## Vectors -/

/-- A `cv::Point2f`: two float coordinates. -/
structure Vec2 where
  x : ℚ
  y : ℚ
deriving DecidableEq, Repr

/-- A `glm::vec3` or `pcl::PointXYZ`: three float coordinates. -/
structure Vec3 where
  x : ℚ
  y : ℚ
  z : ℚ
deriving DecidableEq, Repr

/-- A `glm::vec4`; a frustum plane is stored as `(a, b, c, d) = (x, y, z, w)`. -/
structure Vec4 where
  x : ℚ
  y : ℚ
  z : ℚ
  w : ℚ
deriving DecidableEq, Repr

/-! ## `float` arithmetic (IEEE 754 binary32) -/

/-- Rounding of a rational to the nearest integer, a tie going to the even
one. -/
def roundHalfEven (x : ℚ) : Int :=
  if x - ⌊x⌋ < 1/2 then ⌊x⌋
  else if 1/2 < x - ⌊x⌋ then ⌊x⌋ + 1
  else if ⌊x⌋ % 2 = 0 then ⌊x⌋ else ⌊x⌋ + 1

/-- The binary exponent of the `float` values next to `q`: the integer part of
`log2 |q|`, and `-126` for the subnormal range. -/
def f32Exponent (q : ℚ) : Int := max (Int.log 2 |q|) (-126)

/-- The distance between the `float` values next to `q`: 24 significant
bits. -/
def f32Ulp (q : ℚ) : ℚ := (2 : ℚ) ^ (f32Exponent q - 23)

/-- The value nearest to `q` on the grid of the `float` values, ties to even,
before the overflow test. -/
def f32Nearest (q : ℚ) : ℚ := (roundHalfEven (q / f32Ulp q) : ℚ) * f32Ulp q

/-- A `float`: a rational (one of the representable values when it is the
result of an operation), an infinity or NaN. The sign of a zero is left out: no
test of the program depends on it. -/
inductive F32 where
  | finite (q : ℚ)
  | posInf
  | negInf
  | nan
deriving DecidableEq, Repr

namespace F32

/-- The `float` that an operation with the exact result `q` returns: the
nearest representable value, an infinity when that value is `2^128` or more in
magnitude. -/
def round (q : ℚ) : F32 :=
  if (2 : ℚ) ^ 128 ≤ f32Nearest q then posInf
  else if f32Nearest q ≤ -(2 : ℚ) ^ 128 then negInf
  else finite (f32Nearest q)

/-- The sum `a + b` of two `float`s. -/
def add (a b : F32) : F32 :=
  match a, b with
  | finite x, finite y => round (x + y)
  | finite _, posInf => posInf
  | finite _, negInf => negInf
  | posInf, finite _ => posInf
  | posInf, posInf => posInf
  | negInf, finite _ => negInf
  | negInf, negInf => negInf
  | _, _ => nan

/-- The difference `a - b` of two `float`s. -/
def sub (a b : F32) : F32 :=
  match a, b with
  | finite x, finite y => round (x - y)
  | finite _, posInf => negInf
  | finite _, negInf => posInf
  | posInf, finite _ => posInf
  | posInf, negInf => posInf
  | negInf, finite _ => negInf
  | negInf, posInf => negInf
  | _, _ => nan

/-- The product `a * b` of two `float`s. -/
def mul (a b : F32) : F32 :=
  match a, b with
  | finite x, finite y => round (x * y)
  | finite x, posInf => if x = 0 then nan else if 0 < x then posInf else negInf
  | finite x, negInf => if x = 0 then nan else if 0 < x then negInf else posInf
  | posInf, finite y => if y = 0 then nan else if 0 < y then posInf else negInf
  | negInf, finite y => if y = 0 then nan else if 0 < y then negInf else posInf
  | posInf, posInf => posInf
  | negInf, negInf => posInf
  | posInf, negInf => negInf
  | negInf, posInf => negInf
  | _, _ => nan

/-- The comparison `a < b` of two `float`s: false when one of them is NaN. -/
def lt (a b : F32) : Bool :=
  match a, b with
  | finite x, finite y => decide (x < y)
  | finite _, posInf => true
  | negInf, finite _ => true
  | negInf, posInf => true
  | _, _ => false

end F32

/-! ## Frustum culling (`intersectFrustumAABB`, lines 355-388) -/

/-- The array `box[] = {&boxMin, &boxMax}` of `intersectFrustumAABB`, read at
index `i` (`0` or `1`). -/
def boxAt (boxMin boxMax : Vec3) (i : Nat) : Vec3 :=
  if i = 0 then boxMin else boxMax

/-- The index `p.c > 0.0f ? 1 : 0` of the positive vertex along one axis. -/
def pIndex (c : ℚ) : Nat :=
  if c > 0 then 1 else 0

/-- The dot product `dp` of `intersectFrustumAABB` for plane `p` (line 379),
a `float`: the three products and the three sums, from left to right, each
rounded. -/
def dp (p : Vec4) (boxMin boxMax : Vec3) : F32 :=
  let px := pIndex p.x
  let py := pIndex p.y
  let pz := pIndex p.z
  ((((F32.finite p.x).mul (F32.finite (boxAt boxMin boxMax px).x)).add
    ((F32.finite p.y).mul (F32.finite (boxAt boxMin boxMax py).y))).add
    ((F32.finite p.z).mul (F32.finite (boxAt boxMin boxMax pz).z))).add (F32.finite p.w)

/-- The loop of `intersectFrustumAABB`: `false` at the first plane for which
`dp < 0`, `true` when every plane has been passed. -/
def intersectFrustumAABB (planes : List Vec4) (boxMin boxMax : Vec3) : Bool :=
  match planes with
  | [] => true
  | p :: rest =>
    if (dp p boxMin boxMax).lt (F32.finite 0) then false
    else intersectFrustumAABB rest boxMin boxMax

/-- The exact value of the dot product of `intersectFrustumAABB` for plane
`p`, without rounding. -/
def pVertexDist (p : Vec4) (boxMin boxMax : Vec3) : ℚ :=
  let px := pIndex p.x
  let py := pIndex p.y
  let pz := pIndex p.z
  (p.x * (boxAt boxMin boxMax px).x) +
  (p.y * (boxAt boxMin boxMax py).y) +
  (p.z * (boxAt boxMin boxMax pz).z) + p.w

/-- Signed distance `a*q.x + b*q.y + c*q.z + d` of the point `q` to the plane
`p = (a, b, c, d)` (a metric distance when the normal has unit length). -/
def signedDist (p : Vec4) (q : Vec3) : ℚ :=
  p.x * q.x + p.y * q.y + p.z * q.z + p.w

/-- The point `q` lies in the axis-aligned box `[boxMin, boxMax]`. -/
def InBox (boxMin boxMax q : Vec3) : Prop :=
  boxMin.x ≤ q.x ∧ q.x ≤ boxMax.x ∧
  boxMin.y ≤ q.y ∧ q.y ≤ boxMax.y ∧
  boxMin.z ≤ q.z ∧ q.z ≤ boxMax.z

/-- The box is well formed: `boxMin ≤ boxMax` on each axis. -/
def BoxOrdered (boxMin boxMax : Vec3) : Prop :=
  boxMin.x ≤ boxMax.x ∧ boxMin.y ≤ boxMax.y ∧ boxMin.z ≤ boxMax.z

/-- The eight corners of the box. -/
def corners (boxMin boxMax : Vec3) : List Vec3 :=
  [ ⟨boxMin.x, boxMin.y, boxMin.z⟩, ⟨boxMax.x, boxMin.y, boxMin.z⟩,
    ⟨boxMin.x, boxMax.y, boxMin.z⟩, ⟨boxMax.x, boxMax.y, boxMin.z⟩,
    ⟨boxMin.x, boxMin.y, boxMax.z⟩, ⟨boxMax.x, boxMin.y, boxMax.z⟩,
    ⟨boxMin.x, boxMax.y, boxMax.z⟩, ⟨boxMax.x, boxMax.y, boxMax.z⟩ ]

/-- The positive vertex of the box for plane `p`: the `max` component where
the normal component is `> 0`, the `min` component otherwise. -/
def pVertex (p : Vec4) (boxMin boxMax : Vec3) : Vec3 :=
  ⟨if p.x > 0 then boxMax.x else boxMin.x,
   if p.y > 0 then boxMax.y else boxMin.y,
   if p.z > 0 then boxMax.z else boxMin.z⟩

/-- The computed `dp` is exact: it is the plane value at the positive vertex
of the box. -/
def DpExact (p : Vec4) (boxMin boxMax : Vec3) : Prop :=
  dp p boxMin boxMax = F32.finite (signedDist p (pVertex p boxMin boxMax))

/-- An integer of magnitude at most `2048`: the products and sums of `dp` over
such values are integers below `2^24`, which `float` holds without rounding. -/
def SmallInt (q : ℚ) : Prop :=
  ∃ n : Int, q = n ∧ -2048 ≤ n ∧ n ≤ 2048

/-- The four entries of the plane are integers of magnitude at most `2048`. -/
def SmallIntPlane (p : Vec4) : Prop :=
  SmallInt p.x ∧ SmallInt p.y ∧ SmallInt p.z ∧ SmallInt p.w

/-- The three coordinates of the point are integers of magnitude at most
`2048`. -/
def SmallIntPoint (q : Vec3) : Prop :=
  SmallInt q.x ∧ SmallInt q.y ∧ SmallInt q.z

/-! ## Poses, points and meshes -/

/-- Modelled from the spec: `rtabmap::Transform` (declared outside
`scene.cpp`), the "rigid transform" of the data model. It is the 3x4 matrix
`[R | t]` with rotation entries `r11 .. r33` and translation `o14, o24, o34`. -/
structure Transform where
  r11 : ℚ
  r12 : ℚ
  r13 : ℚ
  o14 : ℚ
  r21 : ℚ
  r22 : ℚ
  r23 : ℚ
  o24 : ℚ
  r31 : ℚ
  r32 : ℚ
  r33 : ℚ
  o34 : ℚ
deriving DecidableEq, Repr

namespace Transform

/-- Translation along x: `Transform::x()`. -/
def x (t : Transform) : ℚ := t.o14

/-- Translation along y: `Transform::y()`. -/
def y (t : Transform) : ℚ := t.o24

/-- Translation along z: `Transform::z()`. -/
def z (t : Transform) : ℚ := t.o34

/-- Modelled from the spec: `Transform::isNull()`, the "absent" pose: every
entry is zero (a rational is never NaN). -/
def isNull (t : Transform) : Bool :=
  decide (t.r11 = 0) && decide (t.r12 = 0) && decide (t.r13 = 0) && decide (t.o14 = 0) &&
  decide (t.r21 = 0) && decide (t.r22 = 0) && decide (t.r23 = 0) && decide (t.o24 = 0) &&
  decide (t.r31 = 0) && decide (t.r32 = 0) && decide (t.r33 = 0) && decide (t.o34 = 0)

/-- The identity pose: `Transform::getIdentity()`. -/
def getIdentity : Transform :=
  ⟨1, 0, 0, 0,
   0, 1, 0, 0,
   0, 0, 1, 0⟩

/-- The pose `Transform(x, y, z, 0, 0, 0)`: no rotation, translation
`(x, y, z)`. -/
def ofXYZ (x y z : ℚ) : Transform :=
  ⟨1, 0, 0, x,
   0, 1, 0, y,
   0, 0, 1, z⟩

/-- Modelled from the spec: `Transform::operator*`, the composition `a ∘ b` of
two rigid transforms (apply `b`, then `a`). -/
def mul (a b : Transform) : Transform :=
  ⟨a.r11 * b.r11 + a.r12 * b.r21 + a.r13 * b.r31,
   a.r11 * b.r12 + a.r12 * b.r22 + a.r13 * b.r32,
   a.r11 * b.r13 + a.r12 * b.r23 + a.r13 * b.r33,
   a.r11 * b.o14 + a.r12 * b.o24 + a.r13 * b.o34 + a.o14,
   a.r21 * b.r11 + a.r22 * b.r21 + a.r23 * b.r31,
   a.r21 * b.r12 + a.r22 * b.r22 + a.r23 * b.r32,
   a.r21 * b.r13 + a.r22 * b.r23 + a.r23 * b.r33,
   a.r21 * b.o14 + a.r22 * b.o24 + a.r23 * b.o34 + a.o24,
   a.r31 * b.r11 + a.r32 * b.r21 + a.r33 * b.r31,
   a.r31 * b.r12 + a.r32 * b.r22 + a.r33 * b.r32,
   a.r31 * b.r13 + a.r32 * b.r23 + a.r33 * b.r33,
   a.r31 * b.o14 + a.r32 * b.o24 + a.r33 * b.o34 + a.o34⟩

end Transform

/-- A `pcl::PointXYZRGB`: a coloured 3D point. -/
structure PointXYZRGB where
  x : ℚ
  y : ℚ
  z : ℚ
  rgba : Nat
deriving DecidableEq, Repr

/-- Modelled from the spec: `pcl::transformPoint(pt, t.toEigen3f())`, the
transform applied to the coordinates of a point; the colour is kept. -/
def transformPoint (pt : PointXYZRGB) (t : Transform) : PointXYZRGB :=
  { pt with
    x := t.r11 * pt.x + t.r12 * pt.y + t.r13 * pt.z + t.o14
    y := t.r21 * pt.x + t.r22 * pt.y + t.r23 * pt.z + t.o24
    z := t.r31 * pt.x + t.r32 * pt.y + t.r33 * pt.z + t.o34 }

/-- A `pcl::Vertices`: one face, the ordered vertex indices of a polygon. An
entry is the value the code reads into `int idx`. -/
structure Vertices where
  vertices : List Int
deriving DecidableEq, Repr

/-- The `rtabmap::Mesh` fields the core reads or writes: the vertex buffer
`cloud`, the faces `polygons` and the mesh-local pose. -/
structure Mesh where
  cloud : List PointXYZRGB
  polygons : List Vertices
  pose : Transform
deriving DecidableEq, Repr

/-- Modelled from the spec: `PointCloudDrawable` (declared outside
`scene.cpp`), the GeometryEntry of the data model without its id:
`{pose, visible, mesh : optional Mesh}`. -/
structure PointCloudDrawable where
  pose : Transform
  visible : Bool
  mesh : Option Mesh
deriving DecidableEq, Repr

namespace PointCloudDrawable

/-- Modelled from the spec: `hasMesh()`, whether the optional mesh is present. -/
def hasMesh (d : PointCloudDrawable) : Bool := d.mesh.isSome

/-- Modelled from the spec: `updateMesh(mesh)`, a mesh update in place. -/
def updateMesh (d : PointCloudDrawable) (mesh : Mesh) : PointCloudDrawable :=
  { d with mesh := some mesh }

/-- Modelled from the spec: `setPose(pose)`. -/
def setPose (d : PointCloudDrawable) (pose : Transform) : PointCloudDrawable :=
  { d with pose := pose }

/-- Modelled from the spec: the constructor `PointCloudDrawable(mesh, ...)`, a
visible entry that owns `mesh`; its pose is set by the caller. -/
def ofMesh (mesh : Mesh) : PointCloudDrawable :=
  { pose := Transform.getIdentity, visible := true, mesh := some mesh }

end PointCloudDrawable

/-- Modelled from the spec: `tango_gl::Axis`, the marker drawn for a region
point; `pose` is the pose whose position and rotation `setMarkerPose` gave to
the marker. -/
structure Axis where
  scale : Vec3
  lineWidth : ℚ
  pose : Transform
deriving DecidableEq, Repr

/-- The marker built by `new tango_gl::Axis()`. -/
def Axis.new : Axis :=
  { scale := ⟨1, 1, 1⟩, lineWidth := 1, pose := Transform.getIdentity }

/-! ## `std::map<int, T>` -/

/-- A `std::map<int, T>`: key/value pairs, in ascending key order. -/
abbrev StdMap (α : Type) := List (Int × α)

/-- The value at key `id`: `m.find(id)`, `none` for `m.end()`. -/
def mapFind {α : Type} (m : StdMap α) (id : Int) : Option α :=
  match m with
  | [] => none
  | (k, v) :: rest => if k = id then some v else mapFind rest id

/-- The map without key `id`: `m.erase(m.find(id))`. -/
def mapErase {α : Type} (m : StdMap α) (id : Int) : StdMap α :=
  match m with
  | [] => []
  | (k, v) :: rest => if k = id then rest else (k, v) :: mapErase rest id

/-- The map after `m.insert(std::make_pair(id, v))`: the pair is placed at its
position in key order; an existing key keeps its value. -/
def mapInsert {α : Type} (m : StdMap α) (id : Int) (v : α) : StdMap α :=
  match m with
  | [] => [(id, v)]
  | (k, w) :: rest =>
    if id < k then (id, v) :: (k, w) :: rest
    else if id = k then (k, w) :: rest
    else (k, w) :: mapInsert rest id v

/-- The map after `m[id] = v`: the value is replaced, or the key is created. -/
def mapSet {α : Type} (m : StdMap α) (id : Int) (v : α) : StdMap α :=
  match m with
  | [] => [(id, v)]
  | (k, w) :: rest =>
    if id < k then (id, v) :: (k, w) :: rest
    else if id = k then (k, v) :: rest
    else (k, w) :: mapSet rest id v

/-- The map after the value found at `id` is changed in place through the
iterator `m.find(id)`. -/
def mapModify {α : Type} (m : StdMap α) (id : Int) (f : α → α) : StdMap α :=
  match m with
  | [] => []
  | (k, v) :: rest => if k = id then (k, f v) :: rest else (k, v) :: mapModify rest id f

/-- The keys of the map, in iteration order. -/
def mapKeys {α : Type} (m : StdMap α) : List Int := m.map Prod.fst

/-! ## The scene state -/

/-- The camera types of `tango_gl::GestureCamera`. -/
inductive CameraType where
  | kFirstPerson
  | kThirdPersonFollow
  | kTopDown
  | kTopOrtho
  | kThirdPerson
deriving DecidableEq, Repr

/-- The part of the process state that the methods of one `Scene` object read
or write: the members of the object that the core uses, the anchor offset and
camera type of its `gesture_camera_`, and two variables that are not members:
the function-local `static int markerId` of `Render` (line 578) and the
file-scope `totalVolume`. There is one `markerId` per process: every `Scene`
object reads and steps the same counter, and no constructor resets it. The
field holds its current value. -/
structure Scene where
  pointClouds_ : StdMap PointCloudDrawable
  markers_ : StdMap Axis
  markerOrder_ : List Int
  markerPoses_ : List Transform
  originalMeshes_ : StdMap Mesh
  polygonClosed_ : Bool
  doubleTapOn_ : Bool
  croppingOn_ : Bool
  doubleTapPos_ : Vec2
  mapRendering_ : Bool
  cameraType : CameraType
  anchorOffset : Vec3
  markerId : Int
  totalVolume : ℚ
deriving DecidableEq, Repr

/-- The state built by the constructor `Scene::Scene()` (lines 74-115) in a
process in which no pick has been appended yet: `markerId = 1` and
`totalVolume = 0.0` as initialised at their declarations. The tap position and
the anchor offset, which the constructor does not set, start at zero. -/
def Scene.init : Scene :=
  { pointClouds_ := []
    markers_ := []
    markerOrder_ := []
    markerPoses_ := []
    originalMeshes_ := []
    polygonClosed_ := false
    doubleTapOn_ := false
    croppingOn_ := false
    doubleTapPos_ := ⟨0, 0⟩
    mapRendering_ := true
    cameraType := CameraType.kThirdPersonFollow
    anchorOffset := ⟨0, 0, 0⟩
    markerId := 1
    totalVolume := 0 }

/-- The state built by the constructor `Scene::Scene()` in a process whose
pick counter holds `counter`: the constructor does not touch the static
`markerId`, which earlier scenes of the process may have stepped. -/
def Scene.initAt (counter : Int) : Scene :=
  { Scene.init with markerId := counter }

/-- What a cropping pick appended by another `Scene` object of the process
does to the state of this one: `markerId++` on the shared counter (line 580). -/
def otherScenePick (s : Scene) : Scene :=
  { s with markerId := s.markerId + 1 }

/-! ## Region capture (`addMarker`, `addMarker2`, the cropping pick) -/

/-- `Scene::setMarkerPose` (lines 958-970). `UASSERT(!pose.isNull())` fails
for a null pose (`none`); otherwise the marker found at `id`, if any, takes the
pose. -/
def setMarkerPose (s : Scene) (id : Int) (pose : Transform) : Option Scene :=
  if pose.isNull then none
  else
    match mapFind s.markers_ id with
    | some _ => some { s with markers_ := mapModify s.markers_ id (fun a => { a with pose := pose }) }
    | none => some s

/-- The first lines shared by `addMarker` and `addMarker2`: a marker already
stored at `id` is deleted and erased. -/
def eraseMarker (s : Scene) (id : Int) : Scene :=
  match mapFind s.markers_ id with
  | some _ => { s with markers_ := mapErase s.markers_ id }
  | none => s

/-- `Scene::addMarker` (lines 899-923): replaces the marker at `id`, sets its
pose and records `id` and `pose` at the end of `markerOrder_` and
`markerPoses_`. -/
def addMarker (s : Scene) (id : Int) (pose : Transform) : Option Scene :=
  let s1 := eraseMarker s id
  let drawable : Axis := { Axis.new with scale := ⟨1/20, 1/20, 1/20⟩, lineWidth := 5 }
  let s2 := { s1 with markers_ := mapInsert s1.markers_ id drawable }
  match setMarkerPose s2 id pose with
  | none => none
  | some s3 =>
    some { s3 with
      markerOrder_ := s3.markerOrder_ ++ [id]
      markerPoses_ := s3.markerPoses_ ++ [pose] }

/-- `Scene::addMarker2` (lines 925-956): as `addMarker`, behind the guard
that ignores the call when the polygon is already closed. -/
def addMarker2 (s : Scene) (id : Int) (pose : Transform) : Option Scene :=
  if s.polygonClosed_ then some s
  else
    let s1 := eraseMarker s id
    let drawable : Axis := { Axis.new with scale := ⟨0, 1/5, 0⟩, lineWidth := 10 }
    let s2 := { s1 with markers_ := mapInsert s1.markers_ id drawable }
    match setMarkerPose s2 id pose with
    | none => none
    | some s3 =>
      some { s3 with
        markerOrder_ := s3.markerOrder_ ++ [id]
        markerPoses_ := s3.markerPoses_ ++ [pose] }

/-- The `float distSq` of lines 563-565, the squared distance between the
first captured point and the picked point: three differences, their squares
and two sums, each rounded to `float`, the sums taken from left to right. -/
def distSq (front : Transform) (point : Vec3) : F32 :=
  ((((F32.finite front.x).sub (F32.finite point.x)).mul
      ((F32.finite front.x).sub (F32.finite point.x))).add
    (((F32.finite front.y).sub (F32.finite point.y)).mul
      ((F32.finite front.y).sub (F32.finite point.y)))).add
    (((F32.finite front.z).sub (F32.finite point.z)).mul
      ((F32.finite front.z).sub (F32.finite point.z)))

/-- The literal `0.09f` of line 567: the `float` nearest to `9/100`. -/
def closeThreshold : F32 := F32.round (9/100)

/-- The closure test of lines 561-567: at least 3 points are captured and the
computed `distSq` is less than `0.09f`. -/
def closesPolygon (s : Scene) (point : Vec3) : Bool :=
  decide (s.markerPoses_.length ≥ 3) &&
  match s.markerPoses_ with
  | front :: _ => (distSq front point).lt closeThreshold
  | [] => false

/-- The cropping branch of the pick in `Scene::Render` (lines 557-582), for a
recovered point `point` (a rational point, so `std::isnan(point.x)` is false).
The flag of the result tells whether `Render` returned at line 574. When the
polygon is not closed by the pick, `addMarker2(markerId++, markerPose)` is
called on the counter's old value. -/
def croppingPick (s : Scene) (point : Vec3) : Option (Scene × Bool) :=
  if closesPolygon s point then
    some ({ s with polygonClosed_ := true, doubleTapOn_ := false }, true)
  else
    let markerPose := Transform.ofXYZ point.x point.y point.z
    match addMarker2 { s with markerId := s.markerId + 1 } s.markerId markerPose with
    | none => none
    | some s1 => some (s1, false)

/-- The cropping pick applied to a sequence of recovered points, one frame
after the other. -/
def croppingPicks (s : Scene) (points : List Vec3) : Option Scene :=
  match points with
  | [] => some s
  | point :: rest =>
    match croppingPick s point with
    | none => none
    | some (s1, _) => croppingPicks s1 rest

/-! ## Mesh region filter (`filterMeshInsidePolygon`, lines 1192-1267) -/

/-- The inner loop of lines 1232-1254 over the vertex indices of one face:
`false` (with `break`) at the first index out of range or the first vertex whose
`(x, z)` projection has a negative `cv::pointPolygonTest` value. The test is
the parameter `ppt` (OpenCV: positive inside, zero on an edge, negative
outside). -/
def allInside (ppt : List Vec2 → Vec2 → ℚ) (polyPoints : List Vec2)
    (cloud : List PointXYZRGB) (meshToScene : Transform) (vertices : List Int) : Bool :=
  match vertices with
  | [] => true
  | idx :: rest =>
    if idx < 0 ∨ idx ≥ (cloud.length : Int) then false
    else
      match cloud.get? idx.toNat with
      | none => false
      | some ptLocal =>
        let ptScene := transformPoint ptLocal meshToScene
        let pt2D : Vec2 := ⟨ptScene.x, ptScene.z⟩
        let inside := ppt polyPoints pt2D
        if inside < 0 then false
        else allInside ppt polyPoints cloud meshToScene rest

/-- The loop of lines 1229-1259 over the faces: a face whose vertices are all
inside is pushed at the back of `newPolygons`. -/
def filterLoop (ppt : List Vec2 → Vec2 → ℚ) (polyPoints : List Vec2)
    (cloud : List PointXYZRGB) (meshToScene : Transform)
    (polygons newPolygons : List Vertices) : List Vertices :=
  match polygons with
  | [] => newPolygons
  | poly :: rest =>
    if allInside ppt polyPoints cloud meshToScene poly.vertices then
      filterLoop ppt polyPoints cloud meshToScene rest (newPolygons ++ [poly])
    else
      filterLoop ppt polyPoints cloud meshToScene rest newPolygons

/-- `Scene::filterMeshInsidePolygon`: the mesh after the call. -/
def filterMeshInsidePolygon (ppt : List Vec2 → Vec2 → ℚ) (polygon2D : List Transform)
    (mesh : Mesh) (drawablePose : Transform) : Mesh :=
  if polygon2D.length < 3 ∨ mesh.cloud.isEmpty then mesh
  else
    let polyPoints : List Vec2 := polygon2D.map (fun t => ⟨t.x, t.z⟩)
    let meshToScene : Transform :=
      if !drawablePose.isNull && !mesh.pose.isNull then drawablePose.mul mesh.pose
      else if !mesh.pose.isNull then mesh.pose
      else Transform.getIdentity
    let newPolygons := filterLoop ppt polyPoints mesh.cloud meshToScene mesh.polygons []
    { mesh with polygons := newPolygons }

/-! ## Volume estimate (`calculateMeshVolume`, `computeMarkerPolygonCentroid`) -/

/-- The accumulation of lines 1395-1400: the coordinates of every marker pose
are added to `centroid`. -/
def centroidLoop (poses : List Transform) (centroid : Vec3) : Vec3 :=
  match poses with
  | [] => centroid
  | pose :: rest =>
    centroidLoop rest ⟨centroid.x + pose.x, centroid.y + pose.y, centroid.z + pose.z⟩

/-- `Scene::computeMarkerPolygonCentroid` (lines 1387-1406). -/
def computeMarkerPolygonCentroid (s : Scene) : Vec3 :=
  let centroid : Vec3 := ⟨0, 0, 0⟩
  if s.markerPoses_.isEmpty then centroid
  else
    let centroid := centroidLoop s.markerPoses_ centroid
    ⟨centroid.x / (s.markerPoses_.length : ℚ),
     centroid.y / (s.markerPoses_.length : ℚ),
     centroid.z / (s.markerPoses_.length : ℚ)⟩

/-- Difference of two points, as in the constructions of `vec0, vec1, vec2`. -/
def Vec3.sub (a b : Vec3) : Vec3 := ⟨a.x - b.x, a.y - b.y, a.z - b.z⟩

/-- The cross product `a.cross(b)` of Eigen. -/
def Vec3.cross (a b : Vec3) : Vec3 :=
  ⟨a.y * b.z - a.z * b.y, a.z * b.x - a.x * b.z, a.x * b.y - a.y * b.x⟩

/-- The dot product `a.dot(b)` of Eigen. -/
def Vec3.dot (a b : Vec3) : ℚ := a.x * b.x + a.y * b.y + a.z * b.z

/-- The inner loop of lines 1346-1376 over one face, entered with
`rest = [vertices[i], vertices[i+1], ...]`: each consecutive pair `(i1, i2)`
forms a triangle with `i0 = vertices[0]`; a triangle with an index out of range
is skipped (`continue`), any other adds `|signedVolume|` to `totalVolume`. -/
def fanLoop (sceneVertices : List Vec3) (polyCentroid : Vec3) (i0 : Int)
    (rest : List Int) (totalVolume : ℚ) : ℚ :=
  match rest with
  | i1 :: i2 :: more =>
    if i0 < 0 ∨ i1 < 0 ∨ i2 < 0 ∨
        i0 ≥ (sceneVertices.length : Int) ∨
        i1 ≥ (sceneVertices.length : Int) ∨
        i2 ≥ (sceneVertices.length : Int) then
      fanLoop sceneVertices polyCentroid i0 (i2 :: more) totalVolume
    else
      let v0 := sceneVertices.getD i0.toNat ⟨0, 0, 0⟩
      let v1 := sceneVertices.getD i1.toNat ⟨0, 0, 0⟩
      let v2 := sceneVertices.getD i2.toNat ⟨0, 0, 0⟩
      let vec0 := v0.sub polyCentroid
      let vec1 := v1.sub polyCentroid
      let vec2 := v2.sub polyCentroid
      let crossVal := vec0.cross vec1
      let signedVolume := crossVal.dot vec2 / 6
      fanLoop sceneVertices polyCentroid i0 (i2 :: more) (totalVolume + |signedVolume|)
  | _ => totalVolume

/-- The loop of lines 1342-1377 over the faces: a face with fewer than 3
vertices is skipped, any other is fan-triangulated from its first vertex. -/
def volumeLoop (sceneVertices : List Vec3) (polyCentroid : Vec3)
    (polygons : List Vertices) (totalVolume : ℚ) : ℚ :=
  match polygons with
  | [] => totalVolume
  | polygon :: rest =>
    if polygon.vertices.length < 3 then
      volumeLoop sceneVertices polyCentroid rest totalVolume
    else
      match polygon.vertices with
      | i0 :: tail =>
        volumeLoop sceneVertices polyCentroid rest
          (fanLoop sceneVertices polyCentroid i0 tail totalVolume)
      | [] => volumeLoop sceneVertices polyCentroid rest totalVolume

/-- `Scene::calculateMeshVolume` (lines 1280-1379): the returned value and the
state after the call (the global `totalVolume` is reset, then accumulated). -/
def calculateMeshVolume (s : Scene) (meshId : Int) : ℚ × Scene :=
  let s0 := { s with totalVolume := 0 }
  match mapFind s0.pointClouds_ meshId with
  | none => (0, s0)
  | some drawable =>
    match drawable.mesh with
    | none => (0, s0)
    | some mesh =>
      if mesh.polygons.isEmpty then (0, s0)
      else
        let meshToScene : Transform :=
          if !drawable.pose.isNull && !mesh.pose.isNull then drawable.pose.mul mesh.pose
          else if !mesh.pose.isNull then mesh.pose
          else Transform.getIdentity
        let sceneVertices : List Vec3 := mesh.cloud.map (fun ptLocal =>
          let ptColored := transformPoint ptLocal meshToScene
          ⟨ptColored.x, ptColored.y, ptColored.z⟩)
        let polyCentroid := computeMarkerPolygonCentroid s0
        let total := volumeLoop sceneVertices polyCentroid mesh.polygons s0.totalVolume
        (total, { s0 with totalVolume := total })

/-! ## The state changes of one `Render` frame (lines 530-615) -/

/-- A `glm::mat4`, stored by columns: `c0 .. c3` are `mat[0] .. mat[3]`. -/
structure Mat4 where
  c0 : Vec4
  c1 : Vec4
  c2 : Vec4
  c3 : Vec4
deriving DecidableEq, Repr

/-- The product `m * v` of glm: the combination of the columns of `m` with the
components of `v`. -/
def Mat4.mulVec (m : Mat4) (v : Vec4) : Vec4 :=
  ⟨m.c0.x * v.x + m.c1.x * v.y + m.c2.x * v.z + m.c3.x * v.w,
   m.c0.y * v.x + m.c1.y * v.y + m.c2.y * v.z + m.c3.y * v.w,
   m.c0.z * v.x + m.c1.z * v.y + m.c2.z * v.z + m.c3.z * v.w,
   m.c0.w * v.x + m.c1.w * v.y + m.c2.w * v.z + m.c3.w * v.w⟩

/-- What one call of `Render` takes from its collaborators: the four bytes
`zValue[0..3]` that `glReadPixels` returns at the tap position, the matrix
`glm::inverse(projectionMatrix*viewMatrix)`, and the device position
`position` read from `currentPose_`. -/
structure Frame where
  zValue0 : Nat
  zValue1 : Nat
  zValue2 : Nat
  zValue3 : Nat
  invProjView : Mat4
  position : Vec3
deriving DecidableEq, Repr

/-- The depth `zValueF` decoded from the four bytes (line 549). -/
def Frame.zValueF (f : Frame) : ℚ :=
  (f.zValue0 : ℚ) / 255 + (f.zValue1 : ℚ) / 255 / 255 +
  (f.zValue2 : ℚ) / 255 / 65025 + (f.zValue3 : ℚ) / 255 / 160581375

/-- The outcome of `point /= point.w` (line 555). With `w ≠ 0` the point is a
rational point. With `w = 0` the float division leaves exact arithmetic:
`point.x` is NaN when the numerator is `0` too (`nanX`), and is infinite
otherwise (`nonFinite`). -/
inductive Recovered where
  | finite (point : Vec3)
  | nanX
  | nonFinite
deriving DecidableEq, Repr

/-- The homogeneous divide `point /= point.w` of line 555. -/
def homogeneousDivide (h : Vec4) : Recovered :=
  if h.w ≠ 0 then Recovered.finite ⟨h.x / h.w, h.y / h.w, h.z / h.w⟩
  else if h.x = 0 then Recovered.nanX
  else Recovered.nonFinite

/-- The point of lines 553-555 before the divide: the clip-space point of the
tap, multiplied by the inverse matrix. -/
def pickClip (f : Frame) (s : Scene) : Vec4 :=
  let zValueF := f.zValueF * 2 - 1
  f.invProjView.mulVec
    ⟨s.doubleTapPos_.x * 2 - 1, (1 - s.doubleTapPos_.y) * 2 - 1, zValueF, 1⟩

/-- The pick of lines 530-588. The flag of the result tells whether `Render`
returned at line 574. The result is `none` where the code stores a non-finite
point (in the anchor offset, line 584, or in a marker pose, lines 579-580),
which the model has no value for. In the cropping mode a NaN `point.x` is
stopped by the guard of line 558 and changes nothing. An infinite `point.x`
passes the guard; the closure test fails, `distSq` being infinite or NaN, and
`addMarker2(markerId++, markerPose)` is called: on a closed polygon it steps
the counter and is ignored, on an open polygon it stores the pose. -/
def renderPick (f : Frame) (s : Scene) : Option (Scene × Bool) :=
  if s.doubleTapOn_ && decide (s.cameraType ≠ CameraType.kFirstPerson) then
    if f.zValueF ≠ 0 then
      match homogeneousDivide (pickClip f s) with
      | Recovered.finite point =>
        if s.croppingOn_ then croppingPick s point
        else some ({ s with anchorOffset := point.sub f.position }, false)
      | Recovered.nanX =>
        if s.croppingOn_ then some (s, false) else none
      | Recovered.nonFinite =>
        if s.croppingOn_ then
          if s.polygonClosed_ then some ({ s with markerId := s.markerId + 1 }, false)
          else none
        else none
    else some (s, false)
  else some (s, false)

/-- The loop of lines 600-614 over `pointClouds_`, with the entries already
visited in `done` and those still to visit in `todo`: the mesh of an entry
that has one is filtered and written back, and `totalVolume` takes the value
returned by `calculateMeshVolume` for its id. -/
def renderFilterLoop (ppt : List Vec2 → Vec2 → ℚ) (polygon2D : List Transform)
    (done todo : StdMap PointCloudDrawable) (s : Scene) : Scene :=
  match todo with
  | [] => s
  | (id, cloudDrawable) :: rest =>
    match cloudDrawable.mesh with
    | some mesh =>
      let mesh1 := filterMeshInsidePolygon ppt polygon2D mesh cloudDrawable.pose
      let s1 := { s with pointClouds_ := done ++ (id, cloudDrawable.updateMesh mesh1) :: rest }
      let r := calculateMeshVolume s1 id
      let s2 := { r.2 with totalVolume := r.1 }
      renderFilterLoop ppt polygon2D (done ++ [(id, cloudDrawable.updateMesh mesh1)]) rest s2
    | none =>
      renderFilterLoop ppt polygon2D (done ++ [(id, cloudDrawable)]) rest s

/-- The state after `Scene::Render` (its drawing is outside the model): the
pick of lines 530-588, `doubleTapOn_ = false` (line 589), and the filtering of
every mesh when the polygon is closed (lines 592-615). -/
def Render (ppt : List Vec2 → Vec2 → ℚ) (f : Frame) (s : Scene) : Option Scene :=
  match renderPick f s with
  | none => none
  | some (s1, true) => some s1
  | some (s1, false) =>
    let s2 := { s1 with doubleTapOn_ := false }
    if s2.polygonClosed_ && decide (s2.markerPoses_.length ≥ 3) then
      let polygon2D := s2.markerPoses_
      some (renderFilterLoop ppt polygon2D [] s2.pointClouds_ s2)
    else some s2

/-! ## Reset and mesh updates -/

/-- The loop of lines 990-1001 over `originalMeshes_`: the entry of
`pointClouds_` found at the id of a snapshot, when it has a mesh, takes the
snapshot. -/
def restoreLoop (originals : StdMap Mesh) (s : Scene) : Scene :=
  match originals with
  | [] => s
  | (id, original) :: rest =>
    match mapFind s.pointClouds_ id with
    | some drawable =>
      if drawable.hasMesh then
        restoreLoop rest
          { s with pointClouds_ := mapModify s.pointClouds_ id (fun d => d.updateMesh original) }
      else restoreLoop rest s
    | none => restoreLoop rest s

/-- The loop of lines 1004-1009: the first marker is erased until the map is
empty. -/
def eraseAllMarkers (markers : StdMap Axis) : StdMap Axis :=
  match markers with
  | [] => []
  | _ :: rest => eraseAllMarkers rest

/-- `Scene::removeMarkerAll` (lines 985-1016); it ends with a call `Render()`,
which takes the frame `f`. -/
def removeMarkerAll (ppt : List Vec2 → Vec2 → ℚ) (f : Frame) (s : Scene) : Option Scene :=
  let s1 := restoreLoop s.originalMeshes_ s
  let s2 := { s1 with
    markers_ := eraseAllMarkers s1.markers_
    markerOrder_ := []
    markerPoses_ := []
    polygonClosed_ := false }
  Render ppt f s2

/-- The store update of `Scene::addMesh` (lines 1043-1061): the entry at `id`
is replaced by a new drawable for `mesh` with pose `pose`, and `mesh` becomes
the snapshot of `id`. (The grid placement of lines 1063-1113 reads the mesh and
writes `grid_` only.) -/
def addMesh (s : Scene) (id : Int) (mesh : Mesh) (pose : Transform) : Scene :=
  let clouds1 :=
    match mapFind s.pointClouds_ id with
    | some _ => mapErase s.pointClouds_ id
    | none => s.pointClouds_
  let drawable := (PointCloudDrawable.ofMesh mesh).setPose pose
  { s with
    originalMeshes_ := mapSet s.originalMeshes_ id mesh
    pointClouds_ := mapInsert clouds1 id drawable }

/-- `Scene::updateMesh` (lines 1164-1173): for an id found in `pointClouds_`,
`mesh` becomes the snapshot of `id` and the mesh of the drawable. -/
def updateMesh (s : Scene) (id : Int) (mesh : Mesh) : Scene :=
  match mapFind s.pointClouds_ id with
  | some _ =>
    { s with
      originalMeshes_ := mapSet s.originalMeshes_ id mesh
      pointClouds_ := mapModify s.pointClouds_ id (fun d => d.updateMesh mesh) }
  | none => s

/-- `Scene::removeMarker` (lines 975-983): the marker found at `id` is deleted
and erased; the region points are not touched. -/
def removeMarker (s : Scene) (id : Int) : Scene :=
  match mapFind s.markers_ id with
  | some _ => { s with markers_ := mapErase s.markers_ id }
  | none => s

/-- `Scene::clear` (lines 196-222): the geometry store and the marker set are
emptied (the trace, the graph and the grid are outside the model). -/
def clear (s : Scene) : Scene :=
  { s with pointClouds_ := [], markers_ := [] }

/-- `Scene::OnTouchEvent` (lines 837-865) for `touch_count` touches and event
code `event` at `(x0, y0)`: three touches arm the pick, unless one is armed
already, and event `7` selects the cropping mode; any other touch count goes
to the gesture camera, whose rotation, translation and zoom are outside the
model. -/
def OnTouchEvent (s : Scene) (touch_count : Nat) (event : Int) (x0 y0 : ℚ) : Scene :=
  if touch_count = 3 then
    if !s.doubleTapOn_ then
      { s with
        doubleTapPos_ := ⟨x0, y0⟩
        doubleTapOn_ := true
        croppingOn_ := if event = 7 then true else false }
    else s
  else s

/-! ## Frustum planes (`computeFrustumPlanes`, lines 282-345) -/

/-- The six planes of lines 285-327 before the normalization, in the order
left, right, bottom, top, near, far. `mat[i][j]` of glm is row `j` of column
`i`: `mat[0][3]` is `mat.c0.w`. -/
def frustumPlanesRaw (mat : Mat4) : List Vec4 :=
  [ ⟨mat.c0.w + mat.c0.x, mat.c1.w + mat.c1.x, mat.c2.w + mat.c2.x, mat.c3.w + mat.c3.x⟩,
    ⟨mat.c0.w - mat.c0.x, mat.c1.w - mat.c1.x, mat.c2.w - mat.c2.x, mat.c3.w - mat.c3.x⟩,
    ⟨mat.c0.w + mat.c0.y, mat.c1.w + mat.c1.y, mat.c2.w + mat.c2.y, mat.c3.w + mat.c3.y⟩,
    ⟨mat.c0.w - mat.c0.y, mat.c1.w - mat.c1.y, mat.c2.w - mat.c2.y, mat.c3.w - mat.c3.y⟩,
    ⟨mat.c0.w + mat.c0.z, mat.c1.w + mat.c1.z, mat.c2.w + mat.c2.z, mat.c3.w + mat.c3.z⟩,
    ⟨mat.c0.w - mat.c0.z, mat.c1.w - mat.c1.z, mat.c2.w - mat.c2.z, mat.c3.w - mat.c3.z⟩ ]

/-- The length `d` of the normal of a plane (line 335); `std::sqrt` is the
parameter `sqrt`, the rationals having no square root function of their own. -/
def normalLength (sqrt : ℚ → ℚ) (p : Vec4) : ℚ :=
  sqrt (p.x * p.x + p.y * p.y + p.z * p.z)

/-- The normalization of one plane (lines 335-339): the four entries are
divided by `d`, with no test on `d`. With `d = 0` the float division leaves
exact arithmetic and the plane is not finite (`none`). -/
def normalizePlane (sqrt : ℚ → ℚ) (p : Vec4) : Option Vec4 :=
  let d := normalLength sqrt p
  if d = 0 then none
  else some ⟨p.x / d, p.y / d, p.z / d, p.w / d⟩

/-- `computeFrustumPlanes` (lines 282-345): the six planes, each normalized
when `normalize` is set. An entry is `none` for a plane that is not finite. -/
def computeFrustumPlanes (sqrt : ℚ → ℚ) (mat : Mat4) (normalize : Bool) :
    List (Option Vec4) :=
  (frustumPlanesRaw mat).map (fun p => if normalize then normalizePlane sqrt p else some p)

/-! ## The normalization over a field -/

/-- A plane `(a, b, c, d)` whose entries are in a field `K`, as a `glm::vec4`
holds it. -/
structure Vec4K (K : Type) where
  x : K
  y : K
  z : K
  w : K

/-- A `glm::vec4` of `float` values read in the field `K`: every `float` is a
rational. -/
def Vec4.toK {K : Type} [Field K] (p : Vec4) : Vec4K K :=
  ⟨(p.x : K), (p.y : K), (p.z : K), (p.w : K)⟩

/-- The length `d` of line 335 computed in the field `K`, with the square root
`sqrt` of `K`. -/
def normalLengthK {K : Type} [Field K] (sqrt : K → K) (p : Vec4K K) : K :=
  sqrt (p.x * p.x + p.y * p.y + p.z * p.z)

/-- The normalization of lines 335-339 computed in the field `K`: the four
entries are divided by `d`, with no test on `d`; with `d = 0` the plane is not
finite (`none`). -/
def normalizePlaneK {K : Type} [Field K] [DecidableEq K] (sqrt : K → K) (p : Vec4K K) :
    Option (Vec4K K) :=
  let d := normalLengthK sqrt p
  if d = 0 then none
  else some ⟨p.x / d, p.y / d, p.z / d, p.w / d⟩

/-- `computeFrustumPlanes` (lines 282-345) with the normalization computed in
the field `K`: the six planes are extracted from the `float` matrix, and each
is normalized in `K` when `normalize` is set. With `K` the reals and `sqrt` the
real square root this is the function over real arithmetic. -/
def computeFrustumPlanesK {K : Type} [Field K] [DecidableEq K] (sqrt : K → K) (mat : Mat4)
    (normalize : Bool) : List (Option (Vec4K K)) :=
  (frustumPlanesRaw mat).map
    (fun p => if normalize then normalizePlaneK sqrt p.toK else some p.toK)

/-! ## Notions used to state the properties -/

/-- The product `a * b` of two `glm::mat4`: column `j` of the product is `a`
applied to column `j` of `b`. -/
def Mat4.mul (a b : Mat4) : Mat4 :=
  ⟨a.mulVec b.c0, a.mulVec b.c1, a.mulVec b.c2, a.mulVec b.c3⟩

/-- The sum of two 4-vectors. -/
def Vec4.add (a b : Vec4) : Vec4 := ⟨a.x + b.x, a.y + b.y, a.z + b.z, a.w + b.w⟩

/-- The difference of two 4-vectors. -/
def Vec4.sub (a b : Vec4) : Vec4 := ⟨a.x - b.x, a.y - b.y, a.z - b.z, a.w - b.w⟩

/-- The point of lines 553-554 before the divide, for the inverse matrix
`inv`, a tap at `tap` and a decoded depth `zValueF`. -/
def pickHomogeneous (inv : Mat4) (tap : Vec2) (zValueF : ℚ) : Vec4 :=
  let zValueF := zValueF * 2 - 1
  inv.mulVec ⟨tap.x * 2 - 1, (1 - tap.y) * 2 - 1, zValueF, 1⟩

/-- The squared distance between the first captured point and the picked
point, in exact arithmetic. -/
def distSqExact (front : Transform) (point : Vec3) : ℚ :=
  (front.x - point.x) * (front.x - point.x) +
  (front.y - point.y) * (front.y - point.y) +
  (front.z - point.z) * (front.z - point.z)

/-- The states reached from a newly constructed scene, whatever the value of
the pick counter of the process, by any sequence of cropping picks, `Render`
frames, touch events, `addMarker`, `addMarker2`, `removeMarker`,
`removeMarkerAll`, `clear`, and picks taken by other scenes of the process. -/
inductive RegionReachable : Scene → Prop where
  | init (counter : Int) : RegionReachable (Scene.initAt counter)
  | byOtherScene (s : Scene) : RegionReachable s → RegionReachable (otherScenePick s)
  | byPick (s s1 : Scene) (point : Vec3) (b : Bool) :
      RegionReachable s → croppingPick s point = some (s1, b) → RegionReachable s1
  | byRender (ppt : List Vec2 → Vec2 → ℚ) (f : Frame) (s s1 : Scene) :
      RegionReachable s → Render ppt f s = some s1 → RegionReachable s1
  | byTouch (s : Scene) (touch_count : Nat) (event : Int) (x0 y0 : ℚ) :
      RegionReachable s → RegionReachable (OnTouchEvent s touch_count event x0 y0)
  | byAddMarker (s s1 : Scene) (id : Int) (pose : Transform) :
      RegionReachable s → addMarker s id pose = some s1 → RegionReachable s1
  | byAddMarker2 (s s1 : Scene) (id : Int) (pose : Transform) :
      RegionReachable s → addMarker2 s id pose = some s1 → RegionReachable s1
  | byRemoveMarker (s : Scene) (id : Int) :
      RegionReachable s → RegionReachable (removeMarker s id)
  | byRemoveMarkerAll (ppt : List Vec2 → Vec2 → ℚ) (f : Frame) (s s1 : Scene) :
      RegionReachable s → removeMarkerAll ppt f s = some s1 → RegionReachable s1
  | byClear (s : Scene) : RegionReachable s → RegionReachable (clear s)

/-- A closed polygon has at least 3 points. -/
def ClosedHasThree (s : Scene) : Prop :=
  s.polygonClosed_ = true → 3 ≤ s.markerPoses_.length

/-- The pick of the frame, if one is taken, recovers a rational point: no
double tap is pending, or the camera is in first-person mode, or the depth
sample is zero, or the homogeneous coordinate `w` is not zero. -/
def pickFinite (f : Frame) (s : Scene) : Prop :=
  s.doubleTapOn_ = false ∨ s.cameraType = CameraType.kFirstPerson ∨ f.zValueF = 0 ∨
    (pickClip f s).w ≠ 0

/-- What the loop of lines 600-614 does to one entry of `pointClouds_`: the
mesh of an entry that has one is replaced by the filtered mesh. -/
def filterEntry (ppt : List Vec2 → Vec2 → ℚ) (polygon2D : List Transform)
    (e : Int × PointCloudDrawable) : Int × PointCloudDrawable :=
  match e.2.mesh with
  | some mesh => (e.1, e.2.updateMesh (filterMeshInsidePolygon ppt polygon2D mesh e.2.pose))
  | none => e

/-- The states reached from a newly constructed scene, whatever the value of
the pick counter of the process, by cropping picks, `Render` frames,
`removeMarkerAll`, and any operation that leaves the region, the pick counter
and the closed flag as they are (touch events, camera and geometry updates).
Neither `addMarker` nor a pick taken by another scene of the process is among
the steps. -/
inductive CaptureReachable : Scene → Prop where
  | init (counter : Int) : CaptureReachable (Scene.initAt counter)
  | pick (s s1 : Scene) (point : Vec3) (b : Bool) :
      CaptureReachable s → croppingPick s point = some (s1, b) → CaptureReachable s1
  | render (ppt : List Vec2 → Vec2 → ℚ) (f : Frame) (s s1 : Scene) :
      CaptureReachable s → Render ppt f s = some s1 → CaptureReachable s1
  | reset (ppt : List Vec2 → Vec2 → ℚ) (f : Frame) (s s1 : Scene) :
      CaptureReachable s → removeMarkerAll ppt f s = some s1 → CaptureReachable s1
  | other (s s1 : Scene) :
      CaptureReachable s → s1.markerOrder_ = s.markerOrder_ →
      s1.markerPoses_ = s.markerPoses_ → s1.markerId = s.markerId →
      s1.polygonClosed_ = s.polygonClosed_ → CaptureReachable s1

/-- While the polygon is open, the pick counter is one greater than the id of
the last region point. -/
def CounterFollows (s : Scene) : Prop :=
  s.polygonClosed_ = false → ∀ k, s.markerOrder_.getLast? = some k → s.markerId = k + 1

/-- The mesh-to-scene transform of the specification (section 4.4, step 2):
`ownerPose ∘ mesh.pose` when both poses are present, `mesh.pose` alone when the
owner pose is absent, the identity when both are absent. For an owner pose
without a mesh pose the specification names no transform; the identity stands
there as well. A pose is absent when it is null. -/
def sceneTransform (ownerPose meshPose : Transform) : Transform :=
  match ownerPose.isNull, meshPose.isNull with
  | false, false => ownerPose.mul meshPose
  | true, false => meshPose
  | true, true => Transform.getIdentity
  | false, true => Transform.getIdentity

/-- The region polygon of the specification (section 4.4, step 1): the region
points with the vertical axis dropped, `(x, z)`. -/
def regionPolygon (region : List Transform) : List Vec2 :=
  region.map (fun t => ⟨t.x, t.z⟩)

/-- The vertex index `idx` is in range and its vertex, taken to scene space by
`t` and reduced to `(x, z)`, is inside or on the boundary of `polyPoints`
(`ppt` is not negative there). -/
def vertexInside (ppt : List Vec2 → Vec2 → ℚ) (polyPoints : List Vec2)
    (cloud : List PointXYZRGB) (t : Transform) (idx : Int) : Bool :=
  decide (0 ≤ idx) && decide (idx < (cloud.length : Int)) &&
  match cloud.get? idx.toNat with
  | some pt => decide (0 ≤ ppt polyPoints ⟨(transformPoint pt t).x, (transformPoint pt t).z⟩)
  | none => false

/-- Every vertex of the face is inside (section 4.4, step 3). -/
def faceInside (ppt : List Vec2 → Vec2 → ℚ) (polyPoints : List Vec2)
    (cloud : List PointXYZRGB) (t : Transform) (face : Vertices) : Bool :=
  face.vertices.all (vertexInside ppt polyPoints cloud t)

/-- The mesh invariant of the data model: every face index is in range. -/
def MeshValid (mesh : Mesh) : Prop :=
  ∀ face ∈ mesh.polygons, ∀ idx ∈ face.vertices, 0 ≤ idx ∧ idx < (mesh.cloud.length : Int)

/-- The centroid of the specification (section 4.5): the arithmetic mean of
the region point positions, the zero vector for an empty region. -/
def regionMean (region : List Transform) : Vec3 :=
  if region = [] then ⟨0, 0, 0⟩
  else
    ⟨(region.map Transform.x).sum / (region.length : ℚ),
     (region.map Transform.y).sum / (region.length : ℚ),
     (region.map Transform.z).sum / (region.length : ℚ)⟩

/-- The vertex of index `idx` in scene space (the zero vector for an index
that is out of range). -/
def sceneVertex (cloud : List PointXYZRGB) (t : Transform) (idx : Int) : Vec3 :=
  match cloud.get? idx.toNat with
  | some pt => ⟨(transformPoint pt t).x, (transformPoint pt t).y, (transformPoint pt t).z⟩
  | none => ⟨0, 0, 0⟩

/-- The volume `|((v0 - c) × (v1 - c)) · (v2 - c)| / 6` of the tetrahedron
`(c, v0, v1, v2)` of the specification (section 4.5, step 4), written out in
coordinates. -/
def tetraVolume (c v0 v1 v2 : Vec3) : ℚ :=
  |((v0.y - c.y) * (v1.z - c.z) - (v0.z - c.z) * (v1.y - c.y)) * (v2.x - c.x) +
   ((v0.z - c.z) * (v1.x - c.x) - (v0.x - c.x) * (v1.z - c.z)) * (v2.y - c.y) +
   ((v0.x - c.x) * (v1.y - c.y) - (v0.y - c.y) * (v1.x - c.x)) * (v2.z - c.z)| / 6

/-- The fan sum of one face with `n` vertices `v 0, .., v (n-1)`: the sum over
`i` from `1` to `n - 2` of the tetrahedron `(c, v 0, v i, v (i+1))`. -/
def faceVolume (c : Vec3) (v : Nat → Vec3) (n : Nat) : ℚ :=
  ∑ i ∈ Finset.Icc 1 (n - 2), tetraVolume c (v 0) (v i) (v (i + 1))

/-- The volume of the specification (section 4.5, step 4): the sum of the fan
sums of the faces that have at least 3 vertices. -/
def volumeSpec (mesh : Mesh) (t : Transform) (c : Vec3) : ℚ :=
  ((mesh.polygons.filter (fun face => decide (3 ≤ face.vertices.length))).map
    (fun face => faceVolume c
      (fun k => sceneVertex mesh.cloud t (face.vertices.getD k 0))
      face.vertices.length)).sum

/-- The unit cube `[0,1]^3`: 8 vertices (index `x + 2y + 4z`), 12 triangles
(two per side), identity pose. -/
def unitCube : Mesh :=
  { cloud :=
      [⟨0, 0, 0, 0⟩, ⟨1, 0, 0, 0⟩, ⟨0, 1, 0, 0⟩, ⟨1, 1, 0, 0⟩,
       ⟨0, 0, 1, 0⟩, ⟨1, 0, 1, 0⟩, ⟨0, 1, 1, 0⟩, ⟨1, 1, 1, 0⟩]
    polygons :=
      [⟨[0, 1, 3]⟩, ⟨[0, 3, 2]⟩, ⟨[4, 5, 7]⟩, ⟨[4, 7, 6]⟩,
       ⟨[0, 1, 5]⟩, ⟨[0, 5, 4]⟩, ⟨[2, 3, 7]⟩, ⟨[2, 7, 6]⟩,
       ⟨[0, 2, 6]⟩, ⟨[0, 6, 4]⟩, ⟨[1, 3, 7]⟩, ⟨[1, 7, 5]⟩]
    pose := Transform.getIdentity }

/-- A square region around the cube at half its height: its centroid is the
centre `(1/2, 1/2, 1/2)` of the cube. -/
def exampleSquare : List Transform :=
  [Transform.ofXYZ (-1) (1/2) (-1), Transform.ofXYZ 2 (1/2) (-1),
   Transform.ofXYZ 2 (1/2) 2, Transform.ofXYZ (-1) (1/2) 2]

/-- A point-in-polygon test for the square `[-1, 2] x [-1, 2]`, whatever the
polygon passed: `1` inside or on the boundary, `-1` outside. -/
def exampleTest (_ : List Vec2) (pt : Vec2) : ℚ :=
  if -1 ≤ pt.x ∧ pt.x ≤ 2 ∧ -1 ≤ pt.y ∧ pt.y ≤ 2 then 1 else -1

/-- A scene that holds the unit cube at id `7` (identity owner pose, as shown
and as snapshot) and the closed region `exampleSquare`. -/
def exampleCubeScene : Scene :=
  { Scene.init with
    pointClouds_ := [(7, PointCloudDrawable.ofMesh unitCube)]
    originalMeshes_ := [(7, unitCube)]
    markerOrder_ := [1, 2, 3, 4]
    markerPoses_ := exampleSquare
    polygonClosed_ := true
    markerId := 5 }

/-- The scene `exampleCubeScene` after the mesh shown at id `7` has been
filtered by the region. -/
def exampleFilteredScene : Scene :=
  { exampleCubeScene with
    pointClouds_ := [(7, (PointCloudDrawable.ofMesh unitCube).updateMesh
      (filterMeshInsidePolygon exampleTest exampleSquare unitCube Transform.getIdentity))] }

/-- An open region that holds the single point `(0,0,0)`, as left by one
cropping pick on a new scene. -/
def exampleOnePoint : Scene :=
  { Scene.init with
    markers_ := [(1, { scale := ⟨0, 1/5, 0⟩, lineWidth := 10, pose := Transform.ofXYZ 0 0 0 })]
    markerOrder_ := [1]
    markerPoses_ := [Transform.ofXYZ 0 0 0]
    markerId := 2 }

/-- An open region that holds the points `(0,0,0)`, `(1,0,0)`, `(1,1,0)`, as
left by three cropping picks on a new scene. -/
def exampleTriangle : Scene :=
  { Scene.init with
    markers_ :=
      [(1, { scale := ⟨0, 1/5, 0⟩, lineWidth := 10, pose := Transform.ofXYZ 0 0 0 }),
       (2, { scale := ⟨0, 1/5, 0⟩, lineWidth := 10, pose := Transform.ofXYZ 1 0 0 }),
       (3, { scale := ⟨0, 1/5, 0⟩, lineWidth := 10, pose := Transform.ofXYZ 1 1 0 })]
    markerOrder_ := [1, 2, 3]
    markerPoses_ := [Transform.ofXYZ 0 0 0, Transform.ofXYZ 1 0 0, Transform.ofXYZ 1 1 0]
    markerId := 4 }

/-- The region of `exampleTriangle`, closed. -/
def exampleClosed : Scene :=
  { exampleTriangle with polygonClosed_ := true }

/-- The identity matrix. -/
def Mat4.identity : Mat4 :=
  ⟨⟨1, 0, 0, 0⟩, ⟨0, 1, 0, 0⟩, ⟨0, 0, 1, 0⟩, ⟨0, 0, 0, 1⟩⟩

/-- A frame whose depth bytes are `(128, 0, 0, 0)` (decoded depth `128/255`),
with the identity as inverse projection-view matrix and the device at the
origin. -/
def exampleFrame : Frame :=
  { zValue0 := 128, zValue1 := 0, zValue2 := 0, zValue3 := 0
    invProjView := Mat4.identity
    position := ⟨0, 0, 0⟩ }

/-- A projective matrix: `(x, y, z, w)` goes to `(x, y, z - w, z)`. -/
def exampleProj : Mat4 :=
  ⟨⟨1, 0, 0, 0⟩, ⟨0, 1, 0, 0⟩, ⟨0, 0, 1, 1⟩, ⟨0, 0, -1, 0⟩⟩

/-- The inverse of `exampleProj`: `(a, b, c, d)` goes to `(a, b, d, d - c)`. -/
def exampleProjInv : Mat4 :=
  ⟨⟨1, 0, 0, 0⟩, ⟨0, 1, 0, 0⟩, ⟨0, 0, 0, -1⟩, ⟨0, 0, 1, 1⟩⟩

/-- The perspective projection with an infinite far plane,
`glm::infinitePerspective` for a field of view of 90 degrees, aspect ratio `1`
and near distance `1`, with the identity as view matrix: `(x, y, z, w)` goes to
`(x, y, -z - 2w, -z)`. Its fourth row minus its third row is `(0, 0, 0, 2)`. -/
def exampleInfinitePerspective : Mat4 :=
  ⟨⟨1, 0, 0, 0⟩, ⟨0, 1, 0, 0⟩, ⟨0, 0, -1, -1⟩, ⟨0, 0, -2, 0⟩⟩

/-- The inverse of `exampleInfinitePerspective`: `(a, b, c, d)` goes to
`(a, b, -d, (d - c) / 2)`. -/
def exampleInfinitePerspectiveInv : Mat4 :=
  ⟨⟨1, 0, 0, 0⟩, ⟨0, 1, 0, 0⟩, ⟨0, 0, 0, -1/2⟩, ⟨0, 0, -1, 1/2⟩⟩

/-- A perspective projection with near distance `1` and far distance `2`
(`glm::frustum(-4/3, 4/3, -3/4, 3/4, 1, 2)`), with the identity as view
matrix. The normals of its six planes have the lengths `5/4`, `5/4`, `5/3`,
`5/3`, `4`, `2`. -/
def examplePerspective : Mat4 :=
  ⟨⟨3/4, 0, 0, 0⟩, ⟨0, 4/3, 0, 0⟩, ⟨0, 0, -3, -1⟩, ⟨0, 0, -4, 0⟩⟩

/-- The perspective projection `glm::perspective(90 deg, 1, 1, 2)` (field of
view 90 degrees, aspect ratio `1`, near distance `1`, far distance `2`), with
the identity as view matrix. The normal `(1, 0, -1)` of its left plane has the
length `sqrt 2`. -/
def examplePerspective90 : Mat4 :=
  ⟨⟨1, 0, 0, 0⟩, ⟨0, 1, 0, 0⟩, ⟨0, 0, -3, -1⟩, ⟨0, 0, -4, 0⟩⟩

/-- The zero matrix, `glm::mat4(0)`. -/
def Mat4.zero : Mat4 :=
  ⟨⟨0, 0, 0, 0⟩, ⟨0, 0, 0, 0⟩, ⟨0, 0, 0, 0⟩, ⟨0, 0, 0, 0⟩⟩

/-- A square root on the rationals, exact on the squares of rationals: the
integer square roots of numerator and denominator. It stands for `std::sqrt`
in the examples. -/
def ratSqrt (q : ℚ) : ℚ :=
  (Nat.sqrt q.num.toNat : ℚ) / (Nat.sqrt q.den : ℚ)

/-- A mesh of one triangle whose third vertex `(5, 0, 5)` lies outside the
square `[-1, 2] x [-1, 2]`. -/
def exampleWideMesh : Mesh :=
  { cloud := [⟨0, 0, 0, 0⟩, ⟨1, 0, 0, 0⟩, ⟨5, 0, 5, 0⟩]
    polygons := [⟨[0, 1, 2]⟩]
    pose := Transform.getIdentity }

/-- A scene that holds `exampleWideMesh` at id `7` and the region
`exampleSquare`, not closed. -/
def exampleOpenSquare : Scene :=
  { Scene.init with
    pointClouds_ := [(7, PointCloudDrawable.ofMesh exampleWideMesh)]
    originalMeshes_ := [(7, exampleWideMesh)]
    markerOrder_ := [1, 2, 3, 4]
    markerPoses_ := exampleSquare
    markerId := 5 }

/-- An open region that holds the points `(0,0,0)`, `(1,0,0)`, as left by two
cropping picks on a new scene. -/
def exampleTwoPoints : Scene :=
  { Scene.init with
    markers_ :=
      [(1, { scale := ⟨0, 1/5, 0⟩, lineWidth := 10, pose := Transform.ofXYZ 0 0 0 }),
       (2, { scale := ⟨0, 1/5, 0⟩, lineWidth := 10, pose := Transform.ofXYZ 1 0 0 })]
    markerOrder_ := [1, 2]
    markerPoses_ := [Transform.ofXYZ 0 0 0, Transform.ofXYZ 1 0 0]
    markerId := 3 }

/-- A frame whose depth bytes are `(255, 0, 0, 0)` (decoded depth `1`, the far
plane), with `exampleInfinitePerspectiveInv` as inverse projection-view matrix
and the device at the origin. -/
def exampleFrameFar : Frame :=
  { zValue0 := 255, zValue1 := 0, zValue2 := 0, zValue3 := 0
    invProjView := exampleInfinitePerspectiveInv
    position := ⟨0, 0, 0⟩ }

/-- The scene `exampleCubeScene` on which a double tap at the centre of the
screen is pending, not in cropping mode, as left by
`OnTouchEvent(3, 0, 0.5, 0.5, ..)`. -/
def exampleTapFollow : Scene :=
  { exampleCubeScene with
    doubleTapOn_ := true, croppingOn_ := false, doubleTapPos_ := ⟨1/2, 1/2⟩ }

/-- The scene `exampleOpenSquare`, whose region of 4 points is open, on which
a cropping double tap at the right edge of the screen is pending, as left by
`OnTouchEvent(3, 7, 1, 0.5, ..)`. -/
def exampleTapEdge : Scene :=
  { exampleOpenSquare with
    doubleTapOn_ := true, croppingOn_ := true, doubleTapPos_ := ⟨1, 1/2⟩ }

/-- The vertices of the unit cube with one face of four indices, the last of
which, `99`, is out of range. -/
def exampleBadFaceMesh : Mesh :=
  { unitCube with polygons := [⟨[0, 1, 3, 99]⟩] }

/-- A scene that holds `exampleBadFaceMesh` at id `7` and the closed region
`exampleSquare`. -/
def exampleBadFaceScene : Scene :=
  { exampleCubeScene with
    pointClouds_ := [(7, PointCloudDrawable.ofMesh exampleBadFaceMesh)]
    originalMeshes_ := [(7, exampleBadFaceMesh)] }

/-- A scene that holds the unit cube twice, at the ids `7` and `8`, and the
closed region `exampleSquare`. -/
def exampleTwoCubes : Scene :=
  { exampleCubeScene with
    pointClouds_ :=
      [(7, PointCloudDrawable.ofMesh unitCube), (8, PointCloudDrawable.ofMesh unitCube)]
    originalMeshes_ := [(7, unitCube), (8, unitCube)] }

/-- The scene `exampleCubeScene`, whose region is closed, on which a cropping
double tap at `(0, 0.25)` is pending, as left by `OnTouchEvent(3, 7, 0, 0.25, ..)`;
`totalVolume` is `0`, no frame having filtered yet. -/
def exampleReTap : Scene :=
  { exampleCubeScene with
    doubleTapOn_ := true, croppingOn_ := true, doubleTapPos_ := ⟨0, 1/4⟩ }

/-- A frame whose depth bytes are `(1, 0, 0, 0)` (decoded depth `1/255`), with
the identity as inverse projection-view matrix and the device at the origin.
With the tap `(0, 0.25)` the recovered point is `(-1, 1/2, -253/255)`. -/
def exampleFrameNear : Frame :=
  { zValue0 := 1, zValue1 := 0, zValue2 := 0, zValue3 := 0
    invProjView := Mat4.identity
    position := ⟨0, 0, 0⟩ }

/-- The vertices of the unit cube with its bottom side as one face of four
vertices, and a face of two vertices. -/
def exampleQuadMesh : Mesh :=
  { unitCube with polygons := [⟨[0, 1, 3, 2]⟩, ⟨[4, 5]⟩] }

/-- A scene that holds `exampleQuadMesh` at id `7` and the closed region
`exampleSquare`, whose centroid is `(1/2, 1/2, 1/2)`. -/
def exampleQuadScene : Scene :=
  { exampleCubeScene with
    pointClouds_ := [(7, PointCloudDrawable.ofMesh exampleQuadMesh)]
    originalMeshes_ := [(7, exampleQuadMesh)] }

/-- The vertices of the unit cube with two triangles, the second of which has
the index `99`, out of range. -/
def exampleBadTriangleMesh : Mesh :=
  { unitCube with polygons := [⟨[0, 1, 3]⟩, ⟨[0, 3, 99]⟩] }

/-- A scene that holds `exampleBadTriangleMesh` at id `7` and the closed region
`exampleSquare`. -/
def exampleBadTriangleScene : Scene :=
  { exampleCubeScene with
    pointClouds_ := [(7, PointCloudDrawable.ofMesh exampleBadTriangleMesh)]
    originalMeshes_ := [(7, exampleBadTriangleMesh)] }

/-! ## Theorems -/

/-! ### `float` arithmetic -/

/-- A rational less than `1/2` away from an integer is rounded to it. -/
theorem roundHalfEven_near (x : ℚ) (n : Int) (h : |x - n| < 1/2) : roundHalfEven x = n := by
  rw [abs_lt] at h
  obtain ⟨h1, h2⟩ := h
  unfold roundHalfEven
  by_cases hx : (n : ℚ) ≤ x
  · have hf : ⌊x⌋ = n := Int.floor_eq_iff.mpr ⟨hx, by linarith⟩
    rw [hf, if_pos (by linarith)]
  · have hx2 : x < n := lt_of_not_le hx
    have hf : ⌊x⌋ = n - 1 :=
      Int.floor_eq_iff.mpr ⟨by push_cast; linarith, by push_cast; linarith⟩
    rw [hf]
    push_cast
    rw [if_neg (by linarith), if_pos (by linarith)]
    ring

/-- An integer is rounded to itself. -/
theorem roundHalfEven_intCast (n : Int) : roundHalfEven (n : ℚ) = n :=
  roundHalfEven_near _ n (by simp)

/-- The binary logarithm of a rational between `2^e` and `2^(e+1)`. -/
theorem log_eq_of_bounds (q : ℚ) (e : Int) (h1 : (2 : ℚ) ^ e ≤ |q|)
    (h2 : |q| < (2 : ℚ) ^ (e + 1)) : Int.log 2 |q| = e := by
  have hpos : 0 < |q| := lt_of_lt_of_le (by positivity) h1
  apply le_antisymm
  · have := (Int.lt_zpow_iff_log_lt (b := 2) (by norm_num) hpos (x := e + 1)).mp
      (by exact_mod_cast h2)
    omega
  · exact (Int.zpow_le_iff_le_log (b := 2) (by norm_num) hpos).mp (by exact_mod_cast h1)

/-- The nearest `float` value of a rational in the binade of exponent `e`,
given the integer nearest to its scaled value. -/
theorem f32Nearest_near (q : ℚ) (e n : Int) (h1 : (2 : ℚ) ^ e ≤ |q|)
    (h2 : |q| < (2 : ℚ) ^ (e + 1))
    (hn : |q / (2 : ℚ) ^ (max e (-126) - 23) - n| < 1/2) :
    f32Nearest q = n * (2 : ℚ) ^ (max e (-126) - 23) := by
  unfold f32Nearest f32Ulp f32Exponent
  rw [log_eq_of_bounds q e h1 h2, roundHalfEven_near _ n hn]

/-- Zero is a `float` value. -/
theorem f32Nearest_zero : f32Nearest 0 = 0 := by
  unfold f32Nearest
  rw [zero_div]
  have h : roundHalfEven 0 = 0 := by
    have := roundHalfEven_intCast 0
    simpa using this
  rw [h]
  simp

/-- A rational `m * 2^j` with a significand of at most 24 bits and an exponent
in range is a `float` value: rounding leaves it. -/
theorem f32Nearest_dyadic (m j : Int) (hm1 : -(2 ^ 24) < m) (hm2 : m < 2 ^ 24)
    (hj : -149 ≤ j) :
    f32Nearest ((m : ℚ) * (2 : ℚ) ^ j) = (m : ℚ) * (2 : ℚ) ^ j := by
  by_cases h0 : m = 0
  · subst h0
    simp [f32Nearest_zero]
  have hqpos : 0 < |(m : ℚ) * (2 : ℚ) ^ j| := by
    rw [abs_pos]
    exact mul_ne_zero (by exact_mod_cast h0) (by positivity)
  have hlog : Int.log 2 |(m : ℚ) * (2 : ℚ) ^ j| < 24 + j := by
    apply (Int.lt_zpow_iff_log_lt (b := 2) (by norm_num) hqpos).mp
    rw [abs_mul, abs_of_pos (show (0 : ℚ) < 2 ^ j by positivity)]
    have : ((2 : ℕ) : ℚ) ^ (24 + j) = (2 : ℚ) ^ (24 : ℤ) * (2 : ℚ) ^ j := by
      rw [zpow_add₀ (by norm_num)]
      norm_num
    rw [this]
    apply mul_lt_mul_of_pos_right _ (by positivity)
    have h3 : -(16777216 : ℚ) < (m : ℚ) := by
      have : ((-(2 ^ 24) : ℤ) : ℚ) < (m : ℚ) := by exact_mod_cast hm1
      norm_num at this
      exact this
    have h4 : (m : ℚ) < 16777216 := by
      have : (m : ℚ) < ((2 ^ 24 : ℤ) : ℚ) := by exact_mod_cast hm2
      norm_num at this
      exact this
    norm_num
    rw [abs_lt]
    exact ⟨h3, h4⟩
  have hE : f32Exponent ((m : ℚ) * (2 : ℚ) ^ j) - 23 ≤ j := by
    unfold f32Exponent
    rcases max_cases (Int.log 2 |(m : ℚ) * (2 : ℚ) ^ j|) (-126) with ⟨h, _⟩ | ⟨h, _⟩ <;>
      rw [h] <;> omega
  obtain ⟨k, hk⟩ := Int.eq_ofNat_of_zero_le
    (show 0 ≤ j - (f32Exponent ((m : ℚ) * (2 : ℚ) ^ j) - 23) by omega)
  unfold f32Nearest f32Ulp
  have hdiv : (m : ℚ) * (2 : ℚ) ^ j / (2 : ℚ) ^ (f32Exponent ((m : ℚ) * (2 : ℚ) ^ j) - 23) =
      ((m * 2 ^ k : ℤ) : ℚ) := by
    rw [mul_div_assoc, ← zpow_sub₀ (by norm_num), hk]
    push_cast
    rw [zpow_natCast]
  rw [hdiv, roundHalfEven_intCast]
  push_cast
  rw [mul_assoc]
  congr 1
  rw [← zpow_natCast, ← zpow_add₀ (by norm_num)]
  congr 1
  omega

/-- An operation whose exact result `q` is the `float` value `m * 2^j`, with a
significand of at most 24 bits and an exponent in range, returns it. -/
theorem F32.round_dyadic (q r : ℚ) (m j : Int)
    (h : q = (m : ℚ) * (2 : ℚ) ^ j ∧ r = q ∧ -(2 ^ 24) < m ∧ m < 2 ^ 24 ∧ -149 ≤ j ∧
      -(2 : ℚ) ^ 128 < r ∧ r < (2 : ℚ) ^ 128) :
    F32.round q = F32.finite r := by
  obtain ⟨hq, hr, hm1, hm2, hj, hlo, hhi⟩ := h
  unfold F32.round
  have h := f32Nearest_dyadic m j hm1 hm2 hj
  rw [← hq] at h
  rw [h, if_neg (by linarith), if_neg (by linarith), hr]

/-- An operation whose exact result `q` lies in the binade of exponent `e`
returns the `float` value `r = n * 2^(e - 23)` when `n` is the integer nearest
to the scaled result. -/
theorem F32.round_near (q r : ℚ) (e n : Int)
    (h : -126 ≤ e ∧
      ((2 : ℚ) ^ e ≤ q ∧ q < (2 : ℚ) ^ (e + 1) ∨ (2 : ℚ) ^ e ≤ -q ∧ -q < (2 : ℚ) ^ (e + 1)) ∧
      (-(1/2) < q / (2 : ℚ) ^ (e - 23) - n ∧ q / (2 : ℚ) ^ (e - 23) - n < 1/2) ∧
      r = n * (2 : ℚ) ^ (e - 23) ∧ -(2 : ℚ) ^ 128 < r ∧ r < (2 : ℚ) ^ 128) :
    F32.round q = F32.finite r := by
  obtain ⟨he, hq, hn, hr, hlo, hhi⟩ := h
  have hpow : (0 : ℚ) < (2 : ℚ) ^ e := zpow_pos (by norm_num) e
  have h12 : (2 : ℚ) ^ e ≤ |q| ∧ |q| < (2 : ℚ) ^ (e + 1) := by
    rcases hq with ⟨ha, hb⟩ | ⟨ha, hb⟩
    · rw [abs_of_pos (lt_of_lt_of_le hpow ha)]
      exact ⟨ha, hb⟩
    · rw [abs_of_neg (by linarith)]
      exact ⟨ha, hb⟩
  obtain ⟨h1, h2⟩ := h12
  have hn : |q / (2 : ℚ) ^ (e - 23) - n| < 1/2 := abs_lt.mpr hn
  unfold F32.round
  have h := f32Nearest_near q e n h1 h2 (by rw [max_eq_left he]; exact hn)
  rw [max_eq_left he, ← hr] at h
  rw [h, if_neg (by linarith), if_neg (by linarith)]

/-- Zero is returned as zero. -/
theorem F32.round_zero : F32.round 0 = F32.finite 0 := by
  unfold F32.round
  rw [f32Nearest_zero, if_neg (by norm_num), if_neg (by norm_num)]

/-! ### Frustum culling -/

/-- The exact value of the dot product is the plane value at the positive
vertex. -/
theorem pVertexDist_eq (p : Vec4) (boxMin boxMax : Vec3) :
    pVertexDist p boxMin boxMax = signedDist p (pVertex p boxMin boxMax) := by
  unfold pVertexDist signedDist pVertex pIndex boxAt
  by_cases hx : p.x > 0 <;> by_cases hy : p.y > 0 <;> by_cases hz : p.z > 0 <;>
    simp [hx, hy, hz]

/-- Along one axis the positive vertex maximises `c * t` over `lo ≤ t ≤ hi`. -/
theorem axis_le (c lo hi t : ℚ) (h1 : lo ≤ t) (h2 : t ≤ hi) :
    c * t ≤ c * (if c > 0 then hi else lo) := by
  by_cases hc : c > 0
  · simp only [hc, if_true]
    exact mul_le_mul_of_nonneg_left h2 (le_of_lt hc)
  · simp only [hc, if_false]
    exact mul_le_mul_of_nonpos_left h1 (not_lt.mp hc)

/-- No point of the box is farther in front of a plane than the positive
vertex. -/
theorem signedDist_le_pVertex (p : Vec4) (boxMin boxMax q : Vec3)
    (hq : InBox boxMin boxMax q) :
    signedDist p q ≤ signedDist p (pVertex p boxMin boxMax) := by
  obtain ⟨h1, h2, h3, h4, h5, h6⟩ := hq
  have hx := axis_le p.x boxMin.x boxMax.x q.x h1 h2
  have hy := axis_le p.y boxMin.y boxMax.y q.y h3 h4
  have hz := axis_le p.z boxMin.z boxMax.z q.z h5 h6
  unfold signedDist pVertex
  simp only
  linarith

/-- The positive vertex is one of the eight corners. -/
theorem pVertex_mem_corners (p : Vec4) (boxMin boxMax : Vec3) :
    pVertex p boxMin boxMax ∈ corners boxMin boxMax := by
  unfold pVertex corners
  by_cases hx : p.x > 0 <;> by_cases hy : p.y > 0 <;> by_cases hz : p.z > 0 <;>
    simp [hx, hy, hz]

/-- Every corner of an ordered box lies in the box. -/
theorem corner_inBox (boxMin boxMax q : Vec3) (hb : BoxOrdered boxMin boxMax)
    (hq : q ∈ corners boxMin boxMax) : InBox boxMin boxMax q := by
  obtain ⟨hx, hy, hz⟩ := hb
  unfold corners at hq
  simp only [List.mem_cons, List.mem_singleton, List.not_mem_nil, or_false] at hq
  rcases hq with h | h | h | h | h | h | h | h <;> subst h <;>
    exact ⟨by first | exact le_refl _ | exact hx, by first | exact le_refl _ | exact hx,
           by first | exact le_refl _ | exact hy, by first | exact le_refl _ | exact hy,
           by first | exact le_refl _ | exact hz, by first | exact le_refl _ | exact hz⟩

/-- The culling loop answers `false` exactly when the computed `dp` of some
plane is negative. -/
theorem intersect_false_iff (planes : List Vec4) (boxMin boxMax : Vec3) :
    intersectFrustumAABB planes boxMin boxMax = false ↔
      ∃ p ∈ planes, (dp p boxMin boxMax).lt (F32.finite 0) = true := by
  induction planes with
  | nil => simp [intersectFrustumAABB]
  | cons p rest ih =>
    unfold intersectFrustumAABB
    by_cases hp : (dp p boxMin boxMax).lt (F32.finite 0) = true
    · simp [hp]
    · simp [hp, ih]

/-- For an ordered box, all eight corners are behind a plane exactly when the
positive vertex is. -/
theorem corners_neg_iff (p : Vec4) (boxMin boxMax : Vec3)
    (hb : BoxOrdered boxMin boxMax) :
    (∀ q ∈ corners boxMin boxMax, signedDist p q < 0) ↔
      signedDist p (pVertex p boxMin boxMax) < 0 := by
  constructor
  · intro h
    exact h _ (pVertex_mem_corners p boxMin boxMax)
  · intro h q hq
    exact lt_of_le_of_lt
      (signedDist_le_pVertex p boxMin boxMax q (corner_inBox boxMin boxMax q hb hq)) h

/-- The coordinate of the box read by the index trick is the coordinate of the
positive vertex. -/
theorem boxAt_pIndex (p : Vec4) (boxMin boxMax : Vec3) :
    (boxAt boxMin boxMax (pIndex p.x)).x = (pVertex p boxMin boxMax).x ∧
    (boxAt boxMin boxMax (pIndex p.y)).y = (pVertex p boxMin boxMax).y ∧
    (boxAt boxMin boxMax (pIndex p.z)).z = (pVertex p boxMin boxMax).z := by
  unfold boxAt pIndex pVertex
  by_cases hx : p.x > 0 <;> by_cases hy : p.y > 0 <;> by_cases hz : p.z > 0 <;>
    simp [hx, hy, hz]

/-- The value of `dp`, from the values returned by its three products and
three sums. -/
theorem dp_eval (p : Vec4) (boxMin boxMax : Vec3) (m1 m2 m3 s1 s2 s3 : ℚ)
    (h1 : F32.round (p.x * (pVertex p boxMin boxMax).x) = F32.finite m1)
    (h2 : F32.round (p.y * (pVertex p boxMin boxMax).y) = F32.finite m2)
    (h3 : F32.round (p.z * (pVertex p boxMin boxMax).z) = F32.finite m3)
    (h4 : F32.round (m1 + m2) = F32.finite s1)
    (h5 : F32.round (s1 + m3) = F32.finite s2)
    (h6 : F32.round (s2 + p.w) = F32.finite s3) :
    dp p boxMin boxMax = F32.finite s3 := by
  obtain ⟨hx, hy, hz⟩ := boxAt_pIndex p boxMin boxMax
  unfold dp
  simp only [hx, hy, hz, F32.mul, F32.add, h1, h2, h3, h4, h5, h6]

/-- The sign test on a `dp` that is exact is the sign test on the plane value
at the positive vertex. -/
theorem dp_lt_of_exact (p : Vec4) (boxMin boxMax : Vec3) (h : DpExact p boxMin boxMax) :
    ((dp p boxMin boxMax).lt (F32.finite 0) = true ↔
      signedDist p (pVertex p boxMin boxMax) < 0) := by
  rw [h]
  simp [F32.lt]

/-- An integer below `2^24` in magnitude is a `float`. -/
theorem F32.round_int (n : Int) (h1 : -(2 ^ 24) < n) (h2 : n < 2 ^ 24) :
    F32.round (n : ℚ) = F32.finite (n : ℚ) := by
  have h3 : -(2 : ℚ) ^ 24 < (n : ℚ) := by exact_mod_cast h1
  have h4 : (n : ℚ) < (2 : ℚ) ^ 24 := by exact_mod_cast h2
  refine F32.round_dyadic _ _ n 0 ⟨by simp, rfl, h1, h2, by norm_num, ?_, ?_⟩
  · have : -(2 : ℚ) ^ 128 < -(2 : ℚ) ^ 24 := by norm_num
    linarith
  · have : (2 : ℚ) ^ 24 < (2 : ℚ) ^ 128 := by norm_num
    linarith

/-- The product of two integers of magnitude at most `2048` has magnitude at
most `2^22`. -/
theorem smallInt_mul_bound (a b : Int) (ha1 : -2048 ≤ a) (ha2 : a ≤ 2048)
    (hb1 : -2048 ≤ b) (hb2 : b ≤ 2048) : -4194304 ≤ a * b ∧ a * b ≤ 4194304 := by
  have h := abs_mul a b
  have h1 : |a| ≤ 2048 := abs_le.mpr ⟨ha1, ha2⟩
  have h2 : |b| ≤ 2048 := abs_le.mpr ⟨hb1, hb2⟩
  have h3 : |a| * |b| ≤ 2048 * 2048 := mul_le_mul h1 h2 (abs_nonneg b) (by norm_num)
  have h4 : |a * b| ≤ 4194304 := by
    rw [h]
    linarith
  exact abs_le.mp h4

/-- For a plane and a box whose entries are integers of magnitude at most
`2048`, `dp` is computed without rounding. -/
theorem dp_exact_of_smallInt (p : Vec4) (boxMin boxMax : Vec3) (hp : SmallIntPlane p)
    (hmin : SmallIntPoint boxMin) (hmax : SmallIntPoint boxMax) :
    DpExact p boxMin boxMax := by
  obtain ⟨⟨a, ha, ha1, ha2⟩, ⟨b, hb, hb1, hb2⟩, ⟨c, hc, hc1, hc2⟩, ⟨d, hd, hd1, hd2⟩⟩ := hp
  have hvx : SmallInt (pVertex p boxMin boxMax).x := by
    show SmallInt (if p.x > 0 then boxMax.x else boxMin.x)
    split
    · exact hmax.1
    · exact hmin.1
  have hvy : SmallInt (pVertex p boxMin boxMax).y := by
    show SmallInt (if p.y > 0 then boxMax.y else boxMin.y)
    split
    · exact hmax.2.1
    · exact hmin.2.1
  have hvz : SmallInt (pVertex p boxMin boxMax).z := by
    show SmallInt (if p.z > 0 then boxMax.z else boxMin.z)
    split
    · exact hmax.2.2
    · exact hmin.2.2
  obtain ⟨x, hx, hx1, hx2⟩ := hvx
  obtain ⟨y, hy, hy1, hy2⟩ := hvy
  obtain ⟨z, hz, hz1, hz2⟩ := hvz
  obtain ⟨hax1, hax2⟩ := smallInt_mul_bound a x ha1 ha2 hx1 hx2
  obtain ⟨hby1, hby2⟩ := smallInt_mul_bound b y hb1 hb2 hy1 hy2
  obtain ⟨hcz1, hcz2⟩ := smallInt_mul_bound c z hc1 hc2 hz1 hz2
  unfold DpExact
  rw [dp_eval p boxMin boxMax ((a * x : Int) : ℚ) ((b * y : Int) : ℚ) ((c * z : Int) : ℚ)
    ((a * x + b * y : Int) : ℚ) ((a * x + b * y + c * z : Int) : ℚ)
    ((a * x + b * y + c * z + d : Int) : ℚ)
    (by rw [ha, hx, ← Int.cast_mul]; exact F32.round_int _ (by omega) (by omega))
    (by rw [hb, hy, ← Int.cast_mul]; exact F32.round_int _ (by omega) (by omega))
    (by rw [hc, hz, ← Int.cast_mul]; exact F32.round_int _ (by omega) (by omega))
    (by rw [← Int.cast_add]; exact F32.round_int _ (by omega) (by omega))
    (by rw [← Int.cast_add]; exact F32.round_int _ (by omega) (by omega))
    (by rw [hd, ← Int.cast_add]; exact F32.round_int _ (by omega) (by omega))]
  unfold signedDist
  rw [ha, hb, hc, hd, hx, hy, hz]
  push_cast
  ring_nf

/-- A `dp` that is exact is not negative when the plane value at the positive
vertex is not. -/
theorem dp_not_lt_of_exact (p : Vec4) (boxMin boxMax : Vec3) (h : DpExact p boxMin boxMax)
    (h0 : 0 ≤ signedDist p (pVertex p boxMin boxMax)) :
    (dp p boxMin boxMax).lt (F32.finite 0) = false := by
  cases hlt : (dp p boxMin boxMax).lt (F32.finite 0) with
  | false => rfl
  | true =>
    have := (dp_lt_of_exact p boxMin boxMax h).mp hlt
    linarith

/-- C9, counterexample: the box `(0, 0, 2^25) .. (2^25, 1, 2^25 + 4)` has the
point `(2^25, 1, 2^25)` at the signed distance `1/2` in front of the plane
`(1, 1, -1, -1/2)`, and the test culls it: the sum `2^25 + 1` of the first two
products is rounded to `2^25`, so the computed `dp` is `-1/2`. -/
theorem intersectFrustumAABB_culls_visible_box :
    BoxOrdered ⟨0, 0, 2 ^ 25⟩ ⟨2 ^ 25, 1, 2 ^ 25 + 4⟩ ∧
    InBox ⟨0, 0, 2 ^ 25⟩ ⟨2 ^ 25, 1, 2 ^ 25 + 4⟩ ⟨2 ^ 25, 1, 2 ^ 25⟩ ∧
    signedDist ⟨1, 1, -1, -1/2⟩ ⟨2 ^ 25, 1, 2 ^ 25⟩ = 1/2 ∧
    dp ⟨1, 1, -1, -1/2⟩ ⟨0, 0, 2 ^ 25⟩ ⟨2 ^ 25, 1, 2 ^ 25 + 4⟩ = F32.finite (-1/2) ∧
    intersectFrustumAABB [⟨1, 1, -1, -1/2⟩] ⟨0, 0, 2 ^ 25⟩ ⟨2 ^ 25, 1, 2 ^ 25 + 4⟩ = false := by
  have hdp : dp ⟨1, 1, -1, -1/2⟩ ⟨0, 0, 2 ^ 25⟩ ⟨2 ^ 25, 1, 2 ^ 25 + 4⟩ = F32.finite (-1/2) :=
    dp_eval _ _ _ (2 ^ 25) 1 (-2 ^ 25) (2 ^ 25) 0 (-1/2)
      (F32.round_dyadic _ _ 1 25 (by norm_num [pVertex]))
      (F32.round_dyadic _ _ 1 0 (by norm_num [pVertex]))
      (F32.round_dyadic _ _ (-1) 25 (by norm_num [pVertex]))
      (F32.round_near _ _ 25 (2 ^ 23) (by norm_num))
      (F32.round_dyadic _ _ 0 0 (by norm_num))
      (F32.round_dyadic _ _ (-1) (-1) (by norm_num))
  refine ⟨by unfold BoxOrdered; norm_num, by unfold InBox; norm_num,
    by unfold signedDist; norm_num, hdp, ?_⟩
  rw [intersect_false_iff]
  exact ⟨⟨1, 1, -1, -1/2⟩, by simp, by rw [hdp]; norm_num [F32.lt]⟩

/-- C9: `intersectFrustumAABB` has no false negatives on the inputs on which
the rounding of `dp` does not turn a plane value of the positive vertex that is
not negative into a negative `dp`. For every list of planes and every box with
`boxMin ≤ boxMax` with that property, if some point of the box has non-negative
signed distance to every plane then the test returns `true`; in particular a
box whose points all lie in front of every plane is accepted. The property
holds when the `dp` of every plane is computed without rounding, and so for
planes and boxes whose entries are integers of magnitude at most `2048`. -/
theorem intersectFrustumAABB_no_false_negative (planes : List Vec4)
    (boxMin boxMax : Vec3) (hb : BoxOrdered boxMin boxMax)
    (hround : ∀ p ∈ planes, 0 ≤ signedDist p (pVertex p boxMin boxMax) →
      (dp p boxMin boxMax).lt (F32.finite 0) = false) :
    ((∃ q, InBox boxMin boxMax q ∧ ∀ p ∈ planes, 0 ≤ signedDist p q) →
        intersectFrustumAABB planes boxMin boxMax = true) ∧
    ((∀ q, InBox boxMin boxMax q → ∀ p ∈ planes, 0 ≤ signedDist p q) →
        intersectFrustumAABB planes boxMin boxMax = true) ∧
    ((∀ p ∈ planes, DpExact p boxMin boxMax) →
      ∀ p ∈ planes, 0 ≤ signedDist p (pVertex p boxMin boxMax) →
        (dp p boxMin boxMax).lt (F32.finite 0) = false) ∧
    ((∀ p ∈ planes, SmallIntPlane p) → SmallIntPoint boxMin → SmallIntPoint boxMax →
      ∀ p ∈ planes, DpExact p boxMin boxMax) := by
  have key : (∃ q, InBox boxMin boxMax q ∧ ∀ p ∈ planes, 0 ≤ signedDist p q) →
      intersectFrustumAABB planes boxMin boxMax = true := by
    rintro ⟨q, hq, hall⟩
    cases hres : intersectFrustumAABB planes boxMin boxMax with
    | true => rfl
    | false =>
      obtain ⟨p, hp, hneg⟩ := (intersect_false_iff planes boxMin boxMax).mp hres
      have h1 := signedDist_le_pVertex p boxMin boxMax q hq
      have h2 := hall p hp
      rw [hround p hp (le_trans h2 h1)] at hneg
      simp at hneg
  refine ⟨key, fun hall => key ⟨boxMin, ?_, hall boxMin ?_⟩,
    fun hex p hp h0 => dp_not_lt_of_exact p boxMin boxMax (hex p hp) h0,
    fun hpl hmin hmax p hp => dp_exact_of_smallInt p boxMin boxMax (hpl p hp) hmin hmax⟩
  · exact ⟨le_refl _, hb.1, le_refl _, hb.2.1, le_refl _, hb.2.2⟩
  · exact ⟨le_refl _, hb.1, le_refl _, hb.2.1, le_refl _, hb.2.2⟩

/-- C9 at a concrete input: the unit box straddles the plane `x = 1/2`,
written `(2, 0, 0, -1)`; its point `(1, 0, 0)` is in front of that plane and of
the plane `(-1, 0, 0, 2)`; all entries are small integers, `dp` is `1` and `2`
for the two planes, and the box is kept. -/
theorem intersectFrustumAABB_no_false_negative_witness :
    BoxOrdered ⟨0, 0, 0⟩ ⟨1, 1, 1⟩ ∧
    (∀ p ∈ [(⟨2, 0, 0, -1⟩ : Vec4), ⟨-1, 0, 0, 2⟩], SmallIntPlane p) ∧
    SmallIntPoint ⟨0, 0, 0⟩ ∧ SmallIntPoint ⟨1, 1, 1⟩ ∧
    dp ⟨2, 0, 0, -1⟩ ⟨0, 0, 0⟩ ⟨1, 1, 1⟩ = F32.finite 1 ∧
    dp ⟨-1, 0, 0, 2⟩ ⟨0, 0, 0⟩ ⟨1, 1, 1⟩ = F32.finite 2 ∧
    InBox ⟨0, 0, 0⟩ ⟨1, 1, 1⟩ ⟨1, 0, 0⟩ ∧
    (∀ p ∈ [(⟨2, 0, 0, -1⟩ : Vec4), ⟨-1, 0, 0, 2⟩], 0 ≤ signedDist p ⟨1, 0, 0⟩) ∧
    intersectFrustumAABB [⟨2, 0, 0, -1⟩, ⟨-1, 0, 0, 2⟩] ⟨0, 0, 0⟩ ⟨1, 1, 1⟩ = true := by
  have hb : BoxOrdered ⟨0, 0, 0⟩ ⟨1, 1, 1⟩ := by unfold BoxOrdered; norm_num
  have hpl : ∀ p ∈ [(⟨2, 0, 0, -1⟩ : Vec4), ⟨-1, 0, 0, 2⟩], SmallIntPlane p := by
    intro p hp
    simp only [List.mem_cons, List.mem_singleton, List.not_mem_nil, or_false] at hp
    rcases hp with rfl | rfl
    · refine ⟨⟨2, ?_, ?_, ?_⟩, ⟨0, ?_, ?_, ?_⟩, ⟨0, ?_, ?_, ?_⟩, ⟨-1, ?_, ?_, ?_⟩⟩ <;> norm_num
    · refine ⟨⟨-1, ?_, ?_, ?_⟩, ⟨0, ?_, ?_, ?_⟩, ⟨0, ?_, ?_, ?_⟩, ⟨2, ?_, ?_, ?_⟩⟩ <;> norm_num
  have hmin : SmallIntPoint ⟨0, 0, 0⟩ := by
    refine ⟨⟨0, ?_, ?_, ?_⟩, ⟨0, ?_, ?_, ?_⟩, ⟨0, ?_, ?_, ?_⟩⟩ <;> norm_num
  have hmax : SmallIntPoint ⟨1, 1, 1⟩ := by
    refine ⟨⟨1, ?_, ?_, ?_⟩, ⟨1, ?_, ?_, ?_⟩, ⟨1, ?_, ?_, ?_⟩⟩ <;> norm_num
  have hex : ∀ p ∈ [(⟨2, 0, 0, -1⟩ : Vec4), ⟨-1, 0, 0, 2⟩], DpExact p ⟨0, 0, 0⟩ ⟨1, 1, 1⟩ :=
    fun p hp => dp_exact_of_smallInt p _ _ (hpl p hp) hmin hmax
  have hin : InBox ⟨0, 0, 0⟩ ⟨1, 1, 1⟩ ⟨1, 0, 0⟩ := by unfold InBox; norm_num
  have hfront : ∀ p ∈ [(⟨2, 0, 0, -1⟩ : Vec4), ⟨-1, 0, 0, 2⟩], 0 ≤ signedDist p ⟨1, 0, 0⟩ := by
    intro p hp
    simp only [List.mem_cons, List.mem_singleton, List.not_mem_nil, or_false] at hp
    rcases hp with h | h <;> subst h <;> unfold signedDist <;> norm_num
  have hd1 : dp ⟨2, 0, 0, -1⟩ ⟨0, 0, 0⟩ ⟨1, 1, 1⟩ = F32.finite 1 := by
    rw [hex _ (by simp)]
    norm_num [signedDist, pVertex]
  have hd2 : dp ⟨-1, 0, 0, 2⟩ ⟨0, 0, 0⟩ ⟨1, 1, 1⟩ = F32.finite 2 := by
    rw [hex _ (by simp)]
    norm_num [signedDist, pVertex]
  exact ⟨hb, hpl, hmin, hmax, hd1, hd2, hin, hfront,
    (intersectFrustumAABB_no_false_negative
      [⟨2, 0, 0, -1⟩, ⟨-1, 0, 0, 2⟩] ⟨0, 0, 0⟩ ⟨1, 1, 1⟩ hb
      (fun p hp h0 => dp_not_lt_of_exact p _ _ (hex p hp) h0)).1 ⟨⟨1, 0, 0⟩, hin, hfront⟩⟩

/-- C10, counterexample: all eight corners of the box
`(0, 1, 0) .. (2^26, 2, 1)` are behind the plane `(1, -1, 0, -2^26)`, the
positive vertex `(2^26, 1, 0)` at the signed distance `-1`, and the test does
not reject the box: the sum `2^26 - 1` of the first two products is rounded to
`2^26`, so the computed `dp` is `0`. -/
theorem intersectFrustumAABB_keeps_hidden_box :
    BoxOrdered ⟨0, 1, 0⟩ ⟨2 ^ 26, 2, 1⟩ ∧
    (∀ q ∈ corners ⟨0, 1, 0⟩ ⟨2 ^ 26, 2, 1⟩, signedDist ⟨1, -1, 0, -2 ^ 26⟩ q < 0) ∧
    signedDist ⟨1, -1, 0, -2 ^ 26⟩ (pVertex ⟨1, -1, 0, -2 ^ 26⟩ ⟨0, 1, 0⟩ ⟨2 ^ 26, 2, 1⟩) = -1 ∧
    dp ⟨1, -1, 0, -2 ^ 26⟩ ⟨0, 1, 0⟩ ⟨2 ^ 26, 2, 1⟩ = F32.finite 0 ∧
    intersectFrustumAABB [⟨1, -1, 0, -2 ^ 26⟩] ⟨0, 1, 0⟩ ⟨2 ^ 26, 2, 1⟩ = true := by
  have hdp : dp ⟨1, -1, 0, -2 ^ 26⟩ ⟨0, 1, 0⟩ ⟨2 ^ 26, 2, 1⟩ = F32.finite 0 :=
    dp_eval _ _ _ (2 ^ 26) (-1) 0 (2 ^ 26) (2 ^ 26) 0
      (F32.round_dyadic _ _ 1 26 (by norm_num [pVertex]))
      (F32.round_dyadic _ _ (-1) 0 (by norm_num [pVertex]))
      (F32.round_dyadic _ _ 0 0 (by norm_num [pVertex]))
      (F32.round_near _ _ 25 (2 ^ 24) (by norm_num))
      (F32.round_dyadic _ _ 1 26 (by norm_num))
      (F32.round_dyadic _ _ 0 0 (by norm_num))
  refine ⟨by unfold BoxOrdered; norm_num, ?_, by norm_num [signedDist, pVertex], hdp, ?_⟩
  · intro q hq
    unfold corners at hq
    simp only [List.mem_cons, List.mem_singleton, List.not_mem_nil, or_false] at hq
    rcases hq with h | h | h | h | h | h | h | h <;> subst h <;>
      unfold signedDist <;> norm_num
  · cases hres : intersectFrustumAABB [⟨1, -1, 0, -2 ^ 26⟩] ⟨0, 1, 0⟩ ⟨2 ^ 26, 2, 1⟩ with
    | true => rfl
    | false =>
      obtain ⟨p, hp, hneg⟩ := (intersect_false_iff _ _ _).mp hres
      simp only [List.mem_singleton] at hp
      subst hp
      rw [hdp] at hneg
      simp [F32.lt] at hneg

/-- C10: for every list of planes and every box, `intersectFrustumAABB`
returns `false` if and only if the computed `dp` of some plane is negative. On
the inputs on which the rounding keeps the sign of `dp`, and for a box with
`boxMin ≤ boxMax`, that is: if and only if there is a plane to which all eight
corners of the box have negative signed distance; for each plane that is the
same as the positive vertex having negative signed distance; so a box lying
fully behind one of the planes is rejected. The rounding keeps the sign when
the `dp` of every plane is computed without rounding, and so for planes and
boxes whose entries are integers of magnitude at most `2048`. -/
theorem intersectFrustumAABB_false_iff (planes : List Vec4)
    (boxMin boxMax : Vec3) (hb : BoxOrdered boxMin boxMax)
    (hround : ∀ p ∈ planes, ((dp p boxMin boxMax).lt (F32.finite 0) = true ↔
      signedDist p (pVertex p boxMin boxMax) < 0)) :
    (intersectFrustumAABB planes boxMin boxMax = false ↔
        ∃ p ∈ planes, (dp p boxMin boxMax).lt (F32.finite 0) = true) ∧
    (intersectFrustumAABB planes boxMin boxMax = false ↔
        ∃ p ∈ planes, ∀ q ∈ corners boxMin boxMax, signedDist p q < 0) ∧
    (∀ p : Vec4, (∀ q ∈ corners boxMin boxMax, signedDist p q < 0) ↔
        signedDist p (pVertex p boxMin boxMax) < 0) ∧
    (∀ p ∈ planes, (∀ q, InBox boxMin boxMax q → signedDist p q < 0) →
        intersectFrustumAABB planes boxMin boxMax = false) ∧
    ((∀ p ∈ planes, DpExact p boxMin boxMax) →
      ∀ p ∈ planes, ((dp p boxMin boxMax).lt (F32.finite 0) = true ↔
        signedDist p (pVertex p boxMin boxMax) < 0)) ∧
    ((∀ p ∈ planes, SmallIntPlane p) → SmallIntPoint boxMin → SmallIntPoint boxMax →
      ∀ p ∈ planes, DpExact p boxMin boxMax) := by
  have h1 : intersectFrustumAABB planes boxMin boxMax = false ↔
      ∃ p ∈ planes, ∀ q ∈ corners boxMin boxMax, signedDist p q < 0 := by
    rw [intersect_false_iff]
    constructor
    · rintro ⟨p, hp, hneg⟩
      exact ⟨p, hp, (corners_neg_iff p boxMin boxMax hb).mpr ((hround p hp).mp hneg)⟩
    · rintro ⟨p, hp, hneg⟩
      exact ⟨p, hp, (hround p hp).mpr ((corners_neg_iff p boxMin boxMax hb).mp hneg)⟩
  refine ⟨intersect_false_iff planes boxMin boxMax, h1,
    fun p => corners_neg_iff p boxMin boxMax hb, ?_,
    fun hex p hp => dp_lt_of_exact p boxMin boxMax (hex p hp),
    fun hpl hmin hmax p hp => dp_exact_of_smallInt p boxMin boxMax (hpl p hp) hmin hmax⟩
  intro p hp hall
  exact h1.mpr ⟨p, hp, fun q hq => hall q (corner_inBox boxMin boxMax q hb hq)⟩

/-- C10 at a concrete input: the unit box lies behind the plane `x ≥ 2`,
written `(1, 0, 0, -2)`, whose eight corner values are all negative; all
entries are small integers, `dp` is `-1` for that plane, and the test rejects
the box. -/
theorem intersectFrustumAABB_false_iff_witness :
    BoxOrdered ⟨0, 0, 0⟩ ⟨1, 1, 1⟩ ∧
    (∀ p ∈ [(⟨0, 1, 0, 0⟩ : Vec4), ⟨1, 0, 0, -2⟩], SmallIntPlane p) ∧
    SmallIntPoint ⟨0, 0, 0⟩ ∧ SmallIntPoint ⟨1, 1, 1⟩ ∧
    dp ⟨1, 0, 0, -2⟩ ⟨0, 0, 0⟩ ⟨1, 1, 1⟩ = F32.finite (-1) ∧
    (∀ q ∈ corners ⟨0, 0, 0⟩ ⟨1, 1, 1⟩, signedDist ⟨1, 0, 0, -2⟩ q < 0) ∧
    intersectFrustumAABB [⟨0, 1, 0, 0⟩, ⟨1, 0, 0, -2⟩] ⟨0, 0, 0⟩ ⟨1, 1, 1⟩ = false := by
  have hb : BoxOrdered ⟨0, 0, 0⟩ ⟨1, 1, 1⟩ := by unfold BoxOrdered; norm_num
  have hpl : ∀ p ∈ [(⟨0, 1, 0, 0⟩ : Vec4), ⟨1, 0, 0, -2⟩], SmallIntPlane p := by
    intro p hp
    simp only [List.mem_cons, List.mem_singleton, List.not_mem_nil, or_false] at hp
    rcases hp with rfl | rfl
    · refine ⟨⟨0, ?_, ?_, ?_⟩, ⟨1, ?_, ?_, ?_⟩, ⟨0, ?_, ?_, ?_⟩, ⟨0, ?_, ?_, ?_⟩⟩ <;> norm_num
    · refine ⟨⟨1, ?_, ?_, ?_⟩, ⟨0, ?_, ?_, ?_⟩, ⟨0, ?_, ?_, ?_⟩, ⟨-2, ?_, ?_, ?_⟩⟩ <;> norm_num
  have hmin : SmallIntPoint ⟨0, 0, 0⟩ := by
    refine ⟨⟨0, ?_, ?_, ?_⟩, ⟨0, ?_, ?_, ?_⟩, ⟨0, ?_, ?_, ?_⟩⟩ <;> norm_num
  have hmax : SmallIntPoint ⟨1, 1, 1⟩ := by
    refine ⟨⟨1, ?_, ?_, ?_⟩, ⟨1, ?_, ?_, ?_⟩, ⟨1, ?_, ?_, ?_⟩⟩ <;> norm_num
  have hex : ∀ p ∈ [(⟨0, 1, 0, 0⟩ : Vec4), ⟨1, 0, 0, -2⟩], DpExact p ⟨0, 0, 0⟩ ⟨1, 1, 1⟩ :=
    fun p hp => dp_exact_of_smallInt p _ _ (hpl p hp) hmin hmax
  have hd : dp ⟨1, 0, 0, -2⟩ ⟨0, 0, 0⟩ ⟨1, 1, 1⟩ = F32.finite (-1) := by
    rw [hex _ (by simp)]
    norm_num [signedDist, pVertex]
  have hcorn : ∀ q ∈ corners ⟨0, 0, 0⟩ ⟨1, 1, 1⟩, signedDist ⟨1, 0, 0, -2⟩ q < 0 := by
    intro q hq
    unfold corners at hq
    simp only [List.mem_cons, List.mem_singleton, List.not_mem_nil, or_false] at hq
    rcases hq with h | h | h | h | h | h | h | h <;> subst h <;>
      unfold signedDist <;> norm_num
  exact ⟨hb, hpl, hmin, hmax, hd, hcorn, (intersectFrustumAABB_false_iff
      [⟨0, 1, 0, 0⟩, ⟨1, 0, 0, -2⟩] ⟨0, 0, 0⟩ ⟨1, 1, 1⟩ hb
      (fun p hp => dp_lt_of_exact p _ _ (hex p hp))).2.1.mpr
      ⟨⟨1, 0, 0, -2⟩, by simp, hcorn⟩⟩

/-! ### Region capture -/

/-- A pose built by `Transform(x, y, z, 0, 0, 0)` is never null. -/
theorem ofXYZ_not_null (x y z : ℚ) : (Transform.ofXYZ x y z).isNull = false := by
  simp [Transform.ofXYZ, Transform.isNull]

/-- Erasing a marker changes `markers_` only. -/
theorem eraseMarker_eq (s : Scene) (id : Int) :
    ∃ m, eraseMarker s id = { s with markers_ := m } := by
  unfold eraseMarker
  split
  · exact ⟨_, rfl⟩
  · exact ⟨s.markers_, rfl⟩

/-- With a pose that is not null, `setMarkerPose` succeeds and changes
`markers_` only. -/
theorem setMarkerPose_eq (s : Scene) (id : Int) (pose : Transform)
    (hp : pose.isNull = false) :
    ∃ m, setMarkerPose s id pose = some { s with markers_ := m } := by
  unfold setMarkerPose
  simp only [hp, Bool.false_eq_true, if_false]
  split
  · exact ⟨_, rfl⟩
  · exact ⟨s.markers_, rfl⟩

/-- On an open polygon `addMarker2` records `id` and `pose` at the end of the
region and touches nothing but the marker set. -/
theorem addMarker2_open (s : Scene) (id : Int) (pose : Transform)
    (ho : s.polygonClosed_ = false) (hp : pose.isNull = false) :
    ∃ m, addMarker2 s id pose = some { s with
      markers_ := m
      markerOrder_ := s.markerOrder_ ++ [id]
      markerPoses_ := s.markerPoses_ ++ [pose] } := by
  unfold addMarker2
  rw [if_neg (by simp [ho])]
  obtain ⟨m1, h1⟩ := eraseMarker_eq s id
  rw [h1]
  obtain ⟨m2, h2⟩ := setMarkerPose_eq
    { s with markers_ := mapInsert m1 id { Axis.new with scale := ⟨0, 1/5, 0⟩, lineWidth := 10 } }
    id pose hp
  simp only [h2]
  exact ⟨m2, rfl⟩

/-- On a closed polygon `addMarker2` is ignored. -/
theorem addMarker2_closed (s : Scene) (id : Int) (pose : Transform)
    (hc : s.polygonClosed_ = true) : addMarker2 s id pose = some s := by
  unfold addMarker2
  simp [hc]

/-- `addMarker` has no guard: with a pose that is not null it records `id`
and `pose` at the end of the region whatever `polygonClosed_` is. -/
theorem addMarker_appends (s : Scene) (id : Int) (pose : Transform)
    (hp : pose.isNull = false) :
    ∃ m, addMarker s id pose = some { s with
      markers_ := m
      markerOrder_ := s.markerOrder_ ++ [id]
      markerPoses_ := s.markerPoses_ ++ [pose] } := by
  unfold addMarker
  obtain ⟨m1, h1⟩ := eraseMarker_eq s id
  rw [h1]
  obtain ⟨m2, h2⟩ := setMarkerPose_eq
    { s with markers_ := mapInsert m1 id { Axis.new with scale := ⟨1/20, 1/20, 1/20⟩, lineWidth := 5 } }
    id pose hp
  simp only [h2]
  exact ⟨m2, rfl⟩

/-- The closure test succeeds exactly when at least 3 points are captured and
the computed squared distance to the first of them is below `0.09f`. -/
theorem closesPolygon_iff (s : Scene) (point : Vec3) :
    closesPolygon s point = true ↔
      3 ≤ s.markerPoses_.length ∧
      ∃ front, s.markerPoses_.head? = some front ∧
        (distSq front point).lt closeThreshold = true := by
  unfold closesPolygon
  cases h : s.markerPoses_ with
  | nil => simp
  | cons a l => simp

/-- With at least 3 points captured, the closure test is the comparison of the
computed squared distance with `0.09f`. -/
theorem closesPolygon_of_front (s : Scene) (point : Vec3) (front : Transform)
    (hlen : 3 ≤ s.markerPoses_.length) (hfront : s.markerPoses_.head? = some front) :
    closesPolygon s point = (distSq front point).lt closeThreshold := by
  unfold closesPolygon
  cases h : s.markerPoses_ with
  | nil => rw [h] at hfront; simp at hfront
  | cons a l =>
    rw [h] at hfront hlen
    simp only [List.head?_cons, Option.some.injEq] at hfront
    subst hfront
    simp only [ge_iff_le, decide_eq_true hlen, Bool.true_and]

/-- The value of `distSq`, from the values returned by its three differences,
three products and two sums. -/
theorem distSq_eval (front : Transform) (point : Vec3) (dx dy dz xx yy zz s1 s2 : ℚ)
    (h1 : F32.round (front.x - point.x) = F32.finite dx)
    (h2 : F32.round (front.y - point.y) = F32.finite dy)
    (h3 : F32.round (front.z - point.z) = F32.finite dz)
    (h4 : F32.round (dx * dx) = F32.finite xx)
    (h5 : F32.round (dy * dy) = F32.finite yy)
    (h6 : F32.round (dz * dz) = F32.finite zz)
    (h7 : F32.round (xx + yy) = F32.finite s1)
    (h8 : F32.round (s1 + zz) = F32.finite s2) :
    distSq front point = F32.finite s2 := by
  unfold distSq
  simp only [F32.sub, F32.mul, F32.add, h1, h2, h3, h4, h5, h6, h7, h8]

/-- The `float` literal `0.09f` is `3019899 / 2^25`, a little above `9/100`. -/
theorem closeThreshold_eq : closeThreshold = F32.finite (3019899/33554432) :=
  F32.round_near _ _ (-4) 12079596 (by norm_num)

/-- Picks applied one after the other compose. -/
theorem croppingPicks_append (s : Scene) (l1 l2 : List Vec3) :
    croppingPicks s (l1 ++ l2) =
      (croppingPicks s l1).bind (fun s1 => croppingPicks s1 l2) := by
  induction l1 generalizing s with
  | nil => simp [croppingPicks]
  | cons a l ih =>
    simp only [List.cons_append, croppingPicks]
    cases h : croppingPick s a with
    | none => simp
    | some r => simp [ih]

/-- A pick that passes the closure test closes the polygon and returns. -/
theorem croppingPick_of_closes (s : Scene) (point : Vec3)
    (hc : closesPolygon s point = true) :
    croppingPick s point =
      some ({ s with polygonClosed_ := true, doubleTapOn_ := false }, true) := by
  unfold croppingPick
  simp [hc]

/-- A pick that fails the closure test on an open polygon appends the point
with the id held by the counter, and steps the counter. -/
theorem croppingPick_of_not_closes (s : Scene) (point : Vec3)
    (ho : s.polygonClosed_ = false) (hc : closesPolygon s point = false) :
    ∃ m, croppingPick s point = some ({ s with
      markers_ := m
      markerOrder_ := s.markerOrder_ ++ [s.markerId]
      markerPoses_ := s.markerPoses_ ++ [Transform.ofXYZ point.x point.y point.z]
      markerId := s.markerId + 1 }, false) := by
  unfold croppingPick
  rw [if_neg (by simp [hc])]
  obtain ⟨m, hm⟩ := addMarker2_open { s with markerId := s.markerId + 1 } s.markerId
    (Transform.ofXYZ point.x point.y point.z) ho (ofXYZ_not_null _ _ _)
  simp only [hm]
  exact ⟨m, rfl⟩

/-- A pick on a closed polygon leaves the region as it is. -/
theorem croppingPick_closed (s : Scene) (point : Vec3)
    (hc : s.polygonClosed_ = true) :
    ∃ s1 b, croppingPick s point = some (s1, b) ∧
      s1.markerPoses_ = s.markerPoses_ ∧ s1.markerOrder_ = s.markerOrder_ ∧
      s1.markers_ = s.markers_ ∧ s1.polygonClosed_ = true := by
  cases h : closesPolygon s point with
  | true =>
    exact ⟨_, true, croppingPick_of_closes s point h, rfl, rfl, rfl, rfl⟩
  | false =>
    refine ⟨{ s with markerId := s.markerId + 1 }, false, ?_, rfl, rfl, rfl, hc⟩
    unfold croppingPick
    rw [if_neg (by simp [h])]
    simp only [addMarker2_closed { s with markerId := s.markerId + 1 } s.markerId _ hc]

/-- A pick that does not return early from an open polygon has appended the
id held by the counter. -/
theorem croppingPick_next_id (s1 : Scene) (q : Vec3) (s2 : Scene)
    (hq : croppingPick s1 q = some (s2, false)) (ho : s1.polygonClosed_ = false) :
    s2.markerOrder_ = s1.markerOrder_ ++ [s1.markerId] := by
  cases hcq : closesPolygon s1 q with
  | true =>
    rw [croppingPick_of_closes s1 q hcq] at hq
    simp at hq
  | false =>
    obtain ⟨m2, hm2⟩ := croppingPick_of_not_closes s1 q ho hcq
    rw [hm2] at hq
    simp only [Option.some.injEq, Prod.mk.injEq, and_true] at hq
    rw [← hq]

/-- The squared distance computed for the pick `(1/8, 0, 1/8)` and the first
point `(0, 0, 0)` is `1/32`, with no rounding. -/
theorem distSq_eighth :
    distSq (Transform.ofXYZ 0 0 0) ⟨1/8, 0, 1/8⟩ = F32.finite (1/32) :=
  distSq_eval _ _ (-1/8) 0 (-1/8) (1/64) 0 (1/64) (1/64) (1/32)
    (F32.round_dyadic _ _ (-1) (-3)
      (by norm_num [Transform.x, Transform.y, Transform.z, Transform.ofXYZ]))
    (F32.round_dyadic _ _ 0 0
      (by norm_num [Transform.x, Transform.y, Transform.z, Transform.ofXYZ]))
    (F32.round_dyadic _ _ (-1) (-3)
      (by norm_num [Transform.x, Transform.y, Transform.z, Transform.ofXYZ]))
    (F32.round_dyadic _ _ 1 (-6) (by norm_num))
    (F32.round_dyadic _ _ 0 0 (by norm_num))
    (F32.round_dyadic _ _ 1 (-6) (by norm_num))
    (F32.round_dyadic _ _ 1 (-6) (by norm_num))
    (F32.round_dyadic _ _ 1 (-5) (by norm_num))

/-- The pick `(1/8, 0, 1/8)` passes the closure test against the first point
`(0, 0, 0)`. -/
theorem distSq_eighth_lt :
    (distSq (Transform.ofXYZ 0 0 0) ⟨1/8, 0, 1/8⟩).lt closeThreshold = true := by
  rw [distSq_eighth, closeThreshold_eq]
  norm_num [F32.lt]

/-- The squared distance computed for the pick `(5, 5, 5)` and the first point
`(0, 0, 0)` is `75`, with no rounding. -/
theorem distSq_far :
    distSq (Transform.ofXYZ 0 0 0) ⟨5, 5, 5⟩ = F32.finite 75 :=
  distSq_eval _ _ (-5) (-5) (-5) 25 25 25 50 75
    (F32.round_dyadic _ _ (-5) 0
      (by norm_num [Transform.x, Transform.y, Transform.z, Transform.ofXYZ]))
    (F32.round_dyadic _ _ (-5) 0
      (by norm_num [Transform.x, Transform.y, Transform.z, Transform.ofXYZ]))
    (F32.round_dyadic _ _ (-5) 0
      (by norm_num [Transform.x, Transform.y, Transform.z, Transform.ofXYZ]))
    (F32.round_dyadic _ _ 25 0 (by norm_num))
    (F32.round_dyadic _ _ 25 0 (by norm_num))
    (F32.round_dyadic _ _ 25 0 (by norm_num))
    (F32.round_dyadic _ _ 50 0 (by norm_num))
    (F32.round_dyadic _ _ 75 0 (by norm_num))

/-- C4, counterexample: on the open region `(0,0,0)`, `(1,0,0)`, `(1,1,0)` the
pick `(9949785 / 2^26, 4375541 / 2^24, 0)`, two `float` values, is at the
squared distance `0.08999999994..` from the first point, below `0.09`. The two
squares are rounded to `2950377 / 2^27` and `9129219 / 2^27`, and their sum,
the computed `distSq`, is the `float` `0.09f = 3019899 / 2^25` itself: the test
`distSq < 0.09f` fails and the pick is appended as a fourth point, the polygon
left open. -/
theorem croppingPick_appends_near_first_point :
    exampleTriangle.polygonClosed_ = false ∧
    3 ≤ exampleTriangle.markerPoses_.length ∧
    exampleTriangle.markerPoses_.head? = some (Transform.ofXYZ 0 0 0) ∧
    distSqExact (Transform.ofXYZ 0 0 0) ⟨9949785/67108864, 4375541/16777216, 0⟩ < 9/100 ∧
    distSq (Transform.ofXYZ 0 0 0) ⟨9949785/67108864, 4375541/16777216, 0⟩ = closeThreshold ∧
    (croppingPick exampleTriangle ⟨9949785/67108864, 4375541/16777216, 0⟩).map
        (fun r => (r.1.markerPoses_, r.1.markerOrder_, r.1.polygonClosed_, r.2)) =
      some ([Transform.ofXYZ 0 0 0, Transform.ofXYZ 1 0 0, Transform.ofXYZ 1 1 0,
          Transform.ofXYZ (9949785/67108864) (4375541/16777216) 0], [1, 2, 3, 4], false, false) := by
  have hd : distSq (Transform.ofXYZ 0 0 0) ⟨9949785/67108864, 4375541/16777216, 0⟩ =
      F32.finite (3019899/33554432) :=
    distSq_eval _ _ (-9949785/67108864) (-4375541/16777216) 0
      (2950377/134217728) (9129219/134217728) 0 (3019899/33554432) (3019899/33554432)
      (F32.round_dyadic _ _ (-9949785) (-26)
        (by norm_num [Transform.x, Transform.y, Transform.z, Transform.ofXYZ]))
      (F32.round_dyadic _ _ (-4375541) (-24)
        (by norm_num [Transform.x, Transform.y, Transform.z, Transform.ofXYZ]))
      (F32.round_dyadic _ _ 0 0
        (by norm_num [Transform.x, Transform.y, Transform.z, Transform.ofXYZ]))
      (F32.round_near _ _ (-6) 11801508 (by norm_num))
      (F32.round_near _ _ (-4) 9129219 (by norm_num))
      (F32.round_dyadic _ _ 0 0 (by norm_num))
      (F32.round_dyadic _ _ 3019899 (-25) (by norm_num))
      (F32.round_dyadic _ _ 3019899 (-25) (by norm_num))
  have hc : closesPolygon exampleTriangle ⟨9949785/67108864, 4375541/16777216, 0⟩ = false := by
    rw [closesPolygon_of_front exampleTriangle _ (Transform.ofXYZ 0 0 0) (by decide) rfl,
      hd, closeThreshold_eq]
    norm_num [F32.lt]
  refine ⟨rfl, by decide, rfl, ?_, by rw [hd, closeThreshold_eq], ?_⟩
  · norm_num [distSqExact, Transform.x, Transform.y, Transform.z, Transform.ofXYZ]
  · obtain ⟨m, hm⟩ := croppingPick_of_not_closes exampleTriangle
      ⟨9949785/67108864, 4375541/16777216, 0⟩ rfl hc
    rw [hm]
    rfl

/-- C4: for every region with at least 3 points and every picked point whose
squared distance to the first captured point, as the code computes it in
`float` (each difference, product and sum rounded), is below the `float`
`0.09f = 3019899 / 2^25`, the cropping pick does not add the point:
`markerPoses_`, `markerOrder_` and `markers_` are unchanged and
`polygonClosed_` becomes true. In particular, after the picks `(0,0,0)`,
`(1,0,0)`, `(1,1,0)` on a new scene, a fourth pick whose computed squared
distance to `(0,0,0)` is below `0.09f` leaves exactly these 3 points and a
closed polygon. -/
theorem croppingPick_closes (s : Scene) (point : Vec3) (front : Transform)
    (hlen : 3 ≤ s.markerPoses_.length)
    (hfront : s.markerPoses_.head? = some front)
    (hdist : (distSq front point).lt closeThreshold = true) :
    (∃ s1, croppingPick s point = some (s1, true) ∧
        s1.markerPoses_ = s.markerPoses_ ∧ s1.markerOrder_ = s.markerOrder_ ∧
        s1.markers_ = s.markers_ ∧ s1.polygonClosed_ = true) ∧
    (∀ p : Vec3, (distSq (Transform.ofXYZ 0 0 0) p).lt closeThreshold = true →
      ∃ s1, croppingPicks Scene.init [⟨0, 0, 0⟩, ⟨1, 0, 0⟩, ⟨1, 1, 0⟩, p] = some s1 ∧
        s1.markerPoses_ =
          [Transform.ofXYZ 0 0 0, Transform.ofXYZ 1 0 0, Transform.ofXYZ 1 1 0] ∧
        s1.markerPoses_.length = 3 ∧ s1.polygonClosed_ = true) ∧
    closeThreshold = F32.finite (3019899/33554432) := by
  refine ⟨?_, ?_, closeThreshold_eq⟩
  · have hc : closesPolygon s point = true :=
      (closesPolygon_iff s point).mpr ⟨hlen, front, hfront, hdist⟩
    refine ⟨{ s with polygonClosed_ := true, doubleTapOn_ := false }, ?_, rfl, rfl, rfl, rfl⟩
    exact croppingPick_of_closes s point hc
  · intro p hp
    have h3 : ∃ s3, croppingPicks Scene.init [⟨0, 0, 0⟩, ⟨1, 0, 0⟩, ⟨1, 1, 0⟩] = some s3 ∧
        s3.markerPoses_ =
          [Transform.ofXYZ 0 0 0, Transform.ofXYZ 1 0 0, Transform.ofXYZ 1 1 0] :=
      ⟨_, rfl, rfl⟩
    obtain ⟨s3, hs3, hposes⟩ := h3
    have hc : closesPolygon s3 p = true :=
      (closesPolygon_iff s3 p).mpr
        ⟨by simp [hposes], Transform.ofXYZ 0 0 0, by simp [hposes], hp⟩
    refine ⟨{ s3 with polygonClosed_ := true, doubleTapOn_ := false }, ?_, hposes, by simp [hposes], rfl⟩
    have happ := croppingPicks_append Scene.init [⟨0, 0, 0⟩, ⟨1, 0, 0⟩, ⟨1, 1, 0⟩] [p]
    simp only [List.cons_append, List.nil_append] at happ
    rw [happ, hs3]
    simp [croppingPicks, croppingPick_of_closes s3 p hc]

/-- C4 at a concrete input: a fourth pick at `(1/8, 0, 1/8)` on the open
region `(0,0,0)`, `(1,0,0)`, `(1,1,0)`; the computed squared distance is
`1/32`, and the region is closed with its 3 points and ids. -/
theorem croppingPick_closes_witness :
    3 ≤ exampleTriangle.markerPoses_.length ∧
    exampleTriangle.markerPoses_.head? = some (Transform.ofXYZ 0 0 0) ∧
    distSq (Transform.ofXYZ 0 0 0) ⟨1/8, 0, 1/8⟩ = F32.finite (1/32) ∧
    (distSq (Transform.ofXYZ 0 0 0) ⟨1/8, 0, 1/8⟩).lt closeThreshold = true ∧
    ∃ s1, croppingPick exampleTriangle ⟨1/8, 0, 1/8⟩ = some (s1, true) ∧
      s1.markerPoses_ =
        [Transform.ofXYZ 0 0 0, Transform.ofXYZ 1 0 0, Transform.ofXYZ 1 1 0] ∧
      s1.markerOrder_ = [1, 2, 3] ∧
      s1.markers_ = exampleTriangle.markers_ ∧ s1.polygonClosed_ = true :=
  have h1 : 3 ≤ exampleTriangle.markerPoses_.length := by decide
  have h2 : exampleTriangle.markerPoses_.head? = some (Transform.ofXYZ 0 0 0) := rfl
  ⟨h1, h2, distSq_eighth, distSq_eighth_lt,
    (croppingPick_closes exampleTriangle ⟨1/8, 0, 1/8⟩ (Transform.ofXYZ 0 0 0) h1 h2
      distSq_eighth_lt).1⟩

/-- C6, evaluated at the failing input: on the closed region
`(0,0,0)`, `(1,0,0)`, `(1,1,0)` the call `addMarker(9, Transform(5,5,5,0,0,0))`
records a fourth point. -/
theorem addMarker_on_closed_region :
    (addMarker exampleClosed 9 (Transform.ofXYZ 5 5 5)).map
        (fun s => (s.markerOrder_, s.markerPoses_, s.polygonClosed_)) =
      some ([1, 2, 3, 9],
        [Transform.ofXYZ 0 0 0, Transform.ofXYZ 1 0 0, Transform.ofXYZ 1 1 0,
         Transform.ofXYZ 5 5 5], true) := by
  rfl

/-! ### Reset -/

/-- The restore loop changes `pointClouds_` only. -/
theorem restoreLoop_eq (originals : StdMap Mesh) (s : Scene) :
    ∃ pc, restoreLoop originals s = { s with pointClouds_ := pc } := by
  induction originals generalizing s with
  | nil => exact ⟨s.pointClouds_, rfl⟩
  | cons e rest ih =>
    obtain ⟨id, original⟩ := e
    unfold restoreLoop
    split
    · split
      · obtain ⟨pc, h⟩ := ih
          { s with pointClouds_ := mapModify s.pointClouds_ id (fun d => d.updateMesh original) }
        exact ⟨pc, h⟩
      · exact ih s
    · exact ih s

/-- Erasing the first marker until none is left empties the map. -/
theorem eraseAllMarkers_eq (markers : StdMap Axis) : eraseAllMarkers markers = [] := by
  induction markers with
  | nil => rfl
  | cons e rest ih => simpa [eraseAllMarkers] using ih

/-- No pick is taken by a frame when no double tap is pending, the camera is
in first-person mode, or the depth sample is zero. -/
theorem renderPick_idle (f : Frame) (s : Scene)
    (h : s.doubleTapOn_ = false ∨ s.cameraType = CameraType.kFirstPerson ∨ f.zValueF = 0) :
    renderPick f s = some (s, false) := by
  unfold renderPick
  rcases h with h | h | h
  · simp [h]
  · simp [h]
  · simp [h]

/-- The pick of a frame on an empty, open region never closes the polygon and
captures at most one point. -/
theorem renderPick_empty (f : Frame) (s s1 : Scene) (b : Bool)
    (hp : s.markerPoses_ = []) (hm : s.markerOrder_ = []) (ho : s.polygonClosed_ = false)
    (h : renderPick f s = some (s1, b)) :
    b = false ∧ s1.polygonClosed_ = false ∧ s1.markerPoses_.length ≤ 1 ∧
      s1.markerOrder_.length ≤ 1 ∧ s1.pointClouds_ = s.pointClouds_ := by
  have hc : ∀ point, closesPolygon s point = false := by
    intro point
    simp [closesPolygon, hp]
  have hsame : ∀ r : Scene × Bool, some (s, false) = some r →
      r.2 = false ∧ r.1.polygonClosed_ = false ∧ r.1.markerPoses_.length ≤ 1 ∧
        r.1.markerOrder_.length ≤ 1 ∧ r.1.pointClouds_ = s.pointClouds_ := by
    intro r hr
    cases hr
    simp [hp, hm, ho]
  unfold renderPick at h
  split at h
  · split at h
    · cases hdiv : homogeneousDivide (pickClip f s) with
      | finite point =>
        rw [hdiv] at h
        simp only at h
        split at h
        · obtain ⟨m, hm2⟩ := croppingPick_of_not_closes s point ho (hc point)
          rw [hm2] at h
          cases h
          simp [hp, hm, ho]
        · cases h
          simp [hp, hm, ho]
      | nanX =>
        rw [hdiv] at h
        simp only at h
        split at h
        · exact hsame (s1, b) h
        · simp at h
      | nonFinite =>
        rw [hdiv] at h
        simp only at h
        split at h
        · split at h
          · rename_i hcl
            rw [ho] at hcl
            exact absurd hcl (by simp)
          · simp at h
        · simp at h
    · exact hsame (s1, b) h
  · exact hsame (s1, b) h

/-- Whenever `removeMarkerAll` returns, the polygon is open and the region
holds at most the one point picked by its final `Render()`. -/
theorem removeMarkerAll_open (ppt : List Vec2 → Vec2 → ℚ) (f : Frame) (s s1 : Scene)
    (h : removeMarkerAll ppt f s = some s1) :
    s1.polygonClosed_ = false ∧ s1.markerPoses_.length ≤ 1 ∧ s1.markerOrder_.length ≤ 1 := by
  unfold removeMarkerAll at h
  obtain ⟨pc, hpc⟩ := restoreLoop_eq s.originalMeshes_ s
  simp only [hpc, eraseAllMarkers_eq] at h
  unfold Render at h
  split at h
  · simp at h
  · rename_i s2 hpick
    have h2 := renderPick_empty f _ s2 true rfl rfl rfl hpick
    simp at h2
  · rename_i s2 hpick
    obtain ⟨_, h2, h3, h4, _⟩ := renderPick_empty f _ s2 false rfl rfl rfl hpick
    simp only [h2, Bool.false_and, Bool.false_eq_true, if_false, Option.some.injEq] at h
    subst h
    exact ⟨rfl, h3, h4⟩

/-- The pick for a point whose homogeneous `w` is `0`: outside the cropping
mode the code goes on with the non-finite point; in the cropping mode it does
so on an open polygon unless `point.x` is NaN, and on a closed polygon
`addMarker2` ignores the point. -/
theorem renderPick_w_zero (f : Frame) (s : Scene) (htap : s.doubleTapOn_ = true)
    (hcam : s.cameraType ≠ CameraType.kFirstPerson) (hz : f.zValueF ≠ 0)
    (hw : (pickClip f s).w = 0) :
    (s.croppingOn_ = false → renderPick f s = none) ∧
    (s.croppingOn_ = true → (pickClip f s).x ≠ 0 → s.polygonClosed_ = false →
      renderPick f s = none) ∧
    (s.croppingOn_ = true → (pickClip f s).x = 0 → renderPick f s = some (s, false)) ∧
    (s.croppingOn_ = true → (pickClip f s).x ≠ 0 → s.polygonClosed_ = true →
      renderPick f s = some ({ s with markerId := s.markerId + 1 }, false)) := by
  refine ⟨?_, ?_, ?_, ?_⟩
  · intro hc
    by_cases hx : (pickClip f s).x = 0 <;>
      simp [renderPick, htap, hcam, hz, homogeneousDivide, hw, hx, hc]
  · intro hc hx ho
    simp [renderPick, htap, hcam, hz, homogeneousDivide, hw, hx, hc, ho]
  · intro hc hx
    simp [renderPick, htap, hcam, hz, homogeneousDivide, hw, hx, hc]
  · intro hc hx ho
    simp [renderPick, htap, hcam, hz, homogeneousDivide, hw, hx, hc, ho]

/-- The value found after an in-place change at the same key. -/
theorem mapFind_mapModify_same {α : Type} (m : StdMap α) (id : Int) (g : α → α) :
    mapFind (mapModify m id g) id = (mapFind m id).map g := by
  induction m with
  | nil => rfl
  | cons e rest ih =>
    obtain ⟨k, v⟩ := e
    unfold mapModify
    by_cases h : k = id
    · simp [h, mapFind]
    · simp [h, mapFind, ih]

/-- An in-place change at one key leaves the value found at another key. -/
theorem mapFind_mapModify_ne {α : Type} (m : StdMap α) (k id : Int) (g : α → α)
    (hne : k ≠ id) : mapFind (mapModify m k g) id = mapFind m id := by
  induction m with
  | nil => rfl
  | cons e rest ih =>
    obtain ⟨k1, v⟩ := e
    unfold mapModify
    by_cases h : k1 = k
    · have h2 : ¬ k1 = id := by rw [h]; exact hne
      simp [h, mapFind, hne]
    · by_cases h3 : k1 = id
      · subst h3
        simp [h, mapFind]
      · simp [h, mapFind, h3, ih]

/-- A key that is found is one of the keys of the map. -/
theorem mapFind_mem_keys {α : Type} (m : StdMap α) (id : Int) (v : α)
    (h : mapFind m id = some v) : id ∈ mapKeys m := by
  induction m with
  | nil => simp [mapFind] at h
  | cons e rest ih =>
    obtain ⟨k, w⟩ := e
    unfold mapFind at h
    by_cases hk : k = id
    · simp [mapKeys, hk]
    · simp only [hk, if_false] at h
      have := ih h
      simp only [mapKeys] at this
      simp [mapKeys, this]

/-! ### Restoring the snapshots -/

/-- Snapshots stored at other ids leave the entry found at `id`. -/
theorem restoreLoop_find_other (originals : StdMap Mesh) (s : Scene) (id : Int)
    (h : id ∉ mapKeys originals) :
    mapFind (restoreLoop originals s).pointClouds_ id = mapFind s.pointClouds_ id := by
  induction originals generalizing s with
  | nil => rfl
  | cons e rest ih =>
    obtain ⟨k, original⟩ := e
    have hk : k ≠ id := by
      intro hk
      apply h
      simp [mapKeys, hk]
    have hrest : id ∉ mapKeys rest := by
      intro hr
      apply h
      simp only [mapKeys] at hr
      simp [mapKeys, hr]
    unfold restoreLoop
    split
    · split
      · rw [ih _ hrest]
        exact mapFind_mapModify_ne _ k id _ hk
      · exact ih s hrest
    · exact ih s hrest

/-- The restore loop gives the entry found at `id`, when it has a mesh, the
snapshot stored for `id`. -/
theorem restoreLoop_find (originals : StdMap Mesh) (s : Scene) (id : Int)
    (d : PointCloudDrawable) (orig : Mesh)
    (hnd : (mapKeys originals).Nodup)
    (hd : mapFind s.pointClouds_ id = some d) (hm : d.hasMesh = true)
    (ho : mapFind originals id = some orig) :
    mapFind (restoreLoop originals s).pointClouds_ id = some (d.updateMesh orig) := by
  induction originals generalizing s with
  | nil => simp [mapFind] at ho
  | cons e rest ih =>
    obtain ⟨k, original⟩ := e
    simp only [mapKeys, List.map_cons, List.nodup_cons] at hnd
    obtain ⟨hnotin, hnd2⟩ := hnd
    unfold mapFind at ho
    by_cases hk : k = id
    · subst hk
      simp only [if_true, Option.some.injEq] at ho
      subst ho
      unfold restoreLoop
      simp only [hd, hm, if_true]
      rw [restoreLoop_find_other rest _ k hnotin]
      simp [mapFind_mapModify_same, hd]
    · simp only [hk, if_false] at ho
      unfold restoreLoop
      split
      · split
        · apply ih _ hnd2 _ ho
          simp only
          rw [mapFind_mapModify_ne _ k id _ hk]
          exact hd
        · exact ih s hnd2 hd ho
      · exact ih s hnd2 hd ho

/-! ### What a frame leaves unchanged -/

/-- The cropping pick always returns a state: the polygon closed by the
pick, or the counter stepped on a polygon that was closed already, or the
point appended to an open polygon. -/
theorem croppingPick_some (s : Scene) (point : Vec3) :
    ∃ m, croppingPick s point = some ({ s with
        polygonClosed_ := true
        doubleTapOn_ := false }, true) ∨
      (s.polygonClosed_ = true ∧
        croppingPick s point = some ({ s with markerId := s.markerId + 1 }, false)) ∨
      (s.polygonClosed_ = false ∧
        croppingPick s point = some ({ s with
          markers_ := m
          markerOrder_ := s.markerOrder_ ++ [s.markerId]
          markerPoses_ := s.markerPoses_ ++ [Transform.ofXYZ point.x point.y point.z]
          markerId := s.markerId + 1 }, false)) := by
  cases hc : closesPolygon s point with
  | true => exact ⟨[], Or.inl (croppingPick_of_closes s point hc)⟩
  | false =>
    by_cases ho : s.polygonClosed_ = true
    · refine ⟨[], Or.inr (Or.inl ⟨ho, ?_⟩)⟩
      unfold croppingPick
      rw [if_neg (by simp [hc])]
      simp only [addMarker2_closed { s with markerId := s.markerId + 1 } s.markerId _ ho]
    · have ho2 : s.polygonClosed_ = false := by simpa using ho
      obtain ⟨m, hm⟩ := croppingPick_of_not_closes s point ho2 hc
      exact ⟨m, Or.inr (Or.inr ⟨ho2, hm⟩)⟩

/-- The cropping pick leaves the geometry store and the snapshots. -/
theorem croppingPick_clouds (s s1 : Scene) (point : Vec3) (b : Bool)
    (h : croppingPick s point = some (s1, b)) :
    s1.pointClouds_ = s.pointClouds_ ∧ s1.originalMeshes_ = s.originalMeshes_ := by
  obtain ⟨m, h1 | ⟨_, h1⟩ | ⟨_, h1⟩⟩ := croppingPick_some s point <;>
  · rw [h1] at h
    cases h
    exact ⟨rfl, rfl⟩

/-- The pick of a frame leaves the geometry store and the snapshots. -/
theorem renderPick_clouds (f : Frame) (s s1 : Scene) (b : Bool)
    (h : renderPick f s = some (s1, b)) :
    s1.pointClouds_ = s.pointClouds_ ∧ s1.originalMeshes_ = s.originalMeshes_ := by
  unfold renderPick at h
  split at h
  · split at h
    · cases hdiv : homogeneousDivide (pickClip f s) with
      | finite point =>
        rw [hdiv] at h
        simp only at h
        split at h
        · exact croppingPick_clouds s s1 point b h
        · cases h
          exact ⟨rfl, rfl⟩
      | nanX =>
        rw [hdiv] at h
        simp only at h
        split at h
        · cases h
          exact ⟨rfl, rfl⟩
        · simp at h
      | nonFinite =>
        rw [hdiv] at h
        simp only at h
        split at h
        · split at h
          · cases h
            exact ⟨rfl, rfl⟩
          · simp at h
        · simp at h
    · cases h
      exact ⟨rfl, rfl⟩
  · cases h
    exact ⟨rfl, rfl⟩

/-- The pick of a frame returns a state whenever it recovers a rational
point. -/
theorem renderPick_finite_some (f : Frame) (s : Scene) (hf : pickFinite f s) :
    ∃ r, renderPick f s = some r := by
  unfold renderPick
  split
  · split
    · rename_i hcond hz
      have hw : (pickClip f s).w ≠ 0 := by
        rcases hf with h | h | h | h
        · simp [h] at hcond
        · simp [h] at hcond
        · exact absurd h hz
        · exact h
      have hdiv : homogeneousDivide (pickClip f s) = Recovered.finite
          ⟨(pickClip f s).x / (pickClip f s).w, (pickClip f s).y / (pickClip f s).w,
           (pickClip f s).z / (pickClip f s).w⟩ := by
        unfold homogeneousDivide
        rw [if_pos hw]
      rw [hdiv]
      simp only
      split
      · obtain ⟨m, h1 | ⟨_, h1⟩ | ⟨_, h1⟩⟩ := croppingPick_some s
          ⟨(pickClip f s).x / (pickClip f s).w, (pickClip f s).y / (pickClip f s).w,
           (pickClip f s).z / (pickClip f s).w⟩ <;> exact ⟨_, h1⟩
      · exact ⟨_, rfl⟩
    · exact ⟨_, rfl⟩
  · exact ⟨_, rfl⟩

/-- After `calculateMeshVolume` the global `totalVolume` holds the returned
value, and nothing else has changed. -/
theorem calculateMeshVolume_snd (s : Scene) (meshId : Int) :
    (calculateMeshVolume s meshId).2 =
      { s with totalVolume := (calculateMeshVolume s meshId).1 } := by
  unfold calculateMeshVolume
  simp only
  split
  · rfl
  · split
    · rfl
    · split <;> rfl

/-- The filter loop of a frame maps `filterEntry` over the entries still to
visit and changes nothing else but `totalVolume`. -/
theorem renderFilterLoop_eq (ppt : List Vec2 → Vec2 → ℚ) (polygon2D : List Transform)
    (done todo : StdMap PointCloudDrawable) (s : Scene)
    (h : s.pointClouds_ = done ++ todo) :
    ∃ v, renderFilterLoop ppt polygon2D done todo s = { s with
      pointClouds_ := done ++ todo.map (filterEntry ppt polygon2D)
      totalVolume := v } := by
  induction todo generalizing done s with
  | nil =>
    refine ⟨s.totalVolume, ?_⟩
    simp only [renderFilterLoop, List.map_nil, ← h]
  | cons e rest ih =>
    obtain ⟨id, d⟩ := e
    unfold renderFilterLoop
    cases hmesh : d.mesh with
    | none =>
      simp only
      obtain ⟨v, hv⟩ := ih (done ++ [(id, d)]) s (by simp [h])
      refine ⟨v, ?_⟩
      rw [hv]
      simp [filterEntry, hmesh]
    | some mesh =>
      simp only
      rw [calculateMeshVolume_snd]
      obtain ⟨v, hv⟩ := ih
        (done ++ [(id, d.updateMesh (filterMeshInsidePolygon ppt polygon2D mesh d.pose))])
        { s with
          pointClouds_ := done ++
            (id, d.updateMesh (filterMeshInsidePolygon ppt polygon2D mesh d.pose)) :: rest
          totalVolume := (calculateMeshVolume { s with
            pointClouds_ := done ++
              (id, d.updateMesh (filterMeshInsidePolygon ppt polygon2D mesh d.pose)) :: rest }
            id).1 }
        (by simp)
      refine ⟨v, ?_⟩
      rw [hv]
      simp [filterEntry, hmesh]

/-- The entry found at `id` after `filterEntry` has been mapped over a store. -/
theorem mapFind_map_filterEntry (ppt : List Vec2 → Vec2 → ℚ) (polygon2D : List Transform)
    (m : StdMap PointCloudDrawable) (id : Int) :
    mapFind (m.map (filterEntry ppt polygon2D)) id =
      (mapFind m id).map (fun d => (filterEntry ppt polygon2D (id, d)).2) := by
  induction m with
  | nil => rfl
  | cons e rest ih =>
    obtain ⟨k, d⟩ := e
    have hk : (filterEntry ppt polygon2D (k, d)).1 = k := by
      unfold filterEntry
      split <;> rfl
    simp only [List.map_cons]
    rw [show filterEntry ppt polygon2D (k, d) =
      ((filterEntry ppt polygon2D (k, d)).1, (filterEntry ppt polygon2D (k, d)).2) from rfl, hk]
    unfold mapFind
    by_cases h : k = id
    · subst h
      simp
    · simp [h, ih]

/-- A frame leaves the snapshots, and leaves the geometry store or maps
`filterEntry` over it. -/
theorem Render_clouds (ppt : List Vec2 → Vec2 → ℚ) (f : Frame) (s s1 : Scene)
    (h : Render ppt f s = some s1) :
    s1.originalMeshes_ = s.originalMeshes_ ∧
    (s1.pointClouds_ = s.pointClouds_ ∨
      ∃ polygon2D, s1.pointClouds_ = s.pointClouds_.map (filterEntry ppt polygon2D)) := by
  unfold Render at h
  split at h
  · simp at h
  · rename_i s2 hpick
    cases h
    obtain ⟨h1, h2⟩ := renderPick_clouds f s s1 true hpick
    exact ⟨h2, Or.inl h1⟩
  · rename_i s2 hpick
    obtain ⟨h1, h2⟩ := renderPick_clouds f s s2 false hpick
    simp only at h
    split at h
    · obtain ⟨v, hv⟩ := renderFilterLoop_eq ppt s2.markerPoses_ [] s2.pointClouds_
        { s2 with doubleTapOn_ := false } (by simp)
      rw [hv] at h
      cases h
      exact ⟨h2, Or.inr ⟨s2.markerPoses_, by simp [h1]⟩⟩
    · cases h
      exact ⟨h2, Or.inl h1⟩

/-- A frame on an empty, open region whose pick recovers a rational point
returns a state with the geometry store it started from. -/
theorem Render_empty (ppt : List Vec2 → Vec2 → ℚ) (f : Frame) (s : Scene)
    (hp : s.markerPoses_ = []) (hm : s.markerOrder_ = []) (ho : s.polygonClosed_ = false)
    (hf : pickFinite f s) :
    ∃ s1, Render ppt f s = some s1 ∧ s1.pointClouds_ = s.pointClouds_ := by
  obtain ⟨r, hr⟩ := renderPick_finite_some f s hf
  obtain ⟨s2, b⟩ := r
  obtain ⟨hb, h2, _, _, hpc⟩ := renderPick_empty f s s2 b hp hm ho hr
  subst hb
  unfold Render
  rw [hr]
  simp only [h2, Bool.false_and, Bool.false_eq_true, if_false]
  exact ⟨_, rfl, hpc⟩

/-- When the pick of its final `Render()` recovers a rational point,
`removeMarkerAll` returns, with the geometry store left by the restore loop. -/
theorem removeMarkerAll_some (ppt : List Vec2 → Vec2 → ℚ) (f : Frame) (s : Scene)
    (hf : pickFinite f s) :
    ∃ s1, removeMarkerAll ppt f s = some s1 ∧
      s1.pointClouds_ = (restoreLoop s.originalMeshes_ s).pointClouds_ := by
  obtain ⟨pc, hpc⟩ := restoreLoop_eq s.originalMeshes_ s
  unfold removeMarkerAll
  simp only [hpc, eraseAllMarkers_eq]
  apply Render_empty
  · rfl
  · rfl
  · rfl
  · exact hf

/-- The value found after `m[id] = v`. -/
theorem mapFind_mapSet_same {α : Type} (m : StdMap α) (id : Int) (v : α) :
    mapFind (mapSet m id v) id = some v := by
  induction m with
  | nil => simp [mapSet, mapFind]
  | cons e rest ih =>
    obtain ⟨k, w⟩ := e
    unfold mapSet
    by_cases h1 : id < k
    · simp [h1, mapFind]
    · by_cases h2 : id = k
      · simp [h2, mapFind]
      · have h3 : ¬ k = id := fun h => h2 h.symm
        simp [h1, h2, mapFind, h3, ih]

/-- `addMesh` records the mesh as the snapshot of its id. -/
theorem addMesh_records (s : Scene) (id : Int) (mesh : Mesh) (pose : Transform) :
    mapFind (addMesh s id mesh pose).originalMeshes_ id = some mesh := by
  unfold addMesh
  exact mapFind_mapSet_same s.originalMeshes_ id mesh

/-- `updateMesh` on an id of the store records the mesh as the snapshot of the
id and as the mesh shown. -/
theorem updateMesh_records (s : Scene) (id : Int) (mesh : Mesh) (d : PointCloudDrawable)
    (h : mapFind s.pointClouds_ id = some d) :
    mapFind (updateMesh s id mesh).originalMeshes_ id = some mesh ∧
    mapFind (updateMesh s id mesh).pointClouds_ id = some (d.updateMesh mesh) := by
  unfold updateMesh
  simp only [h]
  exact ⟨mapFind_mapSet_same s.originalMeshes_ id mesh,
    by rw [mapFind_mapModify_same, h]; rfl⟩

/-- C8: reset undoes filtering. In a state whose snapshots have distinct ids,
let `id` be present in `pointClouds_` with a mesh and let `orig` be the
snapshot recorded for `id`. Then `removeMarkerAll` returns with the mesh of
`id` equal to `orig`, and it does so too when a `Render` frame (which filters
every mesh once the polygon is closed) has run in between. The snapshot of an
id is the mesh passed to the most recent `addMesh` or `updateMesh` for it. -/
theorem removeMarkerAll_restores (ppt : List Vec2 → Vec2 → ℚ) (s : Scene) (id : Int)
    (d : PointCloudDrawable) (orig : Mesh)
    (hnd : (mapKeys s.originalMeshes_).Nodup)
    (hd : mapFind s.pointClouds_ id = some d) (hm : d.hasMesh = true)
    (ho : mapFind s.originalMeshes_ id = some orig) :
    (∀ f : Frame, pickFinite f s →
      ∃ s1, removeMarkerAll ppt f s = some s1 ∧
        mapFind s1.pointClouds_ id = some (d.updateMesh orig)) ∧
    (∀ (f1 f2 : Frame) (s1 : Scene), Render ppt f1 s = some s1 → pickFinite f2 s1 →
      ∃ s2, removeMarkerAll ppt f2 s1 = some s2 ∧
        mapFind s2.pointClouds_ id = some (d.updateMesh orig)) ∧
    (∀ (mesh : Mesh) (pose : Transform),
      mapFind (addMesh s id mesh pose).originalMeshes_ id = some mesh ∧
      mapFind (updateMesh s id mesh).originalMeshes_ id = some mesh) := by
  refine ⟨?_, ?_, fun mesh pose =>
    ⟨addMesh_records s id mesh pose, (updateMesh_records s id mesh d hd).1⟩⟩
  · intro f hf
    obtain ⟨s1, h1, hpc⟩ := removeMarkerAll_some ppt f s hf
    refine ⟨s1, h1, ?_⟩
    rw [hpc]
    exact restoreLoop_find s.originalMeshes_ s id d orig hnd hd hm ho
  · intro f1 f2 s1 hR hf
    obtain ⟨horig, hclouds⟩ := Render_clouds ppt f1 s s1 hR
    obtain ⟨s2, h2, hpc⟩ := removeMarkerAll_some ppt f2 s1 hf
    refine ⟨s2, h2, ?_⟩
    rw [hpc, horig]
    rcases hclouds with hsame | ⟨polygon2D, hmap⟩
    · exact restoreLoop_find s.originalMeshes_ s1 id d orig hnd (by rw [hsame]; exact hd) hm ho
    · have hfind : mapFind s1.pointClouds_ id =
          some (filterEntry ppt polygon2D (id, d)).2 := by
        rw [hmap, mapFind_map_filterEntry, hd]
        rfl
      have hmesh : ∃ mesh, d.mesh = some mesh := by
        cases hdm : d.mesh with
        | none => simp [PointCloudDrawable.hasMesh, hdm] at hm
        | some mesh => exact ⟨mesh, rfl⟩
      obtain ⟨mesh, hmesh⟩ := hmesh
      have h3 := restoreLoop_find s.originalMeshes_ s1 id
        (filterEntry ppt polygon2D (id, d)).2 orig hnd hfind
        (by simp [filterEntry, hmesh, PointCloudDrawable.hasMesh, PointCloudDrawable.updateMesh]) ho
      rw [h3]
      simp [filterEntry, hmesh, PointCloudDrawable.updateMesh]

/-! ### The pick counter -/

/-- After a cropping pick the counter is one ahead of the last region point
while the polygon is open. -/
theorem croppingPick_counter (s s1 : Scene) (point : Vec3) (b : Bool)
    (h : croppingPick s point = some (s1, b)) :
    CounterFollows s1 := by
  obtain ⟨m, h1 | ⟨hc, h1⟩ | ⟨ho, h1⟩⟩ := croppingPick_some s point
  · rw [h1] at h
    cases h
    intro hopen
    simp at hopen
  · rw [h1] at h
    cases h
    intro hopen
    simp only at hopen
    rw [hc] at hopen
    exact absurd hopen (by simp)
  · rw [h1] at h
    cases h
    intro _ k hk
    simp only [List.getLast?_append, List.getLast?_singleton] at hk
    have hk2 : s.markerId = k := by
      simpa [Option.or] using hk
    simp only
    rw [hk2]

/-- The pick of a frame keeps the counter one ahead of the last region point. -/
theorem renderPick_counter (f : Frame) (s s1 : Scene) (b : Bool)
    (hinv : CounterFollows s) (h : renderPick f s = some (s1, b)) :
    CounterFollows s1 := by
  unfold renderPick at h
  split at h
  · split at h
    · cases hdiv : homogeneousDivide (pickClip f s) with
      | finite point =>
        rw [hdiv] at h
        simp only at h
        split at h
        · exact croppingPick_counter s s1 point b h
        · cases h
          exact hinv
      | nanX =>
        rw [hdiv] at h
        simp only at h
        split at h
        · cases h
          exact hinv
        · simp at h
      | nonFinite =>
        rw [hdiv] at h
        simp only at h
        split at h
        · split at h
          · rename_i hcl
            cases h
            intro hopen
            simp only at hopen
            rw [hcl] at hopen
            exact absurd hopen (by simp)
          · simp at h
        · simp at h
    · cases h
      exact hinv
  · cases h
    exact hinv

/-- A frame keeps the counter one ahead of the last region point. -/
theorem Render_counter (ppt : List Vec2 → Vec2 → ℚ) (f : Frame) (s s1 : Scene)
    (hinv : CounterFollows s) (h : Render ppt f s = some s1) : CounterFollows s1 := by
  unfold Render at h
  split at h
  · simp at h
  · rename_i s2 hpick
    cases h
    exact renderPick_counter f s s1 true hinv hpick
  · rename_i s2 hpick
    have h2 := renderPick_counter f s s2 false hinv hpick
    simp only at h
    split at h
    · obtain ⟨v, hv⟩ := renderFilterLoop_eq ppt s2.markerPoses_ [] s2.pointClouds_
        { s2 with doubleTapOn_ := false } (by simp)
      rw [hv] at h
      cases h
      exact h2
    · cases h
      exact h2

/-- `removeMarkerAll` keeps the counter one ahead of the last region point. -/
theorem removeMarkerAll_counter (ppt : List Vec2 → Vec2 → ℚ) (f : Frame) (s s1 : Scene)
    (h : removeMarkerAll ppt f s = some s1) : CounterFollows s1 := by
  unfold removeMarkerAll at h
  refine Render_counter ppt f _ s1 ?_ h
  intro _ k hk
  simp at hk

/-- In every state reached by picks, frames and resets, the counter is one
ahead of the last region point while the polygon is open. -/
theorem CaptureReachable.counterFollows (s : Scene) (h : CaptureReachable s) :
    CounterFollows s := by
  induction h with
  | init counter =>
    intro _ k hk
    simp [Scene.initAt, Scene.init] at hk
  | pick s s1 point b _ hstep _ => exact croppingPick_counter s s1 point b hstep
  | render ppt f s s1 _ hstep ih => exact Render_counter ppt f s s1 ih hstep
  | reset ppt f s s1 _ hstep _ => exact removeMarkerAll_counter ppt f s s1 hstep
  | other s s1 _ h1 _ h3 h4 ih =>
    intro hopen k hk
    rw [h1] at hk
    rw [h3]
    exact ih (by rw [← h4]; exact hopen) k hk

/-- C5, counterexample: the id of an appended point is not always one greater
than the id of the previous point, and the closure condition is not the one of
the claim. (1) After `addMarker(100, ..)` on a new scene, a pick is appended
with the id `1`: the ids of the region are `[100, 1]`. (2) The counter is a
static of `Render`: after one pick on this scene and one pick taken by another
scene, the next pick on this scene gets the id `3`, and the ids are `[1, 3]`.
(3) On the open region `(0,0,0)`, `(1,0,0)`, `(1,1,0)` the pick
`(280665 / 2^21, 4504585 / 2^24, 0)`, two `float` values, is at the squared
distance `0.09000000007..` from the first point, not below `0.09`; the two
squares and their sum are rounded, the computed `distSq` is `12079595 / 2^27`,
below `0.09f`, and the pick closes the polygon instead of being appended. -/
theorem croppingPick_id_not_sequential :
    ((addMarker Scene.init 100 (Transform.ofXYZ 0 0 0)).bind
        (fun s => croppingPick s ⟨1, 0, 0⟩)).map
        (fun r => (r.1.markerOrder_, r.1.markerPoses_, r.1.polygonClosed_)) =
      some ([100, 1], [Transform.ofXYZ 0 0 0, Transform.ofXYZ 1 0 0], false) ∧
    (croppingPick (otherScenePick exampleOnePoint) ⟨1, 0, 0⟩).map
        (fun r => (r.1.markerOrder_, r.1.polygonClosed_)) = some ([1, 3], false) ∧
    (exampleTriangle.polygonClosed_ = false ∧
      exampleTriangle.markerPoses_.head? = some (Transform.ofXYZ 0 0 0) ∧
      9/100 ≤ distSqExact (Transform.ofXYZ 0 0 0) ⟨280665/2097152, 4504585/16777216, 0⟩ ∧
      distSq (Transform.ofXYZ 0 0 0) ⟨280665/2097152, 4504585/16777216, 0⟩ =
        F32.finite (12079595/134217728) ∧
      croppingPick exampleTriangle ⟨280665/2097152, 4504585/16777216, 0⟩ =
        some ({ exampleTriangle with polygonClosed_ := true, doubleTapOn_ := false }, true)) := by
  have hd : distSq (Transform.ofXYZ 0 0 0) ⟨280665/2097152, 4504585/16777216, 0⟩ =
      F32.finite (12079595/134217728) :=
    distSq_eval _ _ (-280665/2097152) (-4504585/16777216) 0
      (9615825/536870912) (9675639/134217728) 0 (12079595/134217728) (12079595/134217728)
      (F32.round_dyadic _ _ (-280665) (-21)
        (by norm_num [Transform.x, Transform.y, Transform.z, Transform.ofXYZ]))
      (F32.round_dyadic _ _ (-4504585) (-24)
        (by norm_num [Transform.x, Transform.y, Transform.z, Transform.ofXYZ]))
      (F32.round_dyadic _ _ 0 0
        (by norm_num [Transform.x, Transform.y, Transform.z, Transform.ofXYZ]))
      (F32.round_near _ _ (-6) 9615825 (by norm_num))
      (F32.round_near _ _ (-4) 9675639 (by norm_num))
      (F32.round_dyadic _ _ 0 0 (by norm_num))
      (F32.round_near _ _ (-4) 12079595 (by norm_num))
      (F32.round_dyadic _ _ 12079595 (-27) (by norm_num))
  have hc : closesPolygon exampleTriangle ⟨280665/2097152, 4504585/16777216, 0⟩ = true := by
    rw [closesPolygon_of_front exampleTriangle _ (Transform.ofXYZ 0 0 0) (by decide) rfl,
      hd, closeThreshold_eq]
    norm_num [F32.lt]
  refine ⟨rfl, rfl, rfl, rfl, ?_, hd, croppingPick_of_closes exampleTriangle _ hc⟩
  norm_num [distSqExact, Transform.x, Transform.y, Transform.z, Transform.ofXYZ]

/-- C5: on an open polygon, a picked point that fails the closure test of the
code (fewer than 3 points, or the squared distance to the first point, as
computed in `float`, not below `0.09f`) is appended at the end of the region:
the earlier points and ids are unchanged, the length grows by 1,
`polygonClosed_` stays false, and the point gets the value of the pick counter
`markerId`, which is then stepped, so that the next point appended by a pick of
this scene with no pick of another scene in between gets the id one greater;
and in every state reached from a newly constructed scene by picks, frames and
resets of this scene, that id is one greater than the id of the previous point
of the region. -/
theorem croppingPick_appends (s : Scene) (point : Vec3)
    (ho : s.polygonClosed_ = false)
    (hno : s.markerPoses_.length < 3 ∨
      ∃ front, s.markerPoses_.head? = some front ∧
        (distSq front point).lt closeThreshold = false) :
    ∃ s1, croppingPick s point = some (s1, false) ∧
      s1.markerPoses_ = s.markerPoses_ ++ [Transform.ofXYZ point.x point.y point.z] ∧
      s1.markerPoses_.length = s.markerPoses_.length + 1 ∧
      s1.markerOrder_ = s.markerOrder_ ++ [s.markerId] ∧
      s1.markerId = s.markerId + 1 ∧
      s1.polygonClosed_ = false ∧
      (∀ q s2, croppingPick s1 q = some (s2, false) →
        s2.markerOrder_ = s.markerOrder_ ++ [s.markerId, s.markerId + 1]) ∧
      (CaptureReachable s → ∀ k, s.markerOrder_.getLast? = some k →
        s1.markerOrder_ = s.markerOrder_ ++ [k + 1]) := by
  have hc : closesPolygon s point = false := by
    cases h : closesPolygon s point with
    | false => rfl
    | true =>
      obtain ⟨hlen, front, hfront, hd⟩ := (closesPolygon_iff s point).mp h
      rcases hno with h3 | ⟨front1, hfront1, hd1⟩
      · omega
      · rw [hfront] at hfront1
        cases hfront1
        rw [hd] at hd1
        exact absurd hd1 (by simp)
  obtain ⟨m, hm⟩ := croppingPick_of_not_closes s point ho hc
  refine ⟨_, hm, rfl, by simp, rfl, rfl, ho, ?_, ?_⟩
  · intro q s2 hq
    have h2 := croppingPick_next_id _ q s2 hq ho
    simpa using h2
  · intro hreach k hk
    have := CaptureReachable.counterFollows s hreach ho k hk
    simp only
    rw [this]

/-- C5 at two concrete inputs. The second pick `(1, 0, 0)` on a region of one
point, itself left by a pick on a new scene, is appended with the id `2`. The
fourth pick `(5, 5, 5)` on the open region `(0,0,0)`, `(1,0,0)`, `(1,1,0)`, at
the computed squared distance `75` from the first point, is appended with the
id `4`. -/
theorem croppingPick_appends_witness :
    (exampleOnePoint.polygonClosed_ = false ∧
      exampleOnePoint.markerPoses_.length < 3 ∧
      CaptureReachable exampleOnePoint ∧
      ∃ s1, croppingPick exampleOnePoint ⟨1, 0, 0⟩ = some (s1, false) ∧
        s1.markerPoses_ = [Transform.ofXYZ 0 0 0, Transform.ofXYZ 1 0 0] ∧
        s1.markerOrder_ = [1, 1 + 1]) ∧
    (exampleTriangle.polygonClosed_ = false ∧
      exampleTriangle.markerPoses_.head? = some (Transform.ofXYZ 0 0 0) ∧
      distSq (Transform.ofXYZ 0 0 0) ⟨5, 5, 5⟩ = F32.finite 75 ∧
      (distSq (Transform.ofXYZ 0 0 0) ⟨5, 5, 5⟩).lt closeThreshold = false ∧
      ∃ s1, croppingPick exampleTriangle ⟨5, 5, 5⟩ = some (s1, false) ∧
        s1.markerPoses_ = [Transform.ofXYZ 0 0 0, Transform.ofXYZ 1 0 0,
          Transform.ofXYZ 1 1 0, Transform.ofXYZ 5 5 5] ∧
        s1.markerOrder_ = [1, 2, 3, 4] ∧ s1.markerId = 5 ∧ s1.polygonClosed_ = false) :=
  have h := croppingPick_appends exampleOnePoint ⟨1, 0, 0⟩ rfl (Or.inl (by decide))
  have hr : CaptureReachable exampleOnePoint :=
    CaptureReachable.pick Scene.init exampleOnePoint ⟨0, 0, 0⟩ false
      (CaptureReachable.init 1) rfl
  have hfar : (distSq (Transform.ofXYZ 0 0 0) ⟨5, 5, 5⟩).lt closeThreshold = false := by
    rw [distSq_far, closeThreshold_eq]
    norm_num [F32.lt]
  have h4 := croppingPick_appends exampleTriangle ⟨5, 5, 5⟩ rfl
    (Or.inr ⟨Transform.ofXYZ 0 0 0, rfl, hfar⟩)
  ⟨⟨rfl, by decide, hr, h.choose, h.choose_spec.1, h.choose_spec.2.1,
      h.choose_spec.2.2.2.2.2.2.2 hr 1 rfl⟩,
    ⟨rfl, rfl, distSq_far, hfar, h4.choose, h4.choose_spec.1, h4.choose_spec.2.1,
      h4.choose_spec.2.2.2.1, h4.choose_spec.2.2.2.2.1, h4.choose_spec.2.2.2.2.2.1⟩⟩

/-! ### Mesh region filter -/

/-- The transform chosen by `filterMeshInsidePolygon` and `calculateMeshVolume`
is the mesh-to-scene transform of the specification. -/
theorem meshToScene_eq (ownerPose meshPose : Transform) :
    (if (!ownerPose.isNull && !meshPose.isNull) = true then ownerPose.mul meshPose
      else if (!meshPose.isNull) = true then meshPose
      else Transform.getIdentity) = sceneTransform ownerPose meshPose := by
  unfold sceneTransform
  cases ownerPose.isNull <;> cases meshPose.isNull <;> rfl

/-- The inner loop of the filter is the conjunction of the vertex tests. -/
theorem allInside_eq (ppt : List Vec2 → Vec2 → ℚ) (polyPoints : List Vec2)
    (cloud : List PointXYZRGB) (t : Transform) (vertices : List Int) :
    allInside ppt polyPoints cloud t vertices =
      vertices.all (vertexInside ppt polyPoints cloud t) := by
  induction vertices with
  | nil => rfl
  | cons idx rest ih =>
    unfold allInside
    simp only [List.all_cons]
    by_cases h1 : idx < 0 ∨ idx ≥ (cloud.length : Int)
    · rw [if_pos h1]
      have : vertexInside ppt polyPoints cloud t idx = false := by
        unfold vertexInside
        rcases h1 with h | h
        · simp [not_le.mpr h]
        · simp [not_lt.mpr h]
      simp [this]
    · rw [if_neg h1]
      push_neg at h1
      cases hget : cloud.get? idx.toNat with
      | none =>
        have hv : vertexInside ppt polyPoints cloud t idx = false := by
          unfold vertexInside
          rw [hget]
          simp
        simp [hv]
      | some pt =>
        simp only
        by_cases h2 : ppt polyPoints ⟨(transformPoint pt t).x, (transformPoint pt t).z⟩ < 0
        · rw [if_pos h2]
          have hv : vertexInside ppt polyPoints cloud t idx = false := by
            unfold vertexInside
            rw [hget]
            simp [not_le.mpr h2]
          simp [hv]
        · rw [if_neg h2, ih]
          have hv : vertexInside ppt polyPoints cloud t idx = true := by
            unfold vertexInside
            rw [hget]
            simp [h1.1, h1.2, not_lt.mp h2]
          simp [hv]

/-- The face loop of the filter appends, in order, the faces that pass. -/
theorem filterLoop_eq (ppt : List Vec2 → Vec2 → ℚ) (polyPoints : List Vec2)
    (cloud : List PointXYZRGB) (t : Transform) (polygons newPolygons : List Vertices) :
    filterLoop ppt polyPoints cloud t polygons newPolygons =
      newPolygons ++ polygons.filter (faceInside ppt polyPoints cloud t) := by
  induction polygons generalizing newPolygons with
  | nil => simp [filterLoop]
  | cons poly rest ih =>
    unfold filterLoop
    rw [allInside_eq]
    by_cases h : poly.vertices.all (vertexInside ppt polyPoints cloud t) = true
    · rw [if_pos h, ih]
      have hf : faceInside ppt polyPoints cloud t poly = true := h
      simp [List.filter_cons, hf]
    · rw [if_neg h, ih]
      have hf : ¬ faceInside ppt polyPoints cloud t poly = true := h
      simp [List.filter_cons, hf]

/-- The polygons kept by the filter, for a region of at least 3 points and a
mesh with vertices. -/
theorem filterMeshInsidePolygon_polygons (ppt : List Vec2 → Vec2 → ℚ)
    (polygon2D : List Transform) (mesh : Mesh) (drawablePose : Transform)
    (hregion : 3 ≤ polygon2D.length) (hcloud : mesh.cloud ≠ []) :
    filterMeshInsidePolygon ppt polygon2D mesh drawablePose =
      { mesh with polygons := (mesh.polygons.filter
          (faceInside ppt (regionPolygon polygon2D) mesh.cloud
            (sceneTransform drawablePose mesh.pose))) } := by
  unfold filterMeshInsidePolygon
  have hne : ¬ (polygon2D.length < 3 ∨ mesh.cloud.isEmpty = true) := by
    rintro (h | h)
    · omega
    · exact hcloud (List.isEmpty_iff.mp h)
  rw [if_neg hne]
  simp only [meshToScene_eq, filterLoop_eq, List.nil_append]
  rfl

/-- C1: for every region with at least 3 points and every mesh with a
non-empty vertex buffer, the face list after `filterMeshInsidePolygon` is the
input face list filtered, in order, by "every vertex index is in range and
every vertex, in scene space and reduced to `(x, z)`, is inside or on the
boundary of the region polygon" (vertices and pose are unchanged). Hence a face
with one vertex outside or one index out of range is absent from the output,
and if every vertex of every face is inside, the output faces are the input
faces. -/
theorem filterMeshInsidePolygon_spec (ppt : List Vec2 → Vec2 → ℚ)
    (polygon2D : List Transform) (mesh : Mesh) (drawablePose : Transform)
    (hregion : 3 ≤ polygon2D.length) (hcloud : mesh.cloud ≠ []) :
    (filterMeshInsidePolygon ppt polygon2D mesh drawablePose).polygons =
        mesh.polygons.filter (faceInside ppt (regionPolygon polygon2D) mesh.cloud
          (sceneTransform drawablePose mesh.pose)) ∧
    (filterMeshInsidePolygon ppt polygon2D mesh drawablePose).cloud = mesh.cloud ∧
    (filterMeshInsidePolygon ppt polygon2D mesh drawablePose).pose = mesh.pose ∧
    (∀ face : Vertices,
      (∃ idx ∈ face.vertices, vertexInside ppt (regionPolygon polygon2D) mesh.cloud
          (sceneTransform drawablePose mesh.pose) idx = false) →
      face ∉ (filterMeshInsidePolygon ppt polygon2D mesh drawablePose).polygons) ∧
    ((∀ face ∈ mesh.polygons, ∀ idx ∈ face.vertices,
        vertexInside ppt (regionPolygon polygon2D) mesh.cloud
          (sceneTransform drawablePose mesh.pose) idx = true) →
      (filterMeshInsidePolygon ppt polygon2D mesh drawablePose).polygons = mesh.polygons) := by
  rw [filterMeshInsidePolygon_polygons ppt polygon2D mesh drawablePose hregion hcloud]
  refine ⟨rfl, rfl, rfl, ?_, ?_⟩
  · rintro face ⟨idx, hidx, hout⟩ hmem
    simp only [List.mem_filter, faceInside, List.all_eq_true] at hmem
    have := hmem.2 idx hidx
    rw [hout] at this
    exact Bool.false_ne_true this
  · intro hall
    simp only
    rw [List.filter_eq_self]
    intro face hface
    simp only [faceInside, List.all_eq_true]
    exact hall face hface

/-- The vertex test in words: the index is in range and the `(x, z)`
projection of the vertex in scene space has a test value that is not
negative. -/
theorem vertexInside_iff (ppt : List Vec2 → Vec2 → ℚ) (polyPoints : List Vec2)
    (cloud : List PointXYZRGB) (t : Transform) (idx : Int) :
    vertexInside ppt polyPoints cloud t idx = true ↔
      0 ≤ idx ∧ idx < (cloud.length : Int) ∧
      ∃ pt, cloud.get? idx.toNat = some pt ∧
        0 ≤ ppt polyPoints ⟨(transformPoint pt t).x, (transformPoint pt t).z⟩ := by
  unfold vertexInside
  cases hget : cloud.get? idx.toNat with
  | none => simp
  | some pt => simp [and_assoc]

/-! ### Volume estimate -/

/-- The accumulation loop of the centroid adds the coordinate sums. -/
theorem centroidLoop_eq (poses : List Transform) (c : Vec3) :
    centroidLoop poses c =
      ⟨c.x + (poses.map Transform.x).sum, c.y + (poses.map Transform.y).sum,
       c.z + (poses.map Transform.z).sum⟩ := by
  induction poses generalizing c with
  | nil => simp [centroidLoop]
  | cons p rest ih =>
    unfold centroidLoop
    rw [ih]
    simp only [List.map_cons, List.sum_cons, add_assoc]

/-- `computeMarkerPolygonCentroid` is the arithmetic mean of the region point
positions, the zero vector for an empty region. -/
theorem computeMarkerPolygonCentroid_eq (s : Scene) :
    computeMarkerPolygonCentroid s = regionMean s.markerPoses_ := by
  unfold computeMarkerPolygonCentroid regionMean
  cases h : s.markerPoses_ with
  | nil => simp
  | cons p rest =>
    simp only [List.isEmpty_cons, Bool.false_eq_true, if_false, centroidLoop_eq, zero_add]
    simp

/-- The scene vertex read by the volume loop at an index that is not
negative. -/
theorem sceneVertices_getD (cloud : List PointXYZRGB) (t : Transform) (idx : Int) :
    (cloud.map (fun ptLocal =>
        (⟨(transformPoint ptLocal t).x, (transformPoint ptLocal t).y,
          (transformPoint ptLocal t).z⟩ : Vec3))).getD idx.toNat ⟨0, 0, 0⟩ =
      sceneVertex cloud t idx := by
  unfold sceneVertex
  rw [List.getD_eq_getElem?_getD, List.getElem?_map]
  cases h : cloud.get? idx.toNat with
  | none =>
    rw [List.get?_eq_getElem?] at h
    simp [h]
  | some pt =>
    rw [List.get?_eq_getElem?] at h
    simp [h]

/-- The fan loop over a face whose indices are in range adds the tetrahedron
of every consecutive pair. -/
theorem tetraVolume_eq (c v0 v1 v2 : Vec3) :
    tetraVolume c v0 v1 v2 = |((v0.sub c).cross (v1.sub c)).dot (v2.sub c)| / 6 := by
  unfold tetraVolume
  simp only [Vec3.sub, Vec3.cross, Vec3.dot]

/-- On a face whose indices are all in range, the fan loop adds the tetrahedra
of the fan. -/
theorem fanLoop_eq (cloud : List PointXYZRGB) (t : Transform) (c : Vec3) (i0 : Int)
    (rest : List Int) (acc : ℚ)
    (h0 : 0 ≤ i0 ∧ i0 < (cloud.length : Int))
    (hrest : ∀ i ∈ rest, 0 ≤ i ∧ i < (cloud.length : Int)) :
    fanLoop (cloud.map (fun ptLocal =>
        (⟨(transformPoint ptLocal t).x, (transformPoint ptLocal t).y,
          (transformPoint ptLocal t).z⟩ : Vec3))) c i0 rest acc =
      acc + ∑ j ∈ Finset.range (rest.length - 1),
        tetraVolume c (sceneVertex cloud t i0) (sceneVertex cloud t (rest.getD j 0))
          (sceneVertex cloud t (rest.getD (j + 1) 0)) := by
  induction rest generalizing acc with
  | nil => simp [fanLoop]
  | cons a more ih =>
    cases more with
    | nil => simp [fanLoop]
    | cons b more2 =>
      have ha := hrest a (by simp)
      have hb := hrest b (by simp)
      have hcond : ¬ (i0 < 0 ∨ a < 0 ∨ b < 0 ∨
          i0 ≥ ((cloud.map (fun ptLocal =>
            (⟨(transformPoint ptLocal t).x, (transformPoint ptLocal t).y,
              (transformPoint ptLocal t).z⟩ : Vec3))).length : Int) ∨
          a ≥ ((cloud.map (fun ptLocal =>
            (⟨(transformPoint ptLocal t).x, (transformPoint ptLocal t).y,
              (transformPoint ptLocal t).z⟩ : Vec3))).length : Int) ∨
          b ≥ ((cloud.map (fun ptLocal =>
            (⟨(transformPoint ptLocal t).x, (transformPoint ptLocal t).y,
              (transformPoint ptLocal t).z⟩ : Vec3))).length : Int)) := by
        simp only [List.length_map]
        omega
      unfold fanLoop
      rw [if_neg hcond]
      simp only [sceneVertices_getD]
      rw [ih _ (fun i hi => hrest i (by simp [hi]))]
      simp only [List.length_cons, Nat.add_sub_cancel]
      rw [Finset.sum_range_succ']
      simp only [List.getD_cons_succ, List.getD_cons_zero]
      rw [tetraVolume_eq, abs_div, abs_of_pos (by norm_num : (0 : ℚ) < 6)]
      ring

/-- The fan loop never decreases the running total. -/
theorem fanLoop_ge (sceneVertices : List Vec3) (c : Vec3) (i0 : Int) (rest : List Int)
    (acc : ℚ) : acc ≤ fanLoop sceneVertices c i0 rest acc := by
  induction rest generalizing acc with
  | nil => simp [fanLoop]
  | cons a more ih =>
    cases more with
    | nil => simp [fanLoop]
    | cons b more2 =>
      unfold fanLoop
      split
      · exact ih acc
      · exact le_trans (le_add_of_nonneg_right (abs_nonneg _)) (ih _)

/-- The face loop never decreases the running total. -/
theorem volumeLoop_ge (sceneVertices : List Vec3) (c : Vec3) (polygons : List Vertices)
    (acc : ℚ) : acc ≤ volumeLoop sceneVertices c polygons acc := by
  induction polygons generalizing acc with
  | nil => simp [volumeLoop]
  | cons polygon rest ih =>
    unfold volumeLoop
    split
    · exact ih acc
    · split
      · exact le_trans (fanLoop_ge sceneVertices c _ _ acc) (ih _)
      · exact ih acc

/-- The fan sum of the specification for a face `i0 :: rest`, indexed from
the second vertex. -/
theorem faceVolume_cons (cloud : List PointXYZRGB) (t : Transform) (c : Vec3) (i0 : Int)
    (rest : List Int) :
    faceVolume c (fun k => sceneVertex cloud t ((i0 :: rest).getD k 0)) (i0 :: rest).length =
      ∑ j ∈ Finset.range (rest.length - 1),
        tetraVolume c (sceneVertex cloud t i0) (sceneVertex cloud t (rest.getD j 0))
          (sceneVertex cloud t (rest.getD (j + 1) 0)) := by
  unfold faceVolume
  simp only [List.length_cons, List.getD_cons_zero]
  rw [show rest.length + 1 - 2 = rest.length - 1 by omega]
  rw [← Nat.Ico_succ_right, Finset.sum_Ico_eq_sum_range]
  simp only [Nat.succ_eq_add_one, Nat.add_sub_cancel]
  apply Finset.sum_congr rfl
  intro j _
  rw [show 1 + j = j + 1 by omega]
  simp only [List.getD_cons_succ]

/-- The face loop over a valid mesh adds the fan sums of the faces with at
least 3 vertices. -/
theorem volumeLoop_eq (cloud : List PointXYZRGB) (t : Transform) (c : Vec3)
    (polygons : List Vertices) (acc : ℚ)
    (hvalid : ∀ face ∈ polygons, ∀ idx ∈ face.vertices,
      0 ≤ idx ∧ idx < (cloud.length : Int)) :
    volumeLoop (cloud.map (fun ptLocal =>
        (⟨(transformPoint ptLocal t).x, (transformPoint ptLocal t).y,
          (transformPoint ptLocal t).z⟩ : Vec3))) c polygons acc =
      acc + ((polygons.filter (fun face => decide (3 ≤ face.vertices.length))).map
        (fun face => faceVolume c
          (fun k => sceneVertex cloud t (face.vertices.getD k 0))
          face.vertices.length)).sum := by
  induction polygons generalizing acc with
  | nil => simp [volumeLoop]
  | cons polygon rest ih =>
    have hrest : ∀ face ∈ rest, ∀ idx ∈ face.vertices,
        0 ≤ idx ∧ idx < (cloud.length : Int) :=
      fun face hf => hvalid face (by simp [hf])
    unfold volumeLoop
    by_cases hlen : polygon.vertices.length < 3
    · rw [if_pos hlen, ih acc hrest]
      have : ¬ 3 ≤ polygon.vertices.length := by omega
      simp [List.filter_cons, this]
    · rw [if_neg hlen]
      have h3 : 3 ≤ polygon.vertices.length := by omega
      cases hv : polygon.vertices with
      | nil => simp [hv] at h3
      | cons i0 tail =>
        simp only
        have hpoly := hvalid polygon (by simp)
        rw [hv] at hpoly
        rw [ih _ hrest, fanLoop_eq cloud t c i0 tail acc (hpoly i0 (by simp))
          (fun i hi => hpoly i (by simp [hi]))]
        have hdec : decide (3 ≤ polygon.vertices.length) = true := by simp [h3]
        rw [List.filter_cons, if_pos hdec, List.map_cons, List.sum_cons, hv,
          faceVolume_cons]
        ring

/-- The value returned by `calculateMeshVolume` for an entry that has a mesh. -/
theorem calculateMeshVolume_fst (s : Scene) (meshId : Int) (drawable : PointCloudDrawable)
    (mesh : Mesh) (hfind : mapFind s.pointClouds_ meshId = some drawable)
    (hmesh : drawable.mesh = some mesh) :
    (calculateMeshVolume s meshId).1 =
      if mesh.polygons.isEmpty then 0
      else volumeLoop (mesh.cloud.map (fun ptLocal =>
          (⟨(transformPoint ptLocal (sceneTransform drawable.pose mesh.pose)).x,
            (transformPoint ptLocal (sceneTransform drawable.pose mesh.pose)).y,
            (transformPoint ptLocal (sceneTransform drawable.pose mesh.pose)).z⟩ : Vec3)))
        (regionMean s.markerPoses_) mesh.polygons 0 := by
  unfold calculateMeshVolume
  simp only [hfind, hmesh]
  split
  · rfl
  · simp only [meshToScene_eq, computeMarkerPolygonCentroid_eq]

/-- For a mesh that satisfies the mesh invariant, `calculateMeshVolume`
returns the volume of the specification. -/
theorem calculateMeshVolume_valid (s : Scene) (meshId : Int) (drawable : PointCloudDrawable)
    (mesh : Mesh) (hfind : mapFind s.pointClouds_ meshId = some drawable)
    (hmesh : drawable.mesh = some mesh) (hvalid : MeshValid mesh) :
    (calculateMeshVolume s meshId).1 =
      volumeSpec mesh (sceneTransform drawable.pose mesh.pose) (regionMean s.markerPoses_) := by
  rw [calculateMeshVolume_fst s meshId drawable mesh hfind hmesh]
  split
  · rename_i hemp
    have : mesh.polygons = [] := List.isEmpty_iff.mp hemp
    simp [volumeSpec, this]
  · rw [volumeLoop_eq mesh.cloud _ _ mesh.polygons 0 hvalid, zero_add]
    rfl

/-- C2: for every mesh stored in the scene and every region,
`calculateMeshVolume` returns the sum, over every face with at least 3
vertices and every `i` from `1` to `n - 2`, of
`|((v_0 - c) x (v_i - c)) . (v_{i+1} - c)| / 6`, with `v_k` the vertices of the
face in scene space (every face index in range, the mesh invariant) and `c` the
arithmetic mean of the region point positions (zero for an empty region); the
result is `0` when the face list is empty, is never negative, and is the value
left in the global `totalVolume`. -/
theorem calculateMeshVolume_spec (s : Scene) (meshId : Int) (drawable : PointCloudDrawable)
    (mesh : Mesh) (hfind : mapFind s.pointClouds_ meshId = some drawable)
    (hmesh : drawable.mesh = some mesh) :
    (MeshValid mesh →
      (calculateMeshVolume s meshId).1 =
        volumeSpec mesh (sceneTransform drawable.pose mesh.pose) (regionMean s.markerPoses_)) ∧
    (mesh.polygons = [] → (calculateMeshVolume s meshId).1 = 0) ∧
    0 ≤ (calculateMeshVolume s meshId).1 ∧
    (calculateMeshVolume s meshId).2.totalVolume = (calculateMeshVolume s meshId).1 := by
  refine ⟨calculateMeshVolume_valid s meshId drawable mesh hfind hmesh, ?_, ?_, ?_⟩
  · intro hemp
    rw [calculateMeshVolume_fst s meshId drawable mesh hfind hmesh]
    simp [hemp]
  · rw [calculateMeshVolume_fst s meshId drawable mesh hfind hmesh]
    split
    · exact le_refl 0
    · exact volumeLoop_ge _ _ _ 0
  · rw [calculateMeshVolume_snd]

/-! ### The unit cube -/

/-- The unit cube satisfies the mesh invariant. -/
theorem unitCube_valid : MeshValid unitCube := by
  unfold MeshValid
  decide

/-- With identity poses the mesh-to-scene transform is the identity. -/
theorem sceneTransform_identity :
    sceneTransform Transform.getIdentity Transform.getIdentity = Transform.getIdentity := by
  simp [sceneTransform, Transform.isNull, Transform.getIdentity, Transform.mul]

/-- The identity transform leaves the coordinates of a point. -/
theorem transformPoint_identity (pt : PointXYZRGB) :
    transformPoint pt Transform.getIdentity = pt := by
  simp [transformPoint, Transform.getIdentity]

/-- The volume of the specification for the unit cube about its centre. -/
theorem volumeSpec_unitCube :
    volumeSpec unitCube Transform.getIdentity ⟨1/2, 1/2, 1/2⟩ = 1 := by
  simp only [volumeSpec, unitCube, faceVolume, sceneVertex, transformPoint_identity]
  simp [tetraVolume]
  norm_num [abs_of_neg, abs_of_pos]

/-- C3: for the unit cube (8 vertices, 12 triangles, identity mesh and owner
poses) and a region of at least 3 points whose `(x, z)` polygon contains every
cube vertex and whose centroid is the centre of the cube, filtering with
`filterMeshInsidePolygon` keeps the 12 faces and `calculateMeshVolume` on the
filtered mesh returns exactly `1`. -/
theorem unitCube_volume (ppt : List Vec2 → Vec2 → ℚ) (s : Scene) (meshId : Int)
    (drawable : PointCloudDrawable)
    (hregion : 3 ≤ s.markerPoses_.length)
    (hinside : ∀ v ∈ unitCube.cloud, 0 ≤ ppt (regionPolygon s.markerPoses_) ⟨v.x, v.z⟩)
    (hcentroid : regionMean s.markerPoses_ = ⟨1/2, 1/2, 1/2⟩)
    (hfind : mapFind s.pointClouds_ meshId = some drawable)
    (hpose : drawable.pose = Transform.getIdentity)
    (hmesh : drawable.mesh =
      some (filterMeshInsidePolygon ppt s.markerPoses_ unitCube drawable.pose)) :
    filterMeshInsidePolygon ppt s.markerPoses_ unitCube drawable.pose = unitCube ∧
    (calculateMeshVolume s meshId).1 = 1 := by
  have hfilter : filterMeshInsidePolygon ppt s.markerPoses_ unitCube drawable.pose =
      unitCube := by
    rw [filterMeshInsidePolygon_polygons ppt s.markerPoses_ unitCube drawable.pose hregion
      (by simp [unitCube])]
    have hkeep : unitCube.polygons.filter
        (faceInside ppt (regionPolygon s.markerPoses_) unitCube.cloud
          (sceneTransform drawable.pose unitCube.pose)) = unitCube.polygons := by
      rw [List.filter_eq_self]
      intro face hface
      simp only [faceInside, List.all_eq_true]
      intro idx hidx
      obtain ⟨h0, h8⟩ := unitCube_valid face hface idx hidx
      rw [vertexInside_iff]
      refine ⟨h0, h8, ?_⟩
      have hT : sceneTransform drawable.pose unitCube.pose = Transform.getIdentity := by
        rw [hpose]
        exact sceneTransform_identity
      rw [hT]
      simp only [transformPoint_identity]
      have h8' : idx < 8 := h8
      interval_cases idx
      all_goals exact ⟨_, rfl, hinside _ (by simp [unitCube])⟩
    rw [hkeep]
  refine ⟨hfilter, ?_⟩
  rw [hfilter] at hmesh
  rw [calculateMeshVolume_valid s meshId drawable unitCube hfind hmesh unitCube_valid,
    hcentroid, hpose]
  rw [show unitCube.pose = Transform.getIdentity from rfl, sceneTransform_identity]
  exact volumeSpec_unitCube

/-! ### The properties at concrete inputs -/

/-- C1 at a concrete input: the unit cube filtered by `exampleSquare`. -/
theorem filterMeshInsidePolygon_spec_witness :
    3 ≤ exampleSquare.length ∧ unitCube.cloud ≠ [] ∧
    (filterMeshInsidePolygon exampleTest exampleSquare unitCube Transform.getIdentity).polygons =
      unitCube.polygons.filter (faceInside exampleTest (regionPolygon exampleSquare)
        unitCube.cloud (sceneTransform Transform.getIdentity unitCube.pose)) :=
  have h1 : 3 ≤ exampleSquare.length := by decide
  have h2 : unitCube.cloud ≠ [] := by simp [unitCube]
  ⟨h1, h2, (filterMeshInsidePolygon_spec exampleTest exampleSquare unitCube
    Transform.getIdentity h1 h2).1⟩

/-- The centroid of `exampleSquare` is the centre of the unit cube. -/
theorem regionMean_exampleSquare : regionMean exampleSquare = ⟨1/2, 1/2, 1/2⟩ := by
  have hne : exampleSquare ≠ [] := by simp [exampleSquare]
  unfold regionMean
  rw [if_neg hne]
  norm_num [exampleSquare, Transform.x, Transform.y, Transform.z, Transform.ofXYZ]

/-- The mesh `exampleQuadMesh` satisfies the mesh invariant. -/
theorem exampleQuadMesh_valid : MeshValid exampleQuadMesh := by
  unfold MeshValid
  decide

/-- The volume of the specification for `exampleQuadMesh` about the centre of
the cube: the two tetrahedra of the fan of the bottom side, `1/12` each; the
face of two vertices adds nothing. -/
theorem volumeSpec_exampleQuadMesh :
    volumeSpec exampleQuadMesh Transform.getIdentity ⟨1/2, 1/2, 1/2⟩ = 1/6 := by
  simp only [volumeSpec, exampleQuadMesh, unitCube, faceVolume, sceneVertex,
    transformPoint_identity]
  simp [tetraVolume, Finset.sum_Icc_succ_top]
  norm_num [abs_of_neg, abs_of_pos]

/-- C2 at two concrete inputs. For the unit cube stored at id `7` the returned
value is the sum of the specification. For the bottom side of the cube as one
face of four vertices, followed by a face of two vertices, with the centroid
`(1/2, 1/2, 1/2)`, the returned value is `1/6`: the pyramid from the bottom side
to the centre of the cube. -/
theorem calculateMeshVolume_spec_witness :
    (mapFind exampleCubeScene.pointClouds_ 7 = some (PointCloudDrawable.ofMesh unitCube) ∧
      (PointCloudDrawable.ofMesh unitCube).mesh = some unitCube ∧
      (calculateMeshVolume exampleCubeScene 7).1 =
        volumeSpec unitCube
          (sceneTransform (PointCloudDrawable.ofMesh unitCube).pose unitCube.pose)
          (regionMean exampleCubeScene.markerPoses_)) ∧
    (mapFind exampleQuadScene.pointClouds_ 7 =
        some (PointCloudDrawable.ofMesh exampleQuadMesh) ∧
      MeshValid exampleQuadMesh ∧
      regionMean exampleQuadScene.markerPoses_ = ⟨1/2, 1/2, 1/2⟩ ∧
      volumeSpec exampleQuadMesh Transform.getIdentity ⟨1/2, 1/2, 1/2⟩ = 1/6 ∧
      (calculateMeshVolume exampleQuadScene 7).1 = 1/6 ∧
      (calculateMeshVolume exampleQuadScene 7).2.totalVolume = 1/6) := by
  have h1 := calculateMeshVolume_spec exampleCubeScene 7 (PointCloudDrawable.ofMesh unitCube)
    unitCube rfl rfl
  have h2 := calculateMeshVolume_spec exampleQuadScene 7
    (PointCloudDrawable.ofMesh exampleQuadMesh) exampleQuadMesh rfl rfl
  have hv : (calculateMeshVolume exampleQuadScene 7).1 = 1/6 := by
    rw [h2.1 exampleQuadMesh_valid,
      show exampleQuadScene.markerPoses_ = exampleSquare from rfl, regionMean_exampleSquare,
      show (PointCloudDrawable.ofMesh exampleQuadMesh).pose = Transform.getIdentity from rfl,
      show exampleQuadMesh.pose = Transform.getIdentity from rfl, sceneTransform_identity]
    exact volumeSpec_exampleQuadMesh
  exact ⟨⟨rfl, rfl, h1.1 unitCube_valid⟩, ⟨rfl, exampleQuadMesh_valid, regionMean_exampleSquare,
    volumeSpec_exampleQuadMesh, hv, by rw [h2.2.2.2, hv]⟩⟩

/-- Every vertex of the unit cube passes `exampleTest`. -/
theorem exampleTest_unitCube :
    ∀ v ∈ unitCube.cloud, 0 ≤ exampleTest (regionPolygon exampleSquare) ⟨v.x, v.z⟩ := by
  intro v hv
  simp only [unitCube, List.mem_cons, List.mem_singleton, List.not_mem_nil, or_false] at hv
  rcases hv with h | h | h | h | h | h | h | h <;> subst h <;> norm_num [exampleTest]

/-- C3 at a concrete input: the unit cube filtered by `exampleSquare`, whose
centroid is `(1/2, 1/2, 1/2)`, has volume `1`. -/
theorem unitCube_volume_witness :
    3 ≤ exampleFilteredScene.markerPoses_.length ∧
    regionMean exampleFilteredScene.markerPoses_ = ⟨1/2, 1/2, 1/2⟩ ∧
    (calculateMeshVolume exampleFilteredScene 7).1 = 1 :=
  have h1 : 3 ≤ exampleFilteredScene.markerPoses_.length := by decide
  ⟨h1, regionMean_exampleSquare,
    (unitCube_volume exampleTest exampleFilteredScene 7
      ((PointCloudDrawable.ofMesh unitCube).updateMesh
        (filterMeshInsidePolygon exampleTest exampleSquare unitCube Transform.getIdentity))
      h1 exampleTest_unitCube regionMean_exampleSquare rfl rfl rfl).2⟩

/-- C8 at a concrete input: the filtered cube of `exampleFilteredScene` is
restored to the snapshot by `removeMarkerAll`. -/
theorem removeMarkerAll_restores_witness :
    (mapKeys exampleFilteredScene.originalMeshes_).Nodup ∧
    mapFind exampleFilteredScene.originalMeshes_ 7 = some unitCube ∧
    ∃ s1, removeMarkerAll exampleTest exampleFrame exampleFilteredScene = some s1 ∧
      mapFind s1.pointClouds_ 7 = some (PointCloudDrawable.ofMesh unitCube) :=
  have h1 : (mapKeys exampleFilteredScene.originalMeshes_).Nodup := by decide
  ⟨h1, rfl,
    (removeMarkerAll_restores exampleTest exampleFilteredScene 7
      ((PointCloudDrawable.ofMesh unitCube).updateMesh
        (filterMeshInsidePolygon exampleTest exampleSquare unitCube Transform.getIdentity))
      unitCube h1 rfl rfl rfl).1 exampleFrame (Or.inl rfl)⟩

/-! ### The pick computation -/

/-- Applying a product of matrices is applying one after the other. -/
theorem Mat4.mulVec_mul (a b : Mat4) (v : Vec4) :
    (a.mul b).mulVec v = a.mulVec (b.mulVec v) := by
  simp only [Mat4.mul, Mat4.mulVec, Vec4.mk.injEq]
  refine ⟨?_, ?_, ?_, ?_⟩ <;> ring

/-- The identity matrix leaves a vector. -/
theorem Mat4.identity_mulVec (v : Vec4) : Mat4.identity.mulVec v = v := by
  simp [Mat4.identity, Mat4.mulVec]

/-- The point before the divide, as computed by the pick of a frame. -/
theorem pickClip_eq (f : Frame) (s : Scene) :
    pickClip f s = pickHomogeneous f.invProjView s.doubleTapPos_ f.zValueF := rfl

/-- A matrix applied to a vector divided by a scalar. -/
theorem Mat4.mulVec_div (m : Mat4) (v : Vec4) (k : ℚ) :
    m.mulVec ⟨v.x / k, v.y / k, v.z / k, v.w / k⟩ =
      ⟨(m.mulVec v).x / k, (m.mulVec v).y / k, (m.mulVec v).z / k, (m.mulVec v).w / k⟩ := by
  simp only [Mat4.mulVec, Vec4.mk.injEq]
  refine ⟨?_, ?_, ?_, ?_⟩ <;> ring

/-- The pick computation on the screen position and depth of a world point
gives the point back, before the divide, scaled by `1 / c.w`. -/
theorem pickHomogeneous_project (M Minv : Mat4) (P : Vec3) (c : Vec4)
    (hinv : Minv.mul M = Mat4.identity)
    (hc : M.mulVec ⟨P.x, P.y, P.z, 1⟩ = c) (hw : c.w ≠ 0) :
    pickHomogeneous Minv ⟨(c.x / c.w + 1) / 2, (1 - c.y / c.w) / 2⟩ ((c.z / c.w + 1) / 2) =
      ⟨P.x / c.w, P.y / c.w, P.z / c.w, 1 / c.w⟩ := by
  have h1 : Minv.mulVec c = ⟨P.x, P.y, P.z, 1⟩ := by
    rw [← hc, ← Mat4.mulVec_mul, hinv, Mat4.identity_mulVec]
  have h2 : pickHomogeneous Minv ⟨(c.x / c.w + 1) / 2, (1 - c.y / c.w) / 2⟩
      ((c.z / c.w + 1) / 2) = Minv.mulVec ⟨c.x / c.w, c.y / c.w, c.z / c.w, c.w / c.w⟩ := by
    unfold pickHomogeneous
    simp only
    congr 1
    rw [div_self hw]
    simp only [Vec4.mk.injEq]
    refine ⟨?_, ?_, ?_, trivial⟩ <;> ring
  rw [h2, Mat4.mulVec_div, h1]

/-- C11: picker round trip. For every matrix `M` with inverse `Minv` and every
world point `P` whose clip coordinate `c = M * (P, 1)` has `c.w ≠ 0`, the pick
computation at `screenX = (c.x/c.w + 1)/2`, `screenY = (1 - c.y/c.w)/2` and
`depth = (c.z/c.w + 1)/2` recovers exactly `P`; and a frame with that depth,
not zero, uses `P`: as anchor offset `P - position`, or as the point of the
cropping pick. -/
theorem pick_round_trip (M Minv : Mat4) (P : Vec3) (c : Vec4)
    (hinv : Minv.mul M = Mat4.identity)
    (hc : M.mulVec ⟨P.x, P.y, P.z, 1⟩ = c) (hw : c.w ≠ 0)
    (hdepth : (c.z / c.w + 1) / 2 ≠ 0) :
    homogeneousDivide (pickHomogeneous Minv ⟨(c.x / c.w + 1) / 2, (1 - c.y / c.w) / 2⟩
        ((c.z / c.w + 1) / 2)) = Recovered.finite P ∧
    (∀ (f : Frame) (s : Scene), f.invProjView = Minv → f.zValueF = (c.z / c.w + 1) / 2 →
      s.doubleTapPos_ = ⟨(c.x / c.w + 1) / 2, (1 - c.y / c.w) / 2⟩ →
      s.doubleTapOn_ = true → s.cameraType ≠ CameraType.kFirstPerson →
      renderPick f s =
        if s.croppingOn_ then croppingPick s P
        else some ({ s with anchorOffset := P.sub f.position }, false)) := by
  have hdiv : homogeneousDivide (pickHomogeneous Minv
      ⟨(c.x / c.w + 1) / 2, (1 - c.y / c.w) / 2⟩ ((c.z / c.w + 1) / 2)) =
      Recovered.finite P := by
    rw [pickHomogeneous_project M Minv P c hinv hc hw]
    unfold homogeneousDivide
    have hw1 : (1 : ℚ) / c.w ≠ 0 := one_div_ne_zero hw
    rw [if_pos hw1]
    congr 1
    have hx : P.x / c.w / (1 / c.w) = P.x := by field_simp
    have hy : P.y / c.w / (1 / c.w) = P.y := by field_simp
    have hz : P.z / c.w / (1 / c.w) = P.z := by field_simp
    rw [hx, hy, hz]
  refine ⟨hdiv, ?_⟩
  intro f s hf hz htap hon hcam
  unfold renderPick
  rw [if_pos (by simp [hon, hcam]), if_pos (by rw [hz]; exact hdepth), pickClip_eq, hf, htap,
    hz, hdiv]

/-- `exampleProjInv` is the inverse of `exampleProj`. -/
theorem exampleProjInv_mul : exampleProjInv.mul exampleProj = Mat4.identity := by
  simp [Mat4.mul, Mat4.mulVec, exampleProjInv, exampleProj, Mat4.identity]

/-- C11 at a concrete input: the world point `(1, 2, 2)` under `exampleProj`,
with clip coordinate `(1, 2, 1, 2)`, screen position `(3/4, 0)` and depth
`3/4`. -/
theorem pick_round_trip_witness :
    exampleProjInv.mul exampleProj = Mat4.identity ∧
    exampleProj.mulVec ⟨1, 2, 2, 1⟩ = ⟨1, 2, 1, 2⟩ ∧
    homogeneousDivide (pickHomogeneous exampleProjInv ⟨(1 / 2 + 1) / 2, (1 - 2 / 2) / 2⟩
        ((1 / 2 + 1) / 2)) = Recovered.finite ⟨1, 2, 2⟩ :=
  have hc : exampleProj.mulVec ⟨1, 2, 2, 1⟩ = ⟨1, 2, 1, 2⟩ := by
    norm_num [Mat4.mulVec, exampleProj]
  ⟨exampleProjInv_mul, hc,
    (pick_round_trip exampleProj exampleProjInv ⟨1, 2, 2⟩ ⟨1, 2, 1, 2⟩ exampleProjInv_mul hc
      (by norm_num) (by norm_num)).1⟩

/-- A frame whose pick does not return early clears `doubleTapOn_` and, beyond
the pick, changes the geometry store and `totalVolume` only. -/
theorem Render_of_pick (ppt : List Vec2 → Vec2 → ℚ) (f : Frame) (s s1 : Scene)
    (h : renderPick f s = some (s1, false)) :
    ∃ pc v, Render ppt f s = some { s1 with
      doubleTapOn_ := false
      pointClouds_ := pc
      totalVolume := v } := by
  unfold Render
  rw [h]
  simp only
  split
  · obtain ⟨v, hv⟩ := renderFilterLoop_eq ppt s1.markerPoses_ [] s1.pointClouds_
      { s1 with doubleTapOn_ := false } (by simp)
    rw [hv]
    exact ⟨_, v, rfl⟩
  · exact ⟨s1.pointClouds_, s1.totalVolume, rfl⟩

/-- C12: in the pick step of `Render`, a decoded depth of exactly `0` yields no
result: the frame returns with the region points, the markers, the closed flag
and the anchor offset unchanged. For a depth that is not zero the point before
the divide is `h = inverse(projection*view) * (2*sx - 1, 1 - 2*sy, 2*z - 1, 1)`
and, `h.w` not being zero, the recovered point used by the pick is `h / h.w`. -/
theorem pick_depth (ppt : List Vec2 → Vec2 → ℚ) (f : Frame) (s : Scene) :
    (f.zValueF = 0 →
      renderPick f s = some (s, false) ∧
      ∃ s1, Render ppt f s = some s1 ∧
        s1.markerPoses_ = s.markerPoses_ ∧ s1.markerOrder_ = s.markerOrder_ ∧
        s1.markers_ = s.markers_ ∧ s1.polygonClosed_ = s.polygonClosed_ ∧
        s1.anchorOffset = s.anchorOffset) ∧
    pickClip f s = f.invProjView.mulVec
      ⟨2 * s.doubleTapPos_.x - 1, 1 - 2 * s.doubleTapPos_.y, 2 * f.zValueF - 1, 1⟩ ∧
    (f.zValueF ≠ 0 → s.doubleTapOn_ = true → s.cameraType ≠ CameraType.kFirstPerson →
      (pickClip f s).w ≠ 0 →
      homogeneousDivide (pickClip f s) = Recovered.finite
        ⟨(pickClip f s).x / (pickClip f s).w, (pickClip f s).y / (pickClip f s).w,
         (pickClip f s).z / (pickClip f s).w⟩ ∧
      renderPick f s =
        if s.croppingOn_ then
          croppingPick s ⟨(pickClip f s).x / (pickClip f s).w,
            (pickClip f s).y / (pickClip f s).w, (pickClip f s).z / (pickClip f s).w⟩
        else
          some ({ s with anchorOffset :=
            (⟨(pickClip f s).x / (pickClip f s).w, (pickClip f s).y / (pickClip f s).w,
              (pickClip f s).z / (pickClip f s).w⟩ : Vec3).sub f.position }, false)) := by
  refine ⟨?_, ?_, ?_⟩
  · intro hz
    have hpick : renderPick f s = some (s, false) := renderPick_idle f s (Or.inr (Or.inr hz))
    obtain ⟨pc, v, hR⟩ := Render_of_pick ppt f s s hpick
    exact ⟨hpick, _, hR, rfl, rfl, rfl, rfl, rfl⟩
  · unfold pickClip
    simp only
    congr 1
    simp only [Vec4.mk.injEq]
    refine ⟨?_, ?_, ?_, trivial⟩ <;> ring
  · intro hz hon hcam hw
    have hdiv : homogeneousDivide (pickClip f s) = Recovered.finite
        ⟨(pickClip f s).x / (pickClip f s).w, (pickClip f s).y / (pickClip f s).w,
         (pickClip f s).z / (pickClip f s).w⟩ := by
      unfold homogeneousDivide
      rw [if_pos hw]
    refine ⟨hdiv, ?_⟩
    unfold renderPick
    rw [if_pos (by simp [hon, hcam]), if_pos hz, hdiv]

/-! ### The closed flag -/

/-- The three outcomes of the cropping pick: the polygon is closed by a pick
that passes the closure test, or the counter is stepped on a polygon that was
closed already, or the point is appended to an open polygon. -/
theorem croppingPick_cases (s : Scene) (point : Vec3) :
    (closesPolygon s point = true ∧
      croppingPick s point =
        some ({ s with polygonClosed_ := true, doubleTapOn_ := false }, true)) ∨
    (closesPolygon s point = false ∧ s.polygonClosed_ = true ∧
      croppingPick s point = some ({ s with markerId := s.markerId + 1 }, false)) ∨
    (closesPolygon s point = false ∧ s.polygonClosed_ = false ∧
      ∃ m, croppingPick s point = some ({ s with
        markers_ := m
        markerOrder_ := s.markerOrder_ ++ [s.markerId]
        markerPoses_ := s.markerPoses_ ++ [Transform.ofXYZ point.x point.y point.z]
        markerId := s.markerId + 1 }, false)) := by
  cases hc : closesPolygon s point with
  | true => exact Or.inl ⟨rfl, croppingPick_of_closes s point hc⟩
  | false =>
    by_cases ho : s.polygonClosed_ = true
    · refine Or.inr (Or.inl ⟨rfl, ho, ?_⟩)
      unfold croppingPick
      rw [if_neg (by simp [hc])]
      simp only [addMarker2_closed { s with markerId := s.markerId + 1 } s.markerId _ ho]
    · have ho2 : s.polygonClosed_ = false := by simpa using ho
      obtain ⟨m, hm⟩ := croppingPick_of_not_closes s point ho2 hc
      exact Or.inr (Or.inr ⟨rfl, ho2, m, hm⟩)

/-- The cropping pick keeps "a closed polygon has at least 3 points". -/
theorem croppingPick_closedHasThree (s s1 : Scene) (point : Vec3) (b : Bool)
    (hinv : ClosedHasThree s) (h : croppingPick s point = some (s1, b)) :
    ClosedHasThree s1 := by
  rcases croppingPick_cases s point with ⟨hc, h1⟩ | ⟨_, ho, h1⟩ | ⟨_, ho, m, h1⟩
  · rw [h1] at h
    cases h
    intro _
    exact ((closesPolygon_iff s point).mp hc).1
  · rw [h1] at h
    cases h
    intro _
    exact hinv ho
  · rw [h1] at h
    cases h
    intro hclosed
    simp only at hclosed
    rw [ho] at hclosed
    exact absurd hclosed (by simp)

/-- A cropping pick that does not return early leaves the closed flag, and
leaves the region of a closed polygon. -/
theorem croppingPick_flag (s s1 : Scene) (point : Vec3)
    (h : croppingPick s point = some (s1, false)) :
    s1.polygonClosed_ = s.polygonClosed_ ∧
    (s.polygonClosed_ = true → s1.markerPoses_ = s.markerPoses_) := by
  rcases croppingPick_cases s point with ⟨_, h1⟩ | ⟨_, ho, h1⟩ | ⟨_, ho, m, h1⟩
  · rw [h1] at h
    simp at h
  · rw [h1] at h
    cases h
    exact ⟨rfl, fun _ => rfl⟩
  · rw [h1] at h
    cases h
    refine ⟨rfl, fun hc => ?_⟩
    rw [ho] at hc
    exact absurd hc (by simp)

/-- The pick of a frame, when it does not return early, leaves the closed
flag, and leaves the region of a closed polygon. -/
theorem renderPick_flag (f : Frame) (s s1 : Scene)
    (h : renderPick f s = some (s1, false)) :
    s1.polygonClosed_ = s.polygonClosed_ ∧
    (s.polygonClosed_ = true → s1.markerPoses_ = s.markerPoses_) := by
  unfold renderPick at h
  split at h
  · split at h
    · cases hdiv : homogeneousDivide (pickClip f s) with
      | finite point =>
        rw [hdiv] at h
        simp only at h
        split at h
        · exact croppingPick_flag s s1 point h
        · cases h
          exact ⟨rfl, fun _ => rfl⟩
      | nanX =>
        rw [hdiv] at h
        simp only at h
        split at h
        · cases h
          exact ⟨rfl, fun _ => rfl⟩
        · simp at h
      | nonFinite =>
        rw [hdiv] at h
        simp only at h
        split at h
        · split at h
          · cases h
            exact ⟨rfl, fun _ => rfl⟩
          · simp at h
        · simp at h
    · cases h
      exact ⟨rfl, fun _ => rfl⟩
  · cases h
    exact ⟨rfl, fun _ => rfl⟩

/-- A frame on a region that is not closed, or has fewer than 3 points, does
not filter: the geometry store is left as it is. -/
theorem Render_not_closed (ppt : List Vec2 → Vec2 → ℚ) (f : Frame) (s s1 : Scene)
    (hs : s.polygonClosed_ = false ∨ s.markerPoses_.length < 3)
    (h : Render ppt f s = some s1) : s1.pointClouds_ = s.pointClouds_ := by
  unfold Render at h
  split at h
  · simp at h
  · rename_i s2 hpick
    cases h
    exact (renderPick_clouds f s s1 true hpick).1
  · rename_i s2 hpick
    obtain ⟨hflag, hposes⟩ := renderPick_flag f s s2 hpick
    have hno : ¬ ((s2.polygonClosed_ && decide (s2.markerPoses_.length ≥ 3)) = true) := by
      rcases hs with ho | hlen
      · simp [hflag, ho]
      · by_cases hc : s.polygonClosed_ = true
        · rw [hflag, hc, hposes hc]
          simp
          omega
        · have ho : s.polygonClosed_ = false := by simpa using hc
          simp [hflag, ho]
    simp only at h
    rw [if_neg hno] at h
    cases h
    exact (renderPick_clouds f s s2 false hpick).1

/-! ### The preconditions of the filter -/

/-- C13, counterexample: on the region `exampleSquare`, which is not closed,
`filterMeshInsidePolygon` is not a no-op: it drops the one face of
`exampleWideMesh`, whose third vertex lies outside the region. -/
theorem filterMeshInsidePolygon_filters_open_region :
    exampleOpenSquare.polygonClosed_ = false ∧
    exampleWideMesh.polygons = [⟨[0, 1, 2]⟩] ∧
    (filterMeshInsidePolygon exampleTest exampleOpenSquare.markerPoses_ exampleWideMesh
      Transform.getIdentity).polygons = [] := by
  refine ⟨rfl, rfl, ?_⟩
  rw [filterMeshInsidePolygon_polygons exampleTest exampleOpenSquare.markerPoses_
    exampleWideMesh Transform.getIdentity (by decide) (by simp [exampleWideMesh])]
  simp only
  rw [show exampleWideMesh.pose = Transform.getIdentity from rfl, sceneTransform_identity]
  have hout : vertexInside exampleTest (regionPolygon exampleOpenSquare.markerPoses_)
      exampleWideMesh.cloud Transform.getIdentity 2 = false := by
    unfold vertexInside
    rw [show exampleWideMesh.cloud.get? (2 : Int).toNat = some ⟨5, 0, 5, 0⟩ from rfl]
    simp only [transformPoint_identity]
    norm_num [exampleTest]
  have hface : faceInside exampleTest (regionPolygon exampleOpenSquare.markerPoses_)
      exampleWideMesh.cloud Transform.getIdentity ⟨[0, 1, 2]⟩ = false := by
    simp only [faceInside, List.all_cons, hout]
    simp
  rw [show exampleWideMesh.polygons = [⟨[0, 1, 2]⟩] from rfl, List.filter_cons, hface]
  simp

/-- C13 (amended): `filterMeshInsidePolygon` is a no-op whenever the region
has fewer than 3 points or the mesh has no vertices. It does not test whether
the region is closed: that test is made by `Render`, which leaves every mesh of
the store as it is in a frame on a region that is not closed or has fewer than
3 points. -/
theorem filterMeshInsidePolygon_noop (ppt : List Vec2 → Vec2 → ℚ)
    (polygon2D : List Transform) (mesh : Mesh) (drawablePose : Transform) :
    (polygon2D.length < 3 →
      filterMeshInsidePolygon ppt polygon2D mesh drawablePose = mesh) ∧
    (mesh.cloud = [] →
      filterMeshInsidePolygon ppt polygon2D mesh drawablePose = mesh) ∧
    (∀ (f : Frame) (s s1 : Scene),
      s.polygonClosed_ = false ∨ s.markerPoses_.length < 3 →
      Render ppt f s = some s1 → s1.pointClouds_ = s.pointClouds_) := by
  refine ⟨?_, ?_, fun f s s1 hs h => Render_not_closed ppt f s s1 hs h⟩
  · intro h
    unfold filterMeshInsidePolygon
    rw [if_pos (Or.inl h)]
  · intro h
    unfold filterMeshInsidePolygon
    rw [if_pos (Or.inr (by simp [h]))]

/-! ### Frustum planes -/

/-- `ratSqrt` is exact on the square of a fraction in lowest terms. -/
theorem ratSqrt_sq (a b : ℕ) (hb : 0 < b) (h : Nat.Coprime a b) :
    ratSqrt (((a : ℚ) / b) * ((a : ℚ) / b)) = (a : ℚ) / b := by
  have hq : ((a : ℚ) / b) * ((a : ℚ) / b) = ((a * a : ℕ) : ℚ) / ((b * b : ℕ) : ℚ) := by
    push_cast
    field_simp
  have hco : Nat.Coprime (a * a) (b * b) :=
    Nat.Coprime.mul (Nat.Coprime.mul_right h h) (Nat.Coprime.mul_right h h)
  have hnum : (((a * a : ℕ) : ℚ) / ((b * b : ℕ) : ℚ)).num = ((a * a : ℕ) : ℤ) := by
    have := Rat.num_div_eq_of_coprime (a := ((a * a : ℕ) : ℤ)) (b := ((b * b : ℕ) : ℤ))
      (by positivity) (by simpa using hco)
    simpa using this
  have hden : (((a * a : ℕ) : ℚ) / ((b * b : ℕ) : ℚ)).den = b * b := by
    have h2 : (((((a * a : ℕ) : ℤ) : ℚ) / (((b * b : ℕ) : ℤ) : ℚ)).den : ℤ) =
        ((b * b : ℕ) : ℤ) :=
      Rat.den_div_eq_of_coprime (a := ((a * a : ℕ) : ℤ)) (b := ((b * b : ℕ) : ℤ))
        (by positivity) (by simpa using hco)
    have h3 : ((((a * a : ℕ) : ℤ) : ℚ) / (((b * b : ℕ) : ℤ) : ℚ)) =
        (((a * a : ℕ) : ℚ) / ((b * b : ℕ) : ℚ)) := by push_cast; rfl
    rw [h3] at h2
    exact_mod_cast h2
  unfold ratSqrt
  rw [hq, hnum, hden, Int.toNat_natCast, Nat.sqrt_eq, Nat.sqrt_eq]

/-- `ratSqrt 0 = 0`. -/
theorem ratSqrt_zero : ratSqrt 0 = 0 := by simp [ratSqrt]

/-- `ratSqrt (25/16) = 5/4`. -/
theorem ratSqrt_25_16 : ratSqrt (25 / 16) = 5 / 4 := by
  have h := ratSqrt_sq 5 4 (by norm_num) (by norm_num)
  norm_num at h
  exact h

/-- `ratSqrt (25/9) = 5/3`. -/
theorem ratSqrt_25_9 : ratSqrt (25 / 9) = 5 / 3 := by
  have h := ratSqrt_sq 5 3 (by norm_num) (by norm_num)
  norm_num at h
  exact h

/-- `ratSqrt 16 = 4`. -/
theorem ratSqrt_16 : ratSqrt 16 = 4 := by
  have h := ratSqrt_sq 4 1 (by norm_num) (by norm_num)
  norm_num at h
  exact h

/-- `ratSqrt 4 = 2`. -/
theorem ratSqrt_4 : ratSqrt 4 = 2 := by
  have h := ratSqrt_sq 2 1 (by norm_num) (by norm_num)
  norm_num at h
  exact h

/-- The six planes of `computeFrustumPlanes` with `normalize` set are the
normalizations of the six extracted planes. -/
theorem computeFrustumPlanes_true (sqrt : ℚ → ℚ) (mat : Mat4) :
    computeFrustumPlanes sqrt mat true = (frustumPlanesRaw mat).map (normalizePlane sqrt) := by
  simp [computeFrustumPlanes]

/-- `computeFrustumPlanes` returns six entries. -/
theorem computeFrustumPlanes_length (sqrt : ℚ → ℚ) (mat : Mat4) (normalize : Bool) :
    (computeFrustumPlanes sqrt mat normalize).length = 6 := by
  simp [computeFrustumPlanes, frustumPlanesRaw]

/-- A sum of three squares of rationals is zero only when the three are. -/
theorem sq_sum_eq_zero (a b c : ℚ) (h : a * a + b * b + c * c = 0) :
    a = 0 ∧ b = 0 ∧ c = 0 := by
  have ha := mul_self_nonneg a
  have hb := mul_self_nonneg b
  have hc := mul_self_nonneg c
  refine ⟨?_, ?_, ?_⟩
  · exact mul_self_eq_zero.mp (by linarith)
  · exact mul_self_eq_zero.mp (by linarith)
  · exact mul_self_eq_zero.mp (by linarith)

/-- With an exact square root, the length of a normal is zero exactly when the
normal is the zero vector. -/
theorem normalLength_eq_zero_iff (sqrt : ℚ → ℚ) (p : Vec4)
    (hsqrt : normalLength sqrt p * normalLength sqrt p = p.x * p.x + p.y * p.y + p.z * p.z) :
    normalLength sqrt p = 0 ↔ p.x = 0 ∧ p.y = 0 ∧ p.z = 0 := by
  constructor
  · intro h
    rw [h] at hsqrt
    exact sq_sum_eq_zero _ _ _ (by linarith)
  · rintro ⟨hx, hy, hz⟩
    rw [hx, hy, hz] at hsqrt
    exact mul_self_eq_zero.mp (by linarith)

/-- The normalization of a plane whose normal is not zero, with an exact
square root, is a plane with a unit normal. -/
theorem normalizePlane_unit (sqrt : ℚ → ℚ) (p : Vec4)
    (hsqrt : normalLength sqrt p * normalLength sqrt p = p.x * p.x + p.y * p.y + p.z * p.z)
    (hne : p.x ≠ 0 ∨ p.y ≠ 0 ∨ p.z ≠ 0) :
    ∃ q, normalizePlane sqrt p = some q ∧ q.x * q.x + q.y * q.y + q.z * q.z = 1 := by
  have hd : normalLength sqrt p ≠ 0 := by
    intro h
    obtain ⟨hx, hy, hz⟩ := (normalLength_eq_zero_iff sqrt p hsqrt).mp h
    rcases hne with h1 | h1 | h1
    · exact h1 hx
    · exact h1 hy
    · exact h1 hz
  refine ⟨⟨p.x / normalLength sqrt p, p.y / normalLength sqrt p, p.z / normalLength sqrt p,
    p.w / normalLength sqrt p⟩, ?_, ?_⟩
  · simp [normalizePlane, hd]
  · show p.x / normalLength sqrt p * (p.x / normalLength sqrt p) +
        p.y / normalLength sqrt p * (p.y / normalLength sqrt p) +
        p.z / normalLength sqrt p * (p.z / normalLength sqrt p) = 1
    field_simp
    linarith

/-- `exampleInfinitePerspectiveInv` is the inverse of
`exampleInfinitePerspective`. -/
theorem exampleInfinitePerspective_inv :
    exampleInfinitePerspectiveInv.mul exampleInfinitePerspective = Mat4.identity ∧
    exampleInfinitePerspective.mul exampleInfinitePerspectiveInv = Mat4.identity := by
  constructor <;>
    norm_num [Mat4.mul, Mat4.mulVec, exampleInfinitePerspectiveInv, exampleInfinitePerspective,
      Mat4.identity]

/-- C15, counterexample: the infinite-far-plane perspective matrix
`exampleInfinitePerspective` is invertible, and its far plane, fourth row minus
third row, is `(0, 0, 0, 2)`: its normal has length `0`, so for every square
root function with `sqrt 0 = 0` the normalization divides by `0` and the sixth
plane returned by `computeFrustumPlanes(matrix, true)` is not finite; not
every returned plane has a unit normal. -/
theorem computeFrustumPlanes_infinite_far_plane :
    exampleInfinitePerspectiveInv.mul exampleInfinitePerspective = Mat4.identity ∧
    exampleInfinitePerspective.mul exampleInfinitePerspectiveInv = Mat4.identity ∧
    (frustumPlanesRaw exampleInfinitePerspective)[5]? = some ⟨0, 0, 0, 2⟩ ∧
    (∀ sqrt : ℚ → ℚ, sqrt 0 = 0 →
      (computeFrustumPlanes sqrt exampleInfinitePerspective true)[5]? = some none ∧
      ¬ (∀ o ∈ computeFrustumPlanes sqrt exampleInfinitePerspective true,
          ∃ q, o = some q ∧ q.x * q.x + q.y * q.y + q.z * q.z = 1)) := by
  have hraw : (frustumPlanesRaw exampleInfinitePerspective)[5]? = some ⟨0, 0, 0, 2⟩ := by
    norm_num [frustumPlanesRaw, exampleInfinitePerspective]
  refine ⟨exampleInfinitePerspective_inv.1, exampleInfinitePerspective_inv.2, hraw, ?_⟩
  intro sqrt h0
  have h5 : (computeFrustumPlanes sqrt exampleInfinitePerspective true)[5]? = some none := by
    rw [computeFrustumPlanes_true, List.getElem?_map, hraw]
    simp [normalizePlane, normalLength, h0]
  refine ⟨h5, ?_⟩
  intro hall
  obtain ⟨q, hq, _⟩ := hall none (List.getElem?_mem h5)
  cases hq

/-- With `normalize` set, every extracted plane is normalized in the field. -/
theorem computeFrustumPlanesK_true {K : Type} [Field K] [DecidableEq K] (sqrt : K → K)
    (mat : Mat4) :
    computeFrustumPlanesK sqrt mat true =
      (frustumPlanesRaw mat).map (fun p => normalizePlaneK sqrt p.toK) := by
  simp [computeFrustumPlanesK]

/-- Over the rationals the normalization in the field is the normalization of
the rational embedding. -/
theorem computeFrustumPlanesK_rat (sqrt : ℚ → ℚ) (mat : Mat4) (normalize : Bool) :
    computeFrustumPlanesK sqrt mat normalize =
      (computeFrustumPlanes sqrt mat normalize).map (Option.map Vec4.toK) := by
  unfold computeFrustumPlanesK computeFrustumPlanes
  rw [List.map_map]
  apply List.map_congr_left
  intro p _
  cases normalize with
  | false => simp
  | true =>
    simp only [Function.comp, if_true]
    unfold normalizePlaneK normalizePlane normalLengthK normalLength
    simp only [Vec4.toK, Rat.cast_id]
    split_ifs <;> simp [Vec4.toK]

/-- The normalization, in an ordered field, of a plane whose normal is not
zero, with a square root that is exact on the squared length of the normal, is
a plane with a unit normal. -/
theorem normalizePlaneK_unit {K : Type} [LinearOrderedField K] [DecidableEq K]
    (sqrt : K → K) (p : Vec4K K)
    (hsqrt : normalLengthK sqrt p * normalLengthK sqrt p = p.x * p.x + p.y * p.y + p.z * p.z)
    (hne : p.x ≠ 0 ∨ p.y ≠ 0 ∨ p.z ≠ 0) :
    ∃ q, normalizePlaneK sqrt p = some q ∧ q.x * q.x + q.y * q.y + q.z * q.z = 1 := by
  have hpos : 0 < p.x * p.x + p.y * p.y + p.z * p.z := by
    have hx := mul_self_nonneg p.x
    have hy := mul_self_nonneg p.y
    have hz := mul_self_nonneg p.z
    rcases hne with h | h | h
    · have := mul_self_pos.mpr h
      linarith
    · have := mul_self_pos.mpr h
      linarith
    · have := mul_self_pos.mpr h
      linarith
  have hd : normalLengthK sqrt p ≠ 0 := by
    intro h
    rw [h] at hsqrt
    simp only [mul_zero] at hsqrt
    linarith
  refine ⟨⟨p.x / normalLengthK sqrt p, p.y / normalLengthK sqrt p, p.z / normalLengthK sqrt p,
    p.w / normalLengthK sqrt p⟩, ?_, ?_⟩
  · simp [normalizePlaneK, hd]
  · show p.x / normalLengthK sqrt p * (p.x / normalLengthK sqrt p) +
        p.y / normalLengthK sqrt p * (p.y / normalLengthK sqrt p) +
        p.z / normalLengthK sqrt p * (p.z / normalLengthK sqrt p) = 1
    field_simp
    linarith

/-- The real square root is exact on the squared length of every normal. -/
theorem normalLengthK_real (p : Vec4K ℝ) :
    normalLengthK Real.sqrt p * normalLengthK Real.sqrt p =
      p.x * p.x + p.y * p.y + p.z * p.z := by
  unfold normalLengthK
  exact Real.mul_self_sqrt
    (add_nonneg (add_nonneg (mul_self_nonneg _) (mul_self_nonneg _)) (mul_self_nonneg _))

/-- C15: for every matrix whose six extracted planes all have a non-zero
normal `(a, b, c)`, each of the six planes returned by
`computeFrustumPlanes(matrix, normalize = true)`, computed over the reals with
the real square root, is finite and has a unit normal: `a*a + b*b + c*c = 1`.
The same holds over the rationals for every square root function that is exact
on the six squared lengths. -/
theorem computeFrustumPlanes_unit_normals (M : Mat4)
    (hne : ∀ p ∈ frustumPlanesRaw M, p.x ≠ 0 ∨ p.y ≠ 0 ∨ p.z ≠ 0) :
    ((computeFrustumPlanesK Real.sqrt M true).length = 6 ∧
      ∀ o ∈ computeFrustumPlanesK Real.sqrt M true,
        ∃ q, o = some q ∧ q.x * q.x + q.y * q.y + q.z * q.z = 1) ∧
    (∀ sqrt : ℚ → ℚ,
      (∀ p ∈ frustumPlanesRaw M,
        normalLength sqrt p * normalLength sqrt p = p.x * p.x + p.y * p.y + p.z * p.z) →
      (computeFrustumPlanes sqrt M true).length = 6 ∧
      ∀ o ∈ computeFrustumPlanes sqrt M true,
        ∃ q, o = some q ∧ q.x * q.x + q.y * q.y + q.z * q.z = 1) := by
  refine ⟨⟨by simp [computeFrustumPlanesK, frustumPlanesRaw], ?_⟩, ?_⟩
  · intro o ho
    rw [computeFrustumPlanesK_true, List.mem_map] at ho
    obtain ⟨p, hp, rfl⟩ := ho
    refine normalizePlaneK_unit Real.sqrt p.toK (normalLengthK_real _) ?_
    rcases hne p hp with h | h | h
    · exact Or.inl (by simpa [Vec4.toK] using h)
    · exact Or.inr (Or.inl (by simpa [Vec4.toK] using h))
    · exact Or.inr (Or.inr (by simpa [Vec4.toK] using h))
  · intro sqrt hsqrt
    refine ⟨computeFrustumPlanes_length sqrt M true, ?_⟩
    intro o ho
    rw [computeFrustumPlanes_true, List.mem_map] at ho
    obtain ⟨p, hp, rfl⟩ := ho
    exact normalizePlane_unit sqrt p (hsqrt p hp) (hne p hp)

/-- The six planes extracted from `examplePerspective`. -/
theorem frustumPlanesRaw_examplePerspective :
    frustumPlanesRaw examplePerspective =
      [⟨3/4, 0, -1, 0⟩, ⟨-3/4, 0, -1, 0⟩, ⟨0, 4/3, -1, 0⟩, ⟨0, -4/3, -1, 0⟩,
       ⟨0, 0, -4, -4⟩, ⟨0, 0, 2, 4⟩] := by
  norm_num [frustumPlanesRaw, examplePerspective]

/-- The six planes extracted from `examplePerspective90`. -/
theorem frustumPlanesRaw_examplePerspective90 :
    frustumPlanesRaw examplePerspective90 =
      [⟨1, 0, -1, 0⟩, ⟨-1, 0, -1, 0⟩, ⟨0, 1, -1, 0⟩, ⟨0, -1, -1, 0⟩,
       ⟨0, 0, -4, -4⟩, ⟨0, 0, 2, 4⟩] := by
  norm_num [frustumPlanesRaw, examplePerspective90]

/-- C15 at two concrete inputs. The six planes of the 90 degree perspective
matrix `examplePerspective90` have non-zero normals; the left plane is
`(1, 0, -1, 0)`, whose normal has the squared length `2`, and is returned as
`(1 / sqrt 2, 0, -1 / sqrt 2, 0)`; the six planes returned over the reals have
unit normals. The six normals of `examplePerspective` have rational lengths,
and the six planes returned over the rationals have unit normals. -/
theorem computeFrustumPlanes_unit_normals_witness :
    ((∀ p ∈ frustumPlanesRaw examplePerspective90, p.x ≠ 0 ∨ p.y ≠ 0 ∨ p.z ≠ 0) ∧
      (frustumPlanesRaw examplePerspective90)[0]? = some ⟨1, 0, -1, 0⟩ ∧
      (computeFrustumPlanesK Real.sqrt examplePerspective90 true)[0]? =
        some (some ⟨1 / Real.sqrt 2, 0, -1 / Real.sqrt 2, 0⟩) ∧
      (computeFrustumPlanesK Real.sqrt examplePerspective90 true).length = 6 ∧
      ∀ o ∈ computeFrustumPlanesK Real.sqrt examplePerspective90 true,
        ∃ q, o = some q ∧ q.x * q.x + q.y * q.y + q.z * q.z = 1) ∧
    ((computeFrustumPlanes ratSqrt examplePerspective true).length = 6 ∧
      ∀ o ∈ computeFrustumPlanes ratSqrt examplePerspective true,
        ∃ q, o = some q ∧ q.x * q.x + q.y * q.y + q.z * q.z = 1) := by
  refine ⟨?_, (computeFrustumPlanes_unit_normals examplePerspective
    (by
      intro p hp
      rw [frustumPlanesRaw_examplePerspective] at hp
      simp only [List.mem_cons, List.mem_singleton, List.not_mem_nil, or_false] at hp
      rcases hp with rfl | rfl | rfl | rfl | rfl | rfl <;> norm_num)).2 ratSqrt
    (by
      intro p hp
      rw [frustumPlanesRaw_examplePerspective] at hp
      simp only [List.mem_cons, List.mem_singleton, List.not_mem_nil, or_false] at hp
      rcases hp with rfl | rfl | rfl | rfl | rfl | rfl <;>
        norm_num [normalLength, ratSqrt_25_16, ratSqrt_25_9, ratSqrt_16, ratSqrt_4])⟩
  have hne : ∀ p ∈ frustumPlanesRaw examplePerspective90, p.x ≠ 0 ∨ p.y ≠ 0 ∨ p.z ≠ 0 := by
    intro p hp
    rw [frustumPlanesRaw_examplePerspective90] at hp
    simp only [List.mem_cons, List.mem_singleton, List.not_mem_nil, or_false] at hp
    rcases hp with rfl | rfl | rfl | rfl | rfl | rfl <;> norm_num
  have h := (computeFrustumPlanes_unit_normals examplePerspective90 hne).1
  refine ⟨hne, by rw [frustumPlanesRaw_examplePerspective90]; rfl, ?_, h.1, h.2⟩
  rw [computeFrustumPlanesK_true, frustumPlanesRaw_examplePerspective90]
  have h2 : Real.sqrt 2 ≠ 0 := by
    rw [Ne, Real.sqrt_eq_zero']
    norm_num
  have hs : (1 : ℝ) + 1 = 2 := by norm_num
  simp [normalizePlaneK, normalLengthK, Vec4.toK, hs, h2]

/-- C20, counterexample: for the zero matrix all six extracted planes have the
normal `(0, 0, 0)`, and `computeFrustumPlanes(matrix, true)` still returns six
planes, each the outcome of the division by `d = 0`: none is finite and none
is left out. -/
theorem computeFrustumPlanes_zero_matrix :
    frustumPlanesRaw Mat4.zero = List.replicate 6 ⟨0, 0, 0, 0⟩ ∧
    (∀ sqrt : ℚ → ℚ, sqrt 0 = 0 →
      computeFrustumPlanes sqrt Mat4.zero true = List.replicate 6 none) := by
  have hraw : frustumPlanesRaw Mat4.zero = List.replicate 6 ⟨0, 0, 0, 0⟩ := by
    norm_num [frustumPlanesRaw, Mat4.zero, List.replicate]
  refine ⟨hraw, ?_⟩
  intro sqrt h0
  rw [computeFrustumPlanes_true, hraw]
  simp [normalizePlane, normalLength, h0, List.replicate]

/-- C20: `computeFrustumPlanes` with `normalize = true` divides every one of
the six extracted planes by the length `d` of its normal with no test on `d`:
it always returns six entries, the normalizations of the six extracted planes
in order; an entry is the plane divided by `d` when `d ≠ 0` and is not finite,
the outcome of the division by zero, when `d = 0`; with an exact square root
`d = 0` holds exactly for the zero normal `(a, b, c) = (0, 0, 0)`. -/
theorem computeFrustumPlanes_divides_unguarded (sqrt : ℚ → ℚ) (M : Mat4) :
    (computeFrustumPlanes sqrt M true).length = 6 ∧
    computeFrustumPlanes sqrt M true = (frustumPlanesRaw M).map (normalizePlane sqrt) ∧
    (∀ p : Vec4, normalLength sqrt p ≠ 0 →
      normalizePlane sqrt p =
        some ⟨p.x / normalLength sqrt p, p.y / normalLength sqrt p,
          p.z / normalLength sqrt p, p.w / normalLength sqrt p⟩) ∧
    (∀ p : Vec4, normalLength sqrt p = 0 → normalizePlane sqrt p = none) ∧
    (∀ p : Vec4,
      normalLength sqrt p * normalLength sqrt p = p.x * p.x + p.y * p.y + p.z * p.z →
      (normalizePlane sqrt p = none ↔ p.x = 0 ∧ p.y = 0 ∧ p.z = 0)) := by
  refine ⟨computeFrustumPlanes_length sqrt M true, computeFrustumPlanes_true sqrt M, ?_, ?_, ?_⟩
  · intro p hd
    simp [normalizePlane, hd]
  · intro p hd
    simp [normalizePlane, hd]
  · intro p hsqrt
    rw [← normalLength_eq_zero_iff sqrt p hsqrt]
    by_cases hd : normalLength sqrt p = 0 <;> simp [normalizePlane, hd]

/-- C20 at a concrete input: the six entries returned for
`exampleInfinitePerspective` are the normalizations of its six planes, the near
plane `(0, 0, -2, -2)` becomes `(0, 0, -1, -1)` and the far plane
`(0, 0, 0, 2)`, whose normal is zero, is not finite. -/
theorem computeFrustumPlanes_divides_unguarded_witness :
    (computeFrustumPlanes ratSqrt exampleInfinitePerspective true).length = 6 ∧
    normalizePlane ratSqrt ⟨0, 0, -2, -2⟩ = some ⟨0, 0, -1, -1⟩ ∧
    normalizePlane ratSqrt ⟨0, 0, 0, 2⟩ = none := by
  have h := computeFrustumPlanes_divides_unguarded ratSqrt exampleInfinitePerspective
  refine ⟨h.1, ?_, ?_⟩
  · rw [h.2.2.1 ⟨0, 0, -2, -2⟩ (by norm_num [normalLength, ratSqrt_4])]
    norm_num [normalLength, ratSqrt_4]
  · exact h.2.2.2.1 ⟨0, 0, 0, 2⟩ (by norm_num [normalLength, ratSqrt_zero])

/-! ### Non-finite picks -/

/-- C16, failing input: a double tap at the centre of the screen outside the
cropping mode, with the depth sample `1` and the inverse of the
infinite-far-plane projection. The point before the divide is `(0, 0, -1, 0)`:
`w` is `0`, the recovered coordinates are not finite, and the pick does not
stop: the code passes the point to `SetAnchorOffset`, a value the model has no
state for (`none`). In the cropping mode the tap at the right edge recovers
`(1, 0, -1, 0)` on a region that is open, whose `x` is infinite and not NaN,
and the code goes on to `addMarker2`, which stores the pose; only a NaN
`point.x` in the cropping mode is stopped. -/
theorem renderPick_nonfinite_propagates :
    pickClip exampleFrameFar exampleTapFollow = ⟨0, 0, -1, 0⟩ ∧
    homogeneousDivide (pickClip exampleFrameFar exampleTapFollow) = Recovered.nanX ∧
    renderPick exampleFrameFar exampleTapFollow = none ∧
    (∀ ppt, Render ppt exampleFrameFar exampleTapFollow = none) ∧
    pickClip exampleFrameFar exampleTapEdge = ⟨1, 0, -1, 0⟩ ∧
    homogeneousDivide (pickClip exampleFrameFar exampleTapEdge) = Recovered.nonFinite ∧
    renderPick exampleFrameFar exampleTapEdge = none ∧
    renderPick exampleFrameFar { exampleTapFollow with croppingOn_ := true } =
      some ({ exampleTapFollow with croppingOn_ := true }, false) := by
  have hz : exampleFrameFar.zValueF ≠ 0 := by
    norm_num [Frame.zValueF, exampleFrameFar]
  have h1 : pickClip exampleFrameFar exampleTapFollow = ⟨0, 0, -1, 0⟩ := by
    norm_num [pickClip, Frame.zValueF, exampleFrameFar, exampleTapFollow, Mat4.mulVec,
      exampleInfinitePerspectiveInv]
  have h2 : pickClip exampleFrameFar exampleTapEdge = ⟨1, 0, -1, 0⟩ := by
    norm_num [pickClip, Frame.zValueF, exampleFrameFar, exampleTapEdge, Mat4.mulVec,
      exampleInfinitePerspectiveInv]
  have h3 : pickClip exampleFrameFar { exampleTapFollow with croppingOn_ := true } =
      ⟨0, 0, -1, 0⟩ := h1
  have hcam : exampleCubeScene.cameraType ≠ CameraType.kFirstPerson := by decide
  have hcam2 : exampleTapEdge.cameraType ≠ CameraType.kFirstPerson := by decide
  have hp1 : renderPick exampleFrameFar exampleTapFollow = none :=
    (renderPick_w_zero exampleFrameFar exampleTapFollow rfl hcam hz (by rw [h1])).1 rfl
  refine ⟨h1, ?_, hp1, ?_, h2, ?_, ?_, ?_⟩
  · rw [h1]; rfl
  · intro ppt
    simp [Render, hp1]
  · rw [h2]; simp [homogeneousDivide]
  · exact (renderPick_w_zero exampleFrameFar exampleTapEdge rfl hcam2 hz (by rw [h2])).2.1 rfl
      (by rw [h2]; norm_num) rfl
  · exact (renderPick_w_zero exampleFrameFar { exampleTapFollow with croppingOn_ := true } rfl
      hcam hz (by rw [h3])).2.2.1 rfl (by rw [h3])

/-! ### The closed region invariant -/

/-- The pick of a frame keeps "a closed polygon has at least 3 points". -/
theorem renderPick_closedHasThree (f : Frame) (s s1 : Scene) (b : Bool)
    (hinv : ClosedHasThree s) (h : renderPick f s = some (s1, b)) : ClosedHasThree s1 := by
  unfold renderPick at h
  split at h
  · split at h
    · cases hdiv : homogeneousDivide (pickClip f s) with
      | finite point =>
        rw [hdiv] at h
        simp only at h
        split at h
        · exact croppingPick_closedHasThree s s1 point b hinv h
        · cases h
          exact hinv
      | nanX =>
        rw [hdiv] at h
        simp only at h
        split at h
        · cases h
          exact hinv
        · simp at h
      | nonFinite =>
        rw [hdiv] at h
        simp only at h
        split at h
        · split at h
          · cases h
            exact hinv
          · simp at h
        · simp at h
    · cases h
      exact hinv
  · cases h
    exact hinv

/-- A `Render` frame keeps "a closed polygon has at least 3 points". -/
theorem Render_closedHasThree (ppt : List Vec2 → Vec2 → ℚ) (f : Frame) (s s1 : Scene)
    (hinv : ClosedHasThree s) (h : Render ppt f s = some s1) : ClosedHasThree s1 := by
  cases hpick : renderPick f s with
  | none => simp [Render, hpick] at h
  | some r =>
    obtain ⟨s2, b⟩ := r
    have h2 := renderPick_closedHasThree f s s2 b hinv hpick
    cases b with
    | true =>
      simp only [Render, hpick, Option.some.injEq] at h
      rw [← h]
      exact h2
    | false =>
      obtain ⟨pc, v, hr⟩ := Render_of_pick ppt f s s2 hpick
      rw [hr] at h
      cases h
      exact h2

/-- A call of `addMarker` that returns was given a pose that is not null. -/
theorem addMarker_pose (s s1 : Scene) (id : Int) (pose : Transform)
    (h : addMarker s id pose = some s1) : pose.isNull = false := by
  by_cases hp : pose.isNull = true
  · simp [addMarker, setMarkerPose, hp] at h
  · simpa using hp

/-- `addMarker` keeps "a closed polygon has at least 3 points": it only
appends. -/
theorem addMarker_closedHasThree (s s1 : Scene) (id : Int) (pose : Transform)
    (hinv : ClosedHasThree s) (h : addMarker s id pose = some s1) : ClosedHasThree s1 := by
  obtain ⟨m, hm⟩ := addMarker_appends s id pose (addMarker_pose s s1 id pose h)
  rw [hm] at h
  cases h
  intro hc
  have := hinv hc
  simp only [List.length_append, List.length_singleton]
  omega

/-- `addMarker2` keeps "a closed polygon has at least 3 points". -/
theorem addMarker2_closedHasThree (s s1 : Scene) (id : Int) (pose : Transform)
    (hinv : ClosedHasThree s) (h : addMarker2 s id pose = some s1) : ClosedHasThree s1 := by
  by_cases hc : s.polygonClosed_ = true
  · rw [addMarker2_closed s id pose hc] at h
    cases h
    exact hinv
  · have ho : s.polygonClosed_ = false := by simpa using hc
    by_cases hp : pose.isNull = true
    · unfold addMarker2 at h
      rw [if_neg (by simp [ho])] at h
      simp [setMarkerPose, hp] at h
    · obtain ⟨m, hm⟩ := addMarker2_open s id pose ho (by simpa using hp)
      rw [hm] at h
      cases h
      intro hclosed
      simp only at hclosed
      rw [ho] at hclosed
      exact absurd hclosed (by simp)

/-- `removeMarker` leaves the region and the closed flag. -/
theorem removeMarker_region (s : Scene) (id : Int) :
    (removeMarker s id).markerPoses_ = s.markerPoses_ ∧
    (removeMarker s id).markerOrder_ = s.markerOrder_ ∧
    (removeMarker s id).polygonClosed_ = s.polygonClosed_ := by
  unfold removeMarker
  split <;> exact ⟨rfl, rfl, rfl⟩

/-- `OnTouchEvent` leaves the region and the closed flag. -/
theorem OnTouchEvent_region (s : Scene) (touch_count : Nat) (event : Int) (x0 y0 : ℚ) :
    (OnTouchEvent s touch_count event x0 y0).markerPoses_ = s.markerPoses_ ∧
    (OnTouchEvent s touch_count event x0 y0).markerOrder_ = s.markerOrder_ ∧
    (OnTouchEvent s touch_count event x0 y0).polygonClosed_ = s.polygonClosed_ := by
  unfold OnTouchEvent
  split
  · split <;> exact ⟨rfl, rfl, rfl⟩
  · exact ⟨rfl, rfl, rfl⟩

/-- The closed region `exampleClosed` is reached from a new scene by four
picks, the last of which closes the polygon. -/
theorem exampleClosed_reachable : RegionReachable exampleClosed := by
  have h1 : RegionReachable exampleOnePoint :=
    RegionReachable.byPick Scene.init exampleOnePoint ⟨0, 0, 0⟩ false
      (RegionReachable.init 1) rfl
  have h2 : RegionReachable exampleTwoPoints :=
    RegionReachable.byPick exampleOnePoint exampleTwoPoints ⟨1, 0, 0⟩ false h1 rfl
  have h3 : RegionReachable exampleTriangle :=
    RegionReachable.byPick exampleTwoPoints exampleTriangle ⟨1, 1, 0⟩ false h2 rfl
  have hc : closesPolygon exampleTriangle ⟨1/8, 0, 1/8⟩ = true := by
    rw [closesPolygon_iff]
    exact ⟨by decide, Transform.ofXYZ 0 0 0, rfl, distSq_eighth_lt⟩
  exact RegionReachable.byPick exampleTriangle exampleClosed ⟨1/8, 0, 1/8⟩ true h3
    (croppingPick_of_closes exampleTriangle ⟨1/8, 0, 1/8⟩ hc)

/-- C17: in every state reachable from a newly constructed `Scene` by any
sequence of pick steps, `Render` frames, touch events, `addMarker`,
`addMarker2`, `removeMarker`, `removeMarkerAll` and `clear`,
`polygonClosed_ == true` implies that the region has at least 3 points
(`markerPoses_.size() >= 3`). -/
theorem closed_region_has_three (s : Scene) (h : RegionReachable s)
    (hc : s.polygonClosed_ = true) : 3 ≤ s.markerPoses_.length := by
  have hinv : ClosedHasThree s := by
    clear hc
    induction h with
    | init counter =>
      intro hc
      simp [Scene.initAt, Scene.init] at hc
    | byOtherScene s _ ih => exact ih
    | byPick s s1 point b _ hp ih => exact croppingPick_closedHasThree s s1 point b ih hp
    | byRender ppt f s s1 _ hr ih => exact Render_closedHasThree ppt f s s1 ih hr
    | byTouch s touch_count event x0 y0 _ ih =>
      obtain ⟨h1, _, h3⟩ := OnTouchEvent_region s touch_count event x0 y0
      intro hc
      rw [h1]
      rw [h3] at hc
      exact ih hc
    | byAddMarker s s1 id pose _ ha ih => exact addMarker_closedHasThree s s1 id pose ih ha
    | byAddMarker2 s s1 id pose _ ha ih => exact addMarker2_closedHasThree s s1 id pose ih ha
    | byRemoveMarker s id _ ih =>
      obtain ⟨h1, _, h3⟩ := removeMarker_region s id
      intro hc
      rw [h1]
      rw [h3] at hc
      exact ih hc
    | byRemoveMarkerAll ppt f s s1 _ hr _ =>
      intro hc
      rw [(removeMarkerAll_open ppt f s s1 hr).1] at hc
      exact absurd hc (by simp)
    | byClear s _ ih => exact ih
  exact hinv hc

/-- C17 at a concrete input: the state reached by adding the point `(5,5,5)`
with `addMarker` to the closed region `exampleClosed` is closed and has 4
points. -/
theorem closed_region_has_three_witness :
    RegionReachable exampleClosed ∧
    ∃ s1, addMarker exampleClosed 9 (Transform.ofXYZ 5 5 5) = some s1 ∧
      RegionReachable s1 ∧ s1.polygonClosed_ = true ∧ 3 ≤ s1.markerPoses_.length := by
  obtain ⟨m, hm⟩ := addMarker_appends exampleClosed 9 (Transform.ofXYZ 5 5 5)
    (ofXYZ_not_null 5 5 5)
  have hr := RegionReachable.byAddMarker exampleClosed _ 9 (Transform.ofXYZ 5 5 5)
    exampleClosed_reachable hm
  exact ⟨exampleClosed_reachable, _, hm, hr, rfl, closed_region_has_three _ hr rfl⟩

/-! ### The mesh-to-scene transform -/

/-- The three cases of the mesh-to-scene transform, and the case of an owner
pose without a mesh pose. -/
theorem sceneTransform_cases (ownerPose meshPose : Transform) :
    (ownerPose.isNull = false → meshPose.isNull = false →
      sceneTransform ownerPose meshPose = ownerPose.mul meshPose) ∧
    (ownerPose.isNull = true → meshPose.isNull = false →
      sceneTransform ownerPose meshPose = meshPose) ∧
    (ownerPose.isNull = true → meshPose.isNull = true →
      sceneTransform ownerPose meshPose = Transform.getIdentity) ∧
    (ownerPose.isNull = false → meshPose.isNull = true →
      sceneTransform ownerPose meshPose = Transform.getIdentity) := by
  unfold sceneTransform
  refine ⟨?_, ?_, ?_, ?_⟩ <;> intro h1 h2 <;> rw [h1, h2]

/-- C18: `filterMeshInsidePolygon` and `calculateMeshVolume` use the same
mesh-to-scene transform `T` for every owner pose and mesh pose: the faces kept
by the filter are those whose vertices pass the test after `T`, the vertices
of the volume loop are the mesh vertices after `T`, and `T` is
`ownerPose * mesh.pose` when both poses are present, `mesh.pose` alone when the
owner pose is absent, and the identity when both are absent (and also when only
the mesh pose is absent). -/
theorem meshToScene_shared (ppt : List Vec2 → Vec2 → ℚ) (polygon2D : List Transform)
    (s : Scene) (meshId : Int) (drawable : PointCloudDrawable) (mesh : Mesh)
    (hregion : 3 ≤ polygon2D.length) (hcloud : mesh.cloud ≠ [])
    (hfind : mapFind s.pointClouds_ meshId = some drawable)
    (hmesh : drawable.mesh = some mesh) :
    ∃ T : Transform,
      (drawable.pose.isNull = false → mesh.pose.isNull = false →
        T = drawable.pose.mul mesh.pose) ∧
      (drawable.pose.isNull = true → mesh.pose.isNull = false → T = mesh.pose) ∧
      (drawable.pose.isNull = true → mesh.pose.isNull = true → T = Transform.getIdentity) ∧
      (drawable.pose.isNull = false → mesh.pose.isNull = true → T = Transform.getIdentity) ∧
      filterMeshInsidePolygon ppt polygon2D mesh drawable.pose =
        { mesh with polygons :=
            mesh.polygons.filter (faceInside ppt (regionPolygon polygon2D) mesh.cloud T) } ∧
      (calculateMeshVolume s meshId).1 =
        if mesh.polygons.isEmpty then 0
        else volumeLoop (mesh.cloud.map (fun ptLocal =>
            (⟨(transformPoint ptLocal T).x, (transformPoint ptLocal T).y,
              (transformPoint ptLocal T).z⟩ : Vec3)))
          (regionMean s.markerPoses_) mesh.polygons 0 := by
  obtain ⟨h1, h2, h3, h4⟩ := sceneTransform_cases drawable.pose mesh.pose
  exact ⟨sceneTransform drawable.pose mesh.pose, h1, h2, h3, h4,
    filterMeshInsidePolygon_polygons ppt polygon2D mesh drawable.pose hregion hcloud,
    calculateMeshVolume_fst s meshId drawable mesh hfind hmesh⟩

/-- C18 at a concrete input: the unit cube of `exampleCubeScene` and the region
`exampleSquare`. -/
theorem meshToScene_shared_witness :
    3 ≤ exampleSquare.length ∧ unitCube.cloud ≠ [] ∧
    mapFind exampleCubeScene.pointClouds_ 7 = some (PointCloudDrawable.ofMesh unitCube) ∧
    ∃ T : Transform,
      ((PointCloudDrawable.ofMesh unitCube).pose.isNull = false → unitCube.pose.isNull = false →
        T = (PointCloudDrawable.ofMesh unitCube).pose.mul unitCube.pose) ∧
      ((PointCloudDrawable.ofMesh unitCube).pose.isNull = true → unitCube.pose.isNull = false →
        T = unitCube.pose) ∧
      ((PointCloudDrawable.ofMesh unitCube).pose.isNull = true → unitCube.pose.isNull = true →
        T = Transform.getIdentity) ∧
      ((PointCloudDrawable.ofMesh unitCube).pose.isNull = false → unitCube.pose.isNull = true →
        T = Transform.getIdentity) ∧
      filterMeshInsidePolygon exampleTest exampleSquare unitCube
          (PointCloudDrawable.ofMesh unitCube).pose =
        { unitCube with polygons :=
            (unitCube.polygons.filter
              (faceInside exampleTest (regionPolygon exampleSquare) unitCube.cloud T)) } ∧
      (calculateMeshVolume exampleCubeScene 7).1 =
        if unitCube.polygons.isEmpty then 0
        else volumeLoop (unitCube.cloud.map (fun ptLocal =>
            (⟨(transformPoint ptLocal T).x, (transformPoint ptLocal T).y,
              (transformPoint ptLocal T).z⟩ : Vec3)))
          (regionMean exampleCubeScene.markerPoses_) unitCube.polygons 0 :=
  ⟨by decide, by simp [unitCube], rfl,
    meshToScene_shared exampleTest exampleSquare exampleCubeScene 7
      (PointCloudDrawable.ofMesh unitCube) unitCube (by decide) (by simp [unitCube]) rfl rfl⟩

/-! ### Out-of-range face indices in the volume -/

/-- The face loop handles the first face, then the others. -/
theorem volumeLoop_cons (sceneVertices : List Vec3) (c : Vec3) (polygon : Vertices)
    (rest : List Vertices) (acc : ℚ) :
    volumeLoop sceneVertices c (polygon :: rest) acc =
      volumeLoop sceneVertices c rest (volumeLoop sceneVertices c [polygon] acc) := by
  simp only [volumeLoop]
  split
  · rfl
  · split <;> rfl

/-- The face loop over two lists of faces, one after the other. -/
theorem volumeLoop_append (sceneVertices : List Vec3) (c : Vec3) (l1 l2 : List Vertices)
    (acc : ℚ) :
    volumeLoop sceneVertices c (l1 ++ l2) acc =
      volumeLoop sceneVertices c l2 (volumeLoop sceneVertices c l1 acc) := by
  induction l1 generalizing acc with
  | nil => simp [volumeLoop]
  | cons polygon rest ih =>
    rw [List.cons_append, volumeLoop_cons, ih, volumeLoop_cons sceneVertices c polygon rest]

/-- A fan triangle with an index out of range is skipped. -/
theorem fanLoop_skip (sceneVertices : List Vec3) (c : Vec3) (i0 i1 i2 : Int)
    (more : List Int) (acc : ℚ)
    (hbad : i0 < 0 ∨ i1 < 0 ∨ i2 < 0 ∨ i0 ≥ (sceneVertices.length : Int) ∨
      i1 ≥ (sceneVertices.length : Int) ∨ i2 ≥ (sceneVertices.length : Int)) :
    fanLoop sceneVertices c i0 (i1 :: i2 :: more) acc =
      fanLoop sceneVertices c i0 (i2 :: more) acc := by
  rw [fanLoop, if_pos hbad]

/-- A fan triangle whose indices are in range adds its tetrahedron. -/
theorem fanLoop_step (sceneVertices : List Vec3) (c : Vec3) (i0 i1 i2 : Int)
    (more : List Int) (acc : ℚ)
    (hok : ¬ (i0 < 0 ∨ i1 < 0 ∨ i2 < 0 ∨ i0 ≥ (sceneVertices.length : Int) ∨
      i1 ≥ (sceneVertices.length : Int) ∨ i2 ≥ (sceneVertices.length : Int))) :
    fanLoop sceneVertices c i0 (i1 :: i2 :: more) acc =
      fanLoop sceneVertices c i0 (i2 :: more)
        (acc + tetraVolume c (sceneVertices.getD i0.toNat ⟨0, 0, 0⟩)
          (sceneVertices.getD i1.toNat ⟨0, 0, 0⟩) (sceneVertices.getD i2.toNat ⟨0, 0, 0⟩)) := by
  rw [fanLoop, if_neg hok]
  simp only [tetraVolume_eq, abs_div, abs_of_pos (show (0 : ℚ) < 6 by norm_num)]

/-- A face whose first index is out of range adds nothing. -/
theorem fanLoop_bad_first (sceneVertices : List Vec3) (c : Vec3) (i0 : Int)
    (rest : List Int) (acc : ℚ)
    (hbad : i0 < 0 ∨ i0 ≥ (sceneVertices.length : Int)) :
    fanLoop sceneVertices c i0 rest acc = acc := by
  induction rest with
  | nil => simp [fanLoop]
  | cons a more ih =>
    cases more with
    | nil => simp [fanLoop]
    | cons b more2 =>
      rw [fanLoop_skip sceneVertices c i0 a b more2 acc (by omega)]
      exact ih

/-- The faces that the volume loop skips as a whole: the first index is out of
range, or the face has at most 3 indices, one of them out of range. -/
theorem volumeLoop_single_skip (sceneVertices : List Vec3) (c : Vec3) (face : Vertices)
    (acc : ℚ)
    (hbad : (∃ i0 tail, face.vertices = i0 :: tail ∧
        (i0 < 0 ∨ i0 ≥ (sceneVertices.length : Int))) ∨
      (face.vertices.length ≤ 3 ∧
        ∃ idx ∈ face.vertices, idx < 0 ∨ idx ≥ (sceneVertices.length : Int))) :
    volumeLoop sceneVertices c [face] acc = acc := by
  simp only [volumeLoop]
  split
  · rfl
  · rename_i hlen
    rcases hbad with ⟨i0, tail, hv, h0⟩ | ⟨hle, idx, hidx, hout⟩
    · rw [hv]
      simp only
      rw [fanLoop_bad_first sceneVertices c i0 tail acc h0]
    · obtain ⟨vs⟩ := face
      simp only at hlen hle hidx ⊢
      match vs, hlen, hle, hidx with
      | [i0, i1, i2], _, _, hidx =>
        simp only
        rw [fanLoop_skip sceneVertices c i0 i1 i2 [] acc (by
          simp only [List.mem_cons, List.mem_singleton, List.not_mem_nil, or_false] at hidx
          rcases hidx with rfl | rfl | rfl <;> omega)]
        simp [fanLoop]
      | [], hlen, _, _ => simp at hlen
      | [_], hlen, _, _ => simp at hlen
      | [_, _], hlen, _, _ => simp at hlen
      | _ :: _ :: _ :: _ :: _, _, hle, _ => simp at hle

/-- A face that the volume loop skips as a whole can be left out of the
mesh. -/
theorem volumeLoop_skip_face (sceneVertices : List Vec3) (c : Vec3) (face : Vertices)
    (pre post : List Vertices) (acc : ℚ)
    (hbad : (∃ i0 tail, face.vertices = i0 :: tail ∧
        (i0 < 0 ∨ i0 ≥ (sceneVertices.length : Int))) ∨
      (face.vertices.length ≤ 3 ∧
        ∃ idx ∈ face.vertices, idx < 0 ∨ idx ≥ (sceneVertices.length : Int))) :
    volumeLoop sceneVertices c (pre ++ face :: post) acc =
      volumeLoop sceneVertices c (pre ++ post) acc := by
  rw [volumeLoop_append, volumeLoop_cons, volumeLoop_single_skip sceneVertices c face _ hbad,
    ← volumeLoop_append]

/-- C19, counterexample: the face `[0, 1, 3, 99]` on the vertices of the unit
cube has the out-of-range index `99`, and `calculateMeshVolume` returns `1/12`
for it, not `0`: the fan triangle `(0, 1, 3)` is counted and only the triangle
`(0, 3, 99)` is skipped. -/
theorem calculateMeshVolume_counts_partial_face :
    exampleBadFaceMesh.polygons = [⟨[0, 1, 3, 99]⟩] ∧
    exampleBadFaceMesh.cloud.length = 8 ∧
    (calculateMeshVolume exampleBadFaceScene 7).1 = 1 / 12 := by
  refine ⟨rfl, rfl, ?_⟩
  rw [calculateMeshVolume_fst exampleBadFaceScene 7
    (PointCloudDrawable.ofMesh exampleBadFaceMesh) exampleBadFaceMesh rfl rfl]
  have hm : regionMean exampleBadFaceScene.markerPoses_ = ⟨1/2, 1/2, 1/2⟩ :=
    regionMean_exampleSquare
  have ht : sceneTransform (PointCloudDrawable.ofMesh exampleBadFaceMesh).pose
      exampleBadFaceMesh.pose = Transform.getIdentity := sceneTransform_identity
  rw [hm, ht]
  simp only [transformPoint_identity]
  simp [exampleBadFaceMesh, unitCube, volumeLoop, fanLoop, Vec3.sub, Vec3.cross, Vec3.dot]
  norm_num [abs_of_neg, abs_of_pos]

/-- C19: `calculateMeshVolume` tests the indices triangle by triangle. A fan
triangle `(i0, i1, i2)` with an out-of-range index (negative or not below the
vertex count) is skipped and adds nothing; any other adds its tetrahedron.
Hence a face whose first index is out of range, and a face of at most 3
indices with any index out of range, is skipped as a whole: the returned
volume is that of the mesh without the face, whatever the other vertices of
the face are. The computation returns a value that is not negative. -/
theorem calculateMeshVolume_skips_triangles (s : Scene) (meshId : Int)
    (drawable : PointCloudDrawable) (mesh : Mesh) (pre post : List Vertices) (face : Vertices)
    (hfind : mapFind s.pointClouds_ meshId = some drawable)
    (hmesh : drawable.mesh = some mesh)
    (hpoly : mesh.polygons = pre ++ face :: post)
    (hbad : (∃ i0 tail, face.vertices = i0 :: tail ∧
        (i0 < 0 ∨ i0 ≥ (mesh.cloud.length : Int))) ∨
      (face.vertices.length ≤ 3 ∧
        ∃ idx ∈ face.vertices, idx < 0 ∨ idx ≥ (mesh.cloud.length : Int))) :
    (calculateMeshVolume s meshId).1 =
      volumeLoop (mesh.cloud.map (fun ptLocal =>
          (⟨(transformPoint ptLocal (sceneTransform drawable.pose mesh.pose)).x,
            (transformPoint ptLocal (sceneTransform drawable.pose mesh.pose)).y,
            (transformPoint ptLocal (sceneTransform drawable.pose mesh.pose)).z⟩ : Vec3)))
        (regionMean s.markerPoses_) (pre ++ post) 0 ∧
    0 ≤ (calculateMeshVolume s meshId).1 ∧
    (∀ (sceneVertices : List Vec3) (c : Vec3) (i0 i1 i2 : Int) (more : List Int) (acc : ℚ),
      (i0 < 0 ∨ i1 < 0 ∨ i2 < 0 ∨ i0 ≥ (sceneVertices.length : Int) ∨
        i1 ≥ (sceneVertices.length : Int) ∨ i2 ≥ (sceneVertices.length : Int)) →
      fanLoop sceneVertices c i0 (i1 :: i2 :: more) acc =
        fanLoop sceneVertices c i0 (i2 :: more) acc) ∧
    (∀ (sceneVertices : List Vec3) (c : Vec3) (i0 i1 i2 : Int) (more : List Int) (acc : ℚ),
      ¬ (i0 < 0 ∨ i1 < 0 ∨ i2 < 0 ∨ i0 ≥ (sceneVertices.length : Int) ∨
        i1 ≥ (sceneVertices.length : Int) ∨ i2 ≥ (sceneVertices.length : Int)) →
      fanLoop sceneVertices c i0 (i1 :: i2 :: more) acc =
        fanLoop sceneVertices c i0 (i2 :: more)
          (acc + tetraVolume c (sceneVertices.getD i0.toNat ⟨0, 0, 0⟩)
            (sceneVertices.getD i1.toNat ⟨0, 0, 0⟩)
            (sceneVertices.getD i2.toNat ⟨0, 0, 0⟩))) := by
  have hfst := calculateMeshVolume_fst s meshId drawable mesh hfind hmesh
  have hne : mesh.polygons.isEmpty = false := by
    rw [hpoly]
    cases pre <;> rfl
  rw [hne] at hfst
  simp only [Bool.false_eq_true, if_false] at hfst
  refine ⟨?_, ?_, fun sv c i0 i1 i2 more acc h => fanLoop_skip sv c i0 i1 i2 more acc h,
    fun sv c i0 i1 i2 more acc h => fanLoop_step sv c i0 i1 i2 more acc h⟩
  · rw [hfst, hpoly]
    exact volumeLoop_skip_face _ _ face pre post 0 (by simpa using hbad)
  · rw [hfst]
    exact volumeLoop_ge _ _ _ 0

/-- C19 at a concrete input: of the two triangles of `exampleBadTriangleMesh`
the second, `(0, 3, 99)`, is skipped, and the volume is that of the first. -/
theorem calculateMeshVolume_skips_triangles_witness :
    exampleBadTriangleMesh.polygons = [⟨[0, 1, 3]⟩] ++ ⟨[0, 3, 99]⟩ :: [] ∧
    (calculateMeshVolume exampleBadTriangleScene 7).1 =
      volumeLoop (exampleBadTriangleMesh.cloud.map (fun ptLocal =>
          (⟨(transformPoint ptLocal (sceneTransform
              (PointCloudDrawable.ofMesh exampleBadTriangleMesh).pose
              exampleBadTriangleMesh.pose)).x,
            (transformPoint ptLocal (sceneTransform
              (PointCloudDrawable.ofMesh exampleBadTriangleMesh).pose
              exampleBadTriangleMesh.pose)).y,
            (transformPoint ptLocal (sceneTransform
              (PointCloudDrawable.ofMesh exampleBadTriangleMesh).pose
              exampleBadTriangleMesh.pose)).z⟩ : Vec3)))
        (regionMean exampleBadTriangleScene.markerPoses_) ([⟨[0, 1, 3]⟩] ++ []) 0 :=
  ⟨rfl,
    (calculateMeshVolume_skips_triangles exampleBadTriangleScene 7
      (PointCloudDrawable.ofMesh exampleBadTriangleMesh) exampleBadTriangleMesh
      [⟨[0, 1, 3]⟩] [] ⟨[0, 3, 99]⟩ rfl rfl rfl
      (Or.inr ⟨by decide, 99, by simp, Or.inr (by decide)⟩)).1⟩

/-! ### Face winding -/

/-- Filtering a mesh that was filtered already, with the same region and owner
pose, changes nothing. -/
theorem filterMeshInsidePolygon_twice (ppt : List Vec2 → Vec2 → ℚ)
    (polygon2D : List Transform) (mesh : Mesh) (drawablePose : Transform) :
    filterMeshInsidePolygon ppt polygon2D
        (filterMeshInsidePolygon ppt polygon2D mesh drawablePose) drawablePose =
      filterMeshInsidePolygon ppt polygon2D mesh drawablePose := by
  by_cases hearly : polygon2D.length < 3 ∨ mesh.cloud.isEmpty = true
  · have h1 : filterMeshInsidePolygon ppt polygon2D mesh drawablePose = mesh := by
      unfold filterMeshInsidePolygon
      rw [if_pos hearly]
    rw [h1, h1]
  · have hregion : 3 ≤ polygon2D.length := by
      by_contra h
      exact hearly (Or.inl (by omega))
    have hcloud : mesh.cloud ≠ [] := by
      intro h
      exact hearly (Or.inr (by simp [h]))
    rw [filterMeshInsidePolygon_polygons ppt polygon2D mesh drawablePose hregion hcloud]
    have h2 := filterMeshInsidePolygon_polygons ppt polygon2D
      { mesh with polygons := (mesh.polygons.filter
          (faceInside ppt (regionPolygon polygon2D) mesh.cloud
            (sceneTransform drawablePose mesh.pose))) }
      drawablePose hregion hcloud
    simp only at h2
    rw [h2]
    simp only [List.filter_filter, Bool.and_self]

/-- What the filter loop of a frame does to an entry, done twice, is what it
does once. -/
theorem filterEntry_twice (ppt : List Vec2 → Vec2 → ℚ) (polygon2D : List Transform)
    (e : Int × PointCloudDrawable) :
    filterEntry ppt polygon2D (filterEntry ppt polygon2D e) = filterEntry ppt polygon2D e := by
  obtain ⟨id, d⟩ := e
  cases hmesh : d.mesh with
  | none =>
    have h1 : filterEntry ppt polygon2D (id, d) = (id, d) := by
      simp [filterEntry, hmesh]
    rw [h1, h1]
  | some mesh =>
    have h1 : filterEntry ppt polygon2D (id, d) =
        (id, d.updateMesh (filterMeshInsidePolygon ppt polygon2D mesh d.pose)) := by
      simp [filterEntry, hmesh]
    rw [h1]
    simp only [filterEntry, PointCloudDrawable.updateMesh, filterMeshInsidePolygon_twice]

/-- A frame that takes no pick: the state it returns. -/
theorem Render_idle (ppt : List Vec2 → Vec2 → ℚ) (f : Frame) (s s1 : Scene)
    (htap : s.doubleTapOn_ = false) (h : Render ppt f s = some s1) :
    s1.doubleTapOn_ = false ∧ s1.polygonClosed_ = s.polygonClosed_ ∧
    s1.markerPoses_ = s.markerPoses_ ∧
    s1.pointClouds_ =
      if s.polygonClosed_ = true ∧ 3 ≤ s.markerPoses_.length then
        s.pointClouds_.map (filterEntry ppt s.markerPoses_)
      else s.pointClouds_ := by
  unfold Render at h
  rw [renderPick_idle f s (Or.inl htap)] at h
  simp only at h
  split at h
  · rename_i hcond
    obtain ⟨v, hv⟩ := renderFilterLoop_eq ppt s.markerPoses_ [] s.pointClouds_
      { s with doubleTapOn_ := false } (by simp)
    rw [hv] at h
    cases h
    have hc : s.polygonClosed_ = true ∧ 3 ≤ s.markerPoses_.length := by
      simpa using hcond
    simp [hc]
  · rename_i hcond
    cases h
    have hc : ¬ (s.polygonClosed_ = true ∧ 3 ≤ s.markerPoses_.length) := by
      simpa using hcond
    refine ⟨rfl, rfl, rfl, ?_⟩
    rw [if_neg hc]

/-- C22: `filterMeshInsidePolygon` is idempotent: for every region, mesh and
owner pose, filtering the already-filtered mesh again with the same region and
owner pose returns the same mesh as filtering once. Hence the step of the
filter loop of `Render` on one entry is idempotent, and of two frames in a row
that take no pick the second leaves the geometry store as the first left it:
the displayed meshes do not keep shrinking. -/
theorem filterMeshInsidePolygon_idempotent (ppt : List Vec2 → Vec2 → ℚ)
    (polygon2D : List Transform) (mesh : Mesh) (drawablePose : Transform) :
    filterMeshInsidePolygon ppt polygon2D
        (filterMeshInsidePolygon ppt polygon2D mesh drawablePose) drawablePose =
      filterMeshInsidePolygon ppt polygon2D mesh drawablePose ∧
    (∀ e : Int × PointCloudDrawable,
      filterEntry ppt polygon2D (filterEntry ppt polygon2D e) = filterEntry ppt polygon2D e) ∧
    (∀ (f1 f2 : Frame) (s s1 s2 : Scene), s.doubleTapOn_ = false →
      Render ppt f1 s = some s1 → Render ppt f2 s1 = some s2 →
      s2.pointClouds_ = s1.pointClouds_) := by
  refine ⟨filterMeshInsidePolygon_twice ppt polygon2D mesh drawablePose,
    filterEntry_twice ppt polygon2D, ?_⟩
  intro f1 f2 s s1 s2 htap h1 h2
  obtain ⟨ht1, hc1, hp1, hpc1⟩ := Render_idle ppt f1 s s1 htap h1
  obtain ⟨_, _, _, hpc2⟩ := Render_idle ppt f2 s1 s2 ht1 h2
  rw [hpc2, hc1, hp1]
  split
  · rename_i hcond
    rw [hpc1, if_pos hcond, List.map_map]
    apply List.map_congr_left
    intro e _
    exact filterEntry_twice ppt s.markerPoses_ e
  · rfl

/-! ### The volume shown after a frame -/

/-- The filter loop over entries without a mesh changes nothing. -/
theorem renderFilterLoop_meshless (ppt : List Vec2 → Vec2 → ℚ) (polygon2D : List Transform)
    (done todo : StdMap PointCloudDrawable) (s : Scene)
    (hnone : ∀ e ∈ todo, e.2.mesh = none) :
    renderFilterLoop ppt polygon2D done todo s = s := by
  induction todo generalizing done with
  | nil => rfl
  | cons e rest ih =>
    obtain ⟨k, c⟩ := e
    have hc : c.mesh = none := hnone (k, c) (by simp)
    unfold renderFilterLoop
    simp only [hc]
    exact ih _ (fun e he => hnone e (by simp [he]))

/-- The value returned by `calculateMeshVolume` does not depend on the value
of `totalVolume` it is entered with. -/
theorem calculateMeshVolume_reset (s : Scene) (v : ℚ) (meshId : Int) :
    (calculateMeshVolume { s with totalVolume := v } meshId).1 =
      (calculateMeshVolume s meshId).1 := rfl

/-- After the filter loop, `totalVolume` is the volume of the last entry with
a mesh that the loop visited. -/
theorem renderFilterLoop_last (ppt : List Vec2 → Vec2 → ℚ) (polygon2D : List Transform)
    (done pre post : StdMap PointCloudDrawable) (id : Int) (d : PointCloudDrawable)
    (mesh : Mesh) (s : Scene) (hmesh : d.mesh = some mesh)
    (hnone : ∀ e ∈ post, e.2.mesh = none) :
    (renderFilterLoop ppt polygon2D done (pre ++ (id, d) :: post) s).totalVolume =
      (calculateMeshVolume
        (renderFilterLoop ppt polygon2D done (pre ++ (id, d) :: post) s) id).1 := by
  induction pre generalizing done s with
  | nil =>
    simp only [List.nil_append]
    unfold renderFilterLoop
    simp only [hmesh]
    rw [renderFilterLoop_meshless ppt polygon2D _ post _ hnone, calculateMeshVolume_snd]
    rfl
  | cons e rest ih =>
    obtain ⟨k, c⟩ := e
    simp only [List.cons_append]
    unfold renderFilterLoop
    cases hc : c.mesh with
    | none =>
      simp only
      exact ih _ _
    | some m =>
      simp only
      exact ih _ _

/-- An entry that is found splits the map. -/
theorem mapFind_split {α : Type} (m : StdMap α) (id : Int) (v : α)
    (h : mapFind m id = some v) : ∃ pre post, m = pre ++ (id, v) :: post := by
  induction m with
  | nil => simp [mapFind] at h
  | cons e rest ih =>
    obtain ⟨k, w⟩ := e
    unfold mapFind at h
    by_cases hk : k = id
    · simp only [hk, if_true, Option.some.injEq] at h
      exact ⟨[], rest, by rw [hk, h]; rfl⟩
    · simp only [hk, if_false] at h
      obtain ⟨pre, post, hm⟩ := ih h
      exact ⟨(k, w) :: pre, post, by rw [hm]; rfl⟩

/-- In a map with distinct keys every pair of the map is found at its key. -/
theorem mapFind_of_mem {α : Type} (m : StdMap α) (k : Int) (v : α)
    (hnodup : (mapKeys m).Nodup) (hmem : (k, v) ∈ m) : mapFind m k = some v := by
  induction m with
  | nil => simp at hmem
  | cons e rest ih =>
    obtain ⟨k1, w⟩ := e
    simp only [mapKeys, List.map_cons, List.nodup_cons] at hnodup
    unfold mapFind
    rcases List.mem_cons.mp hmem with h | h
    · cases h
      simp
    · have hne : k1 ≠ k := by
        intro hk
        apply hnodup.1
        rw [hk]
        exact List.mem_map.mpr ⟨(k, v), h, rfl⟩
      simp only [hne, if_false]
      exact ih hnodup.2 h

/-- In a map in ascending key order, the entries after the entry with a mesh
that has the greatest id have no mesh. -/
theorem meshless_after_greatest (pre post : StdMap PointCloudDrawable) (id : Int)
    (d : PointCloudDrawable)
    (hsorted : (mapKeys (pre ++ (id, d) :: post)).Pairwise (fun a b => a < b))
    (hmax : ∀ id1 d1, mapFind (pre ++ (id, d) :: post) id1 = some d1 →
      d1.hasMesh = true → id1 ≤ id) :
    ∀ e ∈ post, e.2.mesh = none := by
  intro e he
  obtain ⟨k, c⟩ := e
  have hnodup : (mapKeys (pre ++ (id, d) :: post)).Nodup :=
    hsorted.imp (fun h => ne_of_lt h)
  have hlt : id < k := by
    simp only [mapKeys, List.map_append, List.map_cons, List.pairwise_append,
      List.pairwise_cons] at hsorted
    exact hsorted.2.1.1 k (List.mem_map.mpr ⟨(k, c), he, rfl⟩)
  have hfind : mapFind (pre ++ (id, d) :: post) k = some c :=
    mapFind_of_mem _ k c hnodup (by simp [he])
  cases hc : c.mesh with
  | none => rfl
  | some m =>
    have := hmax k c hfind (by simp [PointCloudDrawable.hasMesh, hc])
    omega

/-- A frame whose pick does not return early, on a closed region of at least 3
points, runs the filter loop over the geometry store. -/
theorem Render_filters (ppt : List Vec2 → Vec2 → ℚ) (f : Frame) (s s0 : Scene)
    (hclosed : s.polygonClosed_ = true) (hlen : 3 ≤ s.markerPoses_.length)
    (hpick : renderPick f s = some (s0, false)) :
    s0.pointClouds_ = s.pointClouds_ ∧ s0.markerPoses_ = s.markerPoses_ ∧
    Render ppt f s = some (renderFilterLoop ppt s.markerPoses_ [] s.pointClouds_
      { s0 with doubleTapOn_ := false }) := by
  obtain ⟨hflag, hposes⟩ := renderPick_flag f s s0 hpick
  have hp := hposes hclosed
  have hpc := (renderPick_clouds f s s0 false hpick).1
  refine ⟨hpc, hp, ?_⟩
  unfold Render
  rw [hpick]
  simp only [hflag, hclosed, hp, hpc]
  rw [if_pos (by simp [hlen])]

/-- The region `exampleSquare` keeps every face of the unit cube. -/
theorem filterMeshInsidePolygon_unitCube :
    filterMeshInsidePolygon exampleTest exampleSquare unitCube Transform.getIdentity =
      unitCube := by
  rw [filterMeshInsidePolygon_polygons exampleTest exampleSquare unitCube Transform.getIdentity
    (by decide) (by simp [unitCube])]
  have hkeep : unitCube.polygons.filter
      (faceInside exampleTest (regionPolygon exampleSquare) unitCube.cloud
        (sceneTransform Transform.getIdentity unitCube.pose)) = unitCube.polygons := by
    rw [List.filter_eq_self]
    intro face hface
    simp only [faceInside, List.all_eq_true]
    intro idx hidx
    obtain ⟨h0, h8⟩ := unitCube_valid face hface idx hidx
    rw [vertexInside_iff]
    refine ⟨h0, h8, ?_⟩
    rw [show unitCube.pose = Transform.getIdentity from rfl, sceneTransform_identity]
    simp only [transformPoint_identity]
    have h8' : idx < 8 := h8
    interval_cases idx
    all_goals exact ⟨_, rfl, exampleTest_unitCube _ (by simp [unitCube])⟩
  rw [hkeep]

/-- The volume of an entry of a scene with the region `exampleSquare` that
holds the unit cube with identity pose is `1`. -/
theorem calculateMeshVolume_unitCube (s : Scene) (meshId : Int)
    (hregion : s.markerPoses_ = exampleSquare)
    (hfind : mapFind s.pointClouds_ meshId = some (PointCloudDrawable.ofMesh unitCube)) :
    (calculateMeshVolume s meshId).1 = 1 := by
  rw [calculateMeshVolume_valid s meshId (PointCloudDrawable.ofMesh unitCube) unitCube hfind rfl
    unitCube_valid, hregion, regionMean_exampleSquare]
  rw [show (PointCloudDrawable.ofMesh unitCube).pose = Transform.getIdentity from rfl,
    show unitCube.pose = Transform.getIdentity from rfl, sceneTransform_identity]
  exact volumeSpec_unitCube

/-- A frame whose pick closes the polygon returns the state left by the pick. -/
theorem Render_returns_early (ppt : List Vec2 → Vec2 → ℚ) (f : Frame) (s s1 : Scene)
    (h : renderPick f s = some (s1, true)) : Render ppt f s = some s1 := by
  unfold Render
  rw [h]

/-- The squared distance computed for the pick `(-1, 1/2, -253/255)` and the
first point `(-1, 1/2, -1)`: the difference `-2/255` and its square are
rounded. -/
theorem distSq_reTap :
    distSq (Transform.ofXYZ (-1) (1/2) (-1)) ⟨-1, 1/2, -253/255⟩ =
      F32.finite (8454531/137438953472) :=
  distSq_eval _ _ 0 0 (-8421505/1073741824) 0 0 (8454531/137438953472) 0
    (8454531/137438953472)
    (F32.round_dyadic _ _ 0 0
      (by norm_num [Transform.x, Transform.y, Transform.z, Transform.ofXYZ]))
    (F32.round_dyadic _ _ 0 0
      (by norm_num [Transform.x, Transform.y, Transform.z, Transform.ofXYZ]))
    (F32.round_near _ _ (-7) (-8421505)
      (by norm_num [Transform.x, Transform.y, Transform.z, Transform.ofXYZ]))
    (F32.round_dyadic _ _ 0 0 (by norm_num))
    (F32.round_dyadic _ _ 0 0 (by norm_num))
    (F32.round_near _ _ (-14) 8454531 (by norm_num))
    (F32.round_dyadic _ _ 0 0 (by norm_num))
    (F32.round_dyadic _ _ 8454531 (-37) (by norm_num))

/-- The pick `(-1, 1/2, -253/255)` passes the closure test on the region of
`exampleReTap`. -/
theorem closesPolygon_reTap :
    closesPolygon exampleReTap ⟨-1, 1/2, -253/255⟩ = true := by
  rw [closesPolygon_iff]
  refine ⟨by decide, Transform.ofXYZ (-1) (1/2) (-1), rfl, ?_⟩
  rw [distSq_reTap, closeThreshold_eq]
  norm_num [F32.lt]

/-- C23, counterexample: the region of `exampleReTap` is closed and has 4
points, the entry `7` has a mesh, and `totalVolume` is `0`. The pending cropping
tap recovers `(-1, 1/2, -253/255)`, next to the first region point
`(-1, 1/2, -1)`: the pick closes the polygon again and `Render` returns at
line 574, before the filter loop. After the frame `totalVolume` is still `0`,
and `calculateMeshVolume` of the entry `7` is `1`. -/
theorem Render_early_return_keeps_totalVolume :
    exampleReTap.polygonClosed_ = true ∧ 3 ≤ exampleReTap.markerPoses_.length ∧
    mapFind exampleReTap.pointClouds_ 7 = some (PointCloudDrawable.ofMesh unitCube) ∧
    Render exampleTest exampleFrameNear exampleReTap =
      some { exampleReTap with polygonClosed_ := true, doubleTapOn_ := false } ∧
    ({ exampleReTap with polygonClosed_ := true, doubleTapOn_ := false } : Scene).totalVolume
      = 0 ∧
    (calculateMeshVolume
      { exampleReTap with polygonClosed_ := true, doubleTapOn_ := false } 7).1 = 1 := by
  have hz : exampleFrameNear.zValueF = 1/255 := by
    norm_num [Frame.zValueF, exampleFrameNear]
  have hclip : pickClip exampleFrameNear exampleReTap = ⟨-1, 1/2, -253/255, 1⟩ := by
    simp only [pickClip, hz]
    norm_num [Mat4.mulVec, exampleFrameNear, Mat4.identity, exampleReTap]
  have hdiv : homogeneousDivide ⟨-1, 1/2, -253/255, 1⟩ =
      Recovered.finite ⟨-1, 1/2, -253/255⟩ := by
    norm_num [homogeneousDivide]
  have hc := closesPolygon_reTap
  have hpick : renderPick exampleFrameNear exampleReTap =
      some ({ exampleReTap with polygonClosed_ := true, doubleTapOn_ := false }, true) := by
    unfold renderPick
    rw [if_pos (by decide), if_pos (by rw [hz]; norm_num), hclip, hdiv]
    simp only
    rw [if_pos (by decide), croppingPick_of_closes exampleReTap _ hc]
  exact ⟨rfl, by decide, rfl, Render_returns_early _ _ _ _ hpick, rfl,
    calculateMeshVolume_unitCube _ 7 rfl rfl⟩

/-- C23: after a `Render` frame on a closed region of at least 3 points whose
pick does not return early (the frame reaches the filter loop of lines
592-615), with the geometry store in ascending id order, the global
`totalVolume` equals `calculateMeshVolume` of the entry with a mesh that has the
greatest id, the last one visited, whose mesh is then the filtered mesh; it is
not a sum over the entries. -/
theorem Render_totalVolume_last (ppt : List Vec2 → Vec2 → ℚ) (f : Frame) (s s0 : Scene)
    (id : Int) (d : PointCloudDrawable) (mesh : Mesh)
    (hsorted : (mapKeys s.pointClouds_).Pairwise (fun a b => a < b))
    (hclosed : s.polygonClosed_ = true) (hlen : 3 ≤ s.markerPoses_.length)
    (hpick : renderPick f s = some (s0, false))
    (hfind : mapFind s.pointClouds_ id = some d) (hmesh : d.mesh = some mesh)
    (hmax : ∀ id1 d1, mapFind s.pointClouds_ id1 = some d1 → d1.hasMesh = true → id1 ≤ id) :
    ∃ s1, Render ppt f s = some s1 ∧
      s1.totalVolume = (calculateMeshVolume s1 id).1 ∧
      mapFind s1.pointClouds_ id =
        some (d.updateMesh (filterMeshInsidePolygon ppt s.markerPoses_ mesh d.pose)) := by
  obtain ⟨hpc, hposes, hrender⟩ := Render_filters ppt f s s0 hclosed hlen hpick
  refine ⟨_, hrender, ?_, ?_⟩
  · obtain ⟨pre, post, hsplit⟩ := mapFind_split s.pointClouds_ id d hfind
    rw [hsplit] at hsorted hmax
    have hnone := meshless_after_greatest pre post id d hsorted hmax
    rw [hsplit]
    exact renderFilterLoop_last ppt s.markerPoses_ [] pre post id d mesh _ hmesh hnone
  · obtain ⟨v, hv⟩ := renderFilterLoop_eq ppt s.markerPoses_ [] s.pointClouds_
      { s0 with doubleTapOn_ := false } (by simp [hpc])
    rw [hv]
    simp only [List.nil_append]
    rw [mapFind_map_filterEntry, hfind]
    simp [filterEntry, hmesh]

/-- C23 at a concrete input: a frame without a pick on the scene that holds
the unit cube at the ids `7` and `8`. `totalVolume` is the volume `1` of the
entry `8`; the sum of the two volumes is `2`. -/
theorem Render_totalVolume_last_witness :
    ∃ s1, Render exampleTest exampleFrame exampleTwoCubes = some s1 ∧
      s1.totalVolume = (calculateMeshVolume s1 8).1 ∧
      s1.totalVolume = 1 ∧
      (calculateMeshVolume s1 7).1 + (calculateMeshVolume s1 8).1 = 2 := by
  have hmax : ∀ id1 d1, mapFind exampleTwoCubes.pointClouds_ id1 = some d1 →
      d1.hasMesh = true → id1 ≤ 8 := by
    intro id1 d1 h _
    have hk := mapFind_mem_keys _ id1 d1 h
    simp only [mapKeys, exampleTwoCubes, List.map_cons, List.map_nil, List.mem_cons,
      List.mem_singleton, List.not_mem_nil, or_false] at hk
    rcases hk with rfl | rfl <;> decide
  obtain ⟨s1, hr, hv, h8⟩ := Render_totalVolume_last exampleTest exampleFrame exampleTwoCubes
    exampleTwoCubes 8 (PointCloudDrawable.ofMesh unitCube) unitCube (by decide) rfl
    (by decide) (renderPick_idle exampleFrame exampleTwoCubes (Or.inl rfl)) rfl rfl hmax
  obtain ⟨_, _, hposes, hpc⟩ := Render_idle exampleTest exampleFrame exampleTwoCubes s1 rfl hr
  have hcube : (PointCloudDrawable.ofMesh unitCube).updateMesh
      (filterMeshInsidePolygon exampleTest exampleSquare unitCube Transform.getIdentity) =
      PointCloudDrawable.ofMesh unitCube := by
    rw [filterMeshInsidePolygon_unitCube]
    rfl
  have h8' : mapFind s1.pointClouds_ 8 = some (PointCloudDrawable.ofMesh unitCube) := by
    rw [h8]
    exact congrArg some hcube
  have h7' : mapFind s1.pointClouds_ 7 = some (PointCloudDrawable.ofMesh unitCube) := by
    rw [hpc, if_pos ⟨rfl, by decide⟩, mapFind_map_filterEntry]
    exact congrArg some hcube
  have hv8 : (calculateMeshVolume s1 8).1 = 1 := calculateMeshVolume_unitCube s1 8 hposes h8'
  have hv7 : (calculateMeshVolume s1 7).1 = 1 := calculateMeshVolume_unitCube s1 7 hposes h7'
  refine ⟨s1, hr, hv, ?_, ?_⟩
  · rw [hv, hv8]
  · rw [hv7, hv8]
    norm_num

end SSMART
